import Mathlib

/-!
# yrpc: dialer, peer and wire protocols

A shallow embedding of parts of `dialer.go`, `peer.go`,
`mixer/websocket/pbSubProto/pbSubProto.go` and
`proto/thriftproto/binary_proto.go`, with theorems about them.

Conventions of the embedding:

* a Go `error` is its text; a nil error is `none`;
* the network is an oracle: the successive results of `dialOne` (resp. of
  `Accept`) are given as a list, consumed one per call; a run that needs a
  result beyond the end of the list has not returned yet and yields `none`;
* a callback with side effects is a function on an explicit state.
-/

namespace Yrpc

/-! ## dialer.go -/

/-- The text of a non-nil Go `error`. -/
abbrev GoError := String

/-- A `net.Conn`, as far as the peer looks at it: the string of its local
address, and a serial number telling connections apart. -/
structure Conn where
  localAddr : String
  serial : Nat
deriving DecidableEq, Repr

/-- The fields of `Dialer` that `dialWithRetry` reads; `redialInterval` is a
`time.Duration` in nanoseconds, `redialTimes` an `int32`. -/
structure Dialer where
  network : String
  redialInterval : Int
  redialTimes : Int
deriving DecidableEq, Repr

/-- The type `redialCounter` (`int32`). -/
abbrev redialCounter := Int

/-- `newRedialCounter`: a counter holding `d.redialTimes`. -/
def Dialer.newRedialCounter (d : Dialer) : redialCounter := d.redialTimes

/-- `redialCounter.Next`: the returned flag and the counter afterwards.
The decrement applies to a positive `int32` only, so it cannot overflow. -/
def redialCounter.Next (r : redialCounter) : Bool × redialCounter :=
  let t := r
  if t = 0 then (false, r)
  else if t > 0 then (true, r - 1)
  else (true, r)

/-- The callback `fn func(conn net.Conn) error` of `dialWithRetry`, acting on
a state `σ`; `none` is Go's `fn == nil`. -/
abbrev DialCallback (σ : Type) := Option (Conn → σ → σ × Option GoError)

/-- One attempt, the block
`conn, err = d.dialOne(addr); if err == nil { if fn == nil {return conn, nil}; err = fn(conn); if err == nil {return conn, nil} }`:
`o` is what `dialOne` returned; the result is `.ok conn` when the block
returns `conn, nil`, and `.error err` when control goes on with `err` set. -/
def tryOnce {σ : Type} (fn : DialCallback σ) (o : Except GoError Conn) (s : σ) :
    σ × Except GoError Conn :=
  match o with
  | .error e => (s, .error e)
  | .ok conn =>
    match fn with
    | none => (s, .ok conn)
    | some f =>
      match f conn s with
      | (s', none) => (s', .ok conn)
      | (s', some e) => (s', .error e)

/-- What `dialWithRetry` returns, and what it did: the state left by the
callback, the number of calls of `dialOne`, and the durations slept, in
order. -/
structure DialResult (σ : Type) where
  conn : Option Conn
  err : Option GoError
  state : σ
  attempts : Nat
  sleeps : List Int

/-- The loop `for redialTimes.Next() { time.Sleep(d.redialInterval); ... }` of
`dialWithRetry`, entered with the counter `counter`, the error `err` of the
previous attempt, and the results `dials` that `dialOne` is going to return. -/
def redialLoop {σ : Type} (d : Dialer) (fn : DialCallback σ) :
    List (Except GoError Conn) → redialCounter → GoError → σ → Nat → List Int →
    Option (DialResult σ)
  | [], counter, err, s, attempts, sleeps =>
    match redialCounter.Next counter with
    | (false, _) => some ⟨none, some err, s, attempts, sleeps⟩
    | (true, _) => none
  | o :: rest, counter, err, s, attempts, sleeps =>
    match redialCounter.Next counter with
    | (false, _) => some ⟨none, some err, s, attempts, sleeps⟩
    | (true, counter') =>
      match tryOnce fn o s with
      | (s', .ok conn) =>
        some ⟨some conn, none, s', attempts + 1, sleeps ++ [d.redialInterval]⟩
      | (s', .error e) =>
        redialLoop d fn rest counter' e s' (attempts + 1) (sleeps ++ [d.redialInterval])

/-- `Dialer.dialWithRetry`, with `dials` the results that the successive calls
of `dialOne` return and `s` the state the callback starts from. -/
def Dialer.dialWithRetry {σ : Type} (d : Dialer) (fn : DialCallback σ)
    (dials : List (Except GoError Conn)) (s : σ) : Option (DialResult σ) :=
  match dials with
  | [] => none
  | o :: rest =>
    match tryOnce fn o s with
    | (s', .ok conn) => some ⟨some conn, none, s', 1, []⟩
    | (s', .error e) => redialLoop d fn rest d.newRedialCounter e s' 1 []

/-- `Dialer.Dial`: `dialWithRetry(addr, "", nil)`. -/
def Dialer.Dial (d : Dialer) (dials : List (Except GoError Conn)) :
    Option (DialResult Unit) :=
  d.dialWithRetry none dials ()

/-- The attempts on `dials` run one after the other from state `s`, none
stopping the run: the state at the end and the outcome of each attempt. -/
def runAttempts {σ : Type} (fn : DialCallback σ) :
    List (Except GoError Conn) → σ → σ × List (Except GoError Conn)
  | [], s => (s, [])
  | o :: rest, s =>
    let r := tryOnce fn o s
    let t := runAttempts fn rest r.1
    (t.1, r.2 :: t.2)

/-- An attempt outcome is a failure. -/
def isFailure : Except GoError Conn → Bool
  | .error _ => true
  | .ok _ => false

/-- The error of the last failure among `outcomes`, `e0` when there is none. -/
def lastError (e0 : GoError) : List (Except GoError Conn) → GoError
  | [] => e0
  | .error e :: rest => lastError e rest
  | .ok _ :: rest => lastError e0 rest

/-- The flags returned by `k` successive calls of `Next`, and the counter
afterwards. -/
def callsNext : Nat → redialCounter → List Bool × redialCounter
  | 0, r => ([], r)
  | k + 1, r =>
    let p := redialCounter.Next r
    let q := callsNext k p.2
    (p.1 :: q.1, q.2)

/-! ## Status (status.go is not among the sources) -/

/-- Modelled from the spec: `Status` is `{code:int32, msg:string, cause:string}`,
the type of `status.go`, which is not among the sources. A `*Status` of the
Go code is an `Option Status`, nil being `none`. -/
structure Status where
  code : Int
  msg : String
  cause : String
deriving DecidableEq, Repr

/-- Modelled from the spec: "`OK` when code==0". A nil `*Status` is OK:
`Dial` returns `nil` for success and its callers test `stat.OK()` on it. -/
def Status.OK : Option Status → Bool
  | none => true
  | some st => st.code == 0

/-- Modelled from the spec: `Cause()` gives the `cause` of the status as an
`error`; a nil status has none (`multiclient.go` calls `stat.Cause()` on the
nil status of a successful `Dial` and takes the result for "no error"). -/
def Status.Cause : Option Status → Option GoError
  | none => none
  | some st => some st.cause

/-- Modelled from the spec: `Copy(cause)`, a copy of the status with `cause`
for its cause; the `Copy` of `status.go` is not among the sources. -/
def Status.Copy (st : Status) (cause : GoError) : Status :=
  { st with cause := cause }

/-- Modelled from the spec: the status code `DialFailed` and its text,
declared in `status.go`, not among the sources. The spec lists DialFailed
among the codes besides OK, which is code 0; its number is left open. -/
structure Codes where
  CodeDialFailed : Int
  textDialFailed : String
  dialFailed_ne_zero : CodeDialFailed ≠ 0

/-- The variable `statDialFailed`: the status of code `CodeDialFailed`. -/
def Codes.statDialFailed (c : Codes) : Status :=
  ⟨c.CodeDialFailed, c.textDialFailed, ""⟩

/-! ## peer.go: Dial and the redial closure -/

/-- Modelled from the spec: the session states
`{preparing, ok, activeClosing, activeClosed, passiveClosed, redialing, redialFailed}`
of `session.go`, which is not among the sources. -/
inductive SessStatus
  | statusPreparing
  | statusOk
  | statusActiveClosing
  | statusActiveClosed
  | statusPassiveClosed
  | statusRedialing
  | statusRedialFailed
deriving DecidableEq, Repr

/-- The part of a `session` that `peer.go` reads and writes: the connection
and the ID of its socket, its status, and whether `redialForClientLocked` is
set. -/
structure Session where
  conn : Option Conn
  id : String
  status : SessStatus
  hasRedial : Bool
deriving DecidableEq, Repr

/-- `sess.LocalAddr().String()`: the local address of the socket's connection
(the empty string stands for a socket without connection, which `peer.go`
never asks). -/
def Session.LocalAddr (s : Session) : String :=
  match s.conn with
  | some c => c.localAddr
  | none => ""

/-- The effects of `peer.go` on a session and its surroundings, in the order
they happen. -/
inductive Event
  | newSession
  | socketReset (c : Conn)
  | setID (id : String)
  | connClose (c : Conn)
  | changeStatus (st : SessStatus)
  | closeLocked
  | tryChangeStatus (dst : SessStatus) (src : SessStatus)
  | startReadAndHandle
  | hubSet (id : String)
deriving DecidableEq, Repr

/-- A session together with the effects so far. -/
structure SessState where
  sess : Session
  trace : List Event
deriving DecidableEq, Repr

/-- The part of a `peer` that `Dial` uses. The plugin chains are given by the
status they return: `preDial` for the address dialled, `postDial` for the
session as it is when the chain runs and the flag `isRedial`. `closeLocked`
is the effect of `session.closeLocked` (not among the sources) on the session. -/
structure Peer where
  dialer : Dialer
  preDial : String → Option Status
  postDial : Session → Bool → Option Status
  codes : Codes
  closeLocked : Session → Session

/-- `newSession(p, nil, protoFunc)`. Modelled from the spec: a session is
"created `preparing`"; here it has no connection, no ID and no redial closure
yet. -/
def newSession : Session := ⟨none, "", .statusPreparing, false⟩

/-- The callback that `Dial` passes to `dialWithRetry`:
`sess.socket.Reset(conn)`, `sess.socket.SetID(sess.LocalAddr().String())`,
then the PostDial chain; when it is not OK, `conn.Close()` and the cause is
returned. -/
def Peer.dialFn (p : Peer) (conn : Conn) (st : SessState) : SessState × Option GoError :=
  let s1 : Session := { st.sess with conn := some conn }
  let s2 : Session := { s1 with id := s1.LocalAddr }
  let tr := st.trace ++ [.socketReset conn, .setID s1.LocalAddr]
  let stat := p.postDial s2 false
  if !Status.OK stat then (⟨s2, tr ++ [.connClose conn]⟩, Status.Cause stat)
  else (⟨s2, tr⟩, none)

/-- What `Dial` returns (`sess = none` is the nil `Session`), with the effects
and the number of dial attempts. -/
structure DialReturn where
  sess : Option Session
  stat : Option Status
  trace : List Event
  attempts : Nat
deriving DecidableEq, Repr

/-- `peer.Dial`, on the results `dials` of the successive `dialOne`. -/
def Peer.Dial (p : Peer) (addr : String) (dials : List (Except GoError Conn)) :
    Option DialReturn :=
  let stat := p.preDial addr
  if !Status.OK stat then some ⟨none, stat, [], 0⟩
  else
    match p.dialer.dialWithRetry (some p.dialFn) dials ⟨newSession, [.newSession]⟩ with
    | none => none
    | some r =>
      match r.err with
      | some err =>
        some ⟨none, some (p.codes.statDialFailed.Copy err), r.state.trace, r.attempts⟩
      | none =>
        let s1 : Session :=
          if p.dialer.redialTimes ≠ 0 then { r.state.sess with hasRedial := true }
          else r.state.sess
        let s2 : Session := { s1 with status := .statusOk }
        some ⟨some s2, none,
          r.state.trace ++ [.changeStatus .statusOk, .startReadAndHandle, .hubSet s2.id],
          r.attempts⟩

/-- The callback that the redial closure passes to `dialWithRetry`; `oldID`
and `oldIP` are the ID and the local address the session had when the closure
started. -/
def Peer.redialFn (p : Peer) (oldID oldIP : String) (conn : Conn) (st : SessState) :
    SessState × Option GoError :=
  let s1 : Session := { st.sess with conn := some conn }
  let newID := if oldIP == oldID then s1.LocalAddr else oldID
  let s2 : Session := { s1 with id := newID, status := .statusPreparing }
  let tr := st.trace ++ [.socketReset conn, .setID newID, .changeStatus .statusPreparing]
  let stat := p.postDial s2 true
  if !Status.OK stat then
    (⟨{ s2 with status := .statusRedialing },
      tr ++ [.connClose conn, .changeStatus .statusRedialing]⟩, Status.Cause stat)
  else (⟨s2, tr⟩, none)

/-- Modelled from the spec: `tryChangeStatus(dst, src)` of `session.go` (not
among the sources), one of the "atomic CAS transitions between the enumerated
states": the status becomes `dst` when it is `src`, and stays otherwise. -/
def Session.tryChangeStatus (s : Session) (dst src : SessStatus) : Session :=
  if s.status = src then { s with status := dst } else s

/-- What a run of the redial closure returns, the session and effects
afterwards, and the number of dial attempts it made. -/
structure RedialReturn where
  ok : Bool
  state : SessState
  attempts : Nat
deriving DecidableEq, Repr

/-- The closure `sess.redialForClientLocked` that `Dial` creates, run on the
session state `st`, with `dials` the results of the successive `dialOne`. -/
def Peer.redialForClientLocked (p : Peer) (addr : String)
    (dials : List (Except GoError Conn)) (st : SessState) : Option RedialReturn :=
  let oldID := st.sess.id
  let oldIP := st.sess.LocalAddr
  let oldConn := st.sess.conn
  let stat := p.preDial addr
  let run : Option (Option GoError × SessState × Nat) :=
    if Status.OK stat then
      match p.dialer.dialWithRetry (some (p.redialFn oldID oldIP)) dials st with
      | none => none
      | some r => some (r.err, r.state, r.attempts)
    else some (Status.Cause stat, st, 0)
  match run with
  | none => none
  | some (some _, st1, n) =>
    let s1 := p.closeLocked st1.sess
    let s2 := s1.tryChangeStatus .statusRedialFailed .statusRedialing
    some ⟨false,
      ⟨s2, st1.trace ++ [.closeLocked, .tryChangeStatus .statusRedialFailed .statusRedialing]⟩,
      n⟩
  | some (none, st1, n) =>
    let tr1 := match oldConn with
      | some c => st1.trace ++ [.connClose c]
      | none => st1.trace
    let s1 : Session := { st1.sess with status := .statusOk }
    some ⟨true,
      ⟨s1, tr1 ++ [.changeStatus .statusOk, .startReadAndHandle, .hubSet s1.id]⟩, n⟩

/-- The connections among the results of `dialOne`. -/
def connsOf : List (Except GoError Conn) → List Conn
  | [] => []
  | .ok c :: rest => c :: connsOf rest
  | .error _ :: rest => connsOf rest

/-- The connections that the first `k` calls of `dialOne` opened. -/
def openedConns (dials : List (Except GoError Conn)) (k : Nat) : List Conn :=
  connsOf (dials.take k)

/-- The effects of the callback of `Dial` on connections whose PostDial chain
fails, one after the other. -/
def rejectedTrace : List Conn → List Event
  | [] => []
  | c :: rest => .socketReset c :: .setID c.localAddr :: .connClose c :: rejectedTrace rest

/-! ## peer.go: serveListener -/

/-- An error returned by `Accept`: its text, whether it is a `net.Error`, and
what its `Temporary()` returns. -/
structure AcceptError where
  text : String
  isNetError : Bool
  temporary : Bool
deriving DecidableEq, Repr

/-- One round of the accept loop, as the environment decides it: what `Accept`
returns, and whether `p.closeCh` is closed when the `select` looks at it. -/
structure AcceptStep where
  result : Except AcceptError Conn
  closed : Bool

/-- The error `serveListener` returns: the variable `ErrListenClosed`, or the
error that `Accept` returned. -/
inductive ListenError
  | ErrListenClosed
  | acceptError (e : AcceptError)
deriving DecidableEq, Repr

/-- What the accept loop does besides calling `Accept`: `time.Sleep(d)`, and
starting the goroutine that serves an accepted connection. -/
inductive LoopEvent
  | sleep (d : Int)
  | serve (c : Conn)
deriving DecidableEq, Repr

/-- `time.Millisecond` and `time.Second`, in nanoseconds. -/
def Millisecond : Int := 1000000

/-- `time.Second`, in nanoseconds. -/
def Second : Int := 1000 * Millisecond

/-- An `int64` result: the value reduced to the range of two's complement. -/
def wrapInt64 (x : Int) : Int := (x + 2 ^ 63) % 2 ^ 64 - 2 ^ 63

/-- The update of `tempDelay` (a `time.Duration`, i.e. `int64`) on a temporary
error: `if tempDelay == 0 { tempDelay = 5 * time.Millisecond } else { tempDelay *= 2 }`
`if max := 1 * time.Second; tempDelay > max { tempDelay = max }`. -/
def nextDelay (tempDelay : Int) : Int :=
  let d := if tempDelay = 0 then 5 * Millisecond else wrapInt64 (tempDelay * 2)
  let max := 1 * Second
  if d > max then max else d

/-- A run of the accept loop: what it did, the error returned (`none` while the
loop is still waiting in `Accept`), and `tempDelay` at that point. -/
structure ServeRun where
  events : List LoopEvent
  ret : Option ListenError
  tempDelay : Int
deriving DecidableEq, Repr

/-- The `for` loop of `serveListener`, entered with `tempDelay`, on the rounds
`steps`. -/
def acceptLoop : List AcceptStep → Int → ServeRun
  | [], tempDelay => ⟨[], none, tempDelay⟩
  | step :: rest, tempDelay =>
    match step.result with
    | .error e =>
      if step.closed then ⟨[], some .ErrListenClosed, tempDelay⟩
      else if e.isNetError && e.temporary then
        let d := nextDelay tempDelay
        let r := acceptLoop rest d
        ⟨.sleep d :: r.events, r.ret, r.tempDelay⟩
      else ⟨[], some (.acceptError e), tempDelay⟩
    | .ok conn =>
      let r := acceptLoop rest 0
      ⟨.serve conn :: r.events, r.ret, r.tempDelay⟩

/-- `peer.serveListener`, from its accept loop on, which is entered with
`tempDelay` at its zero value. -/
def serveListener (steps : List AcceptStep) : ServeRun := acceptLoop steps 0

/-- A round in which `Accept` fails with a temporary `net.Error` while the
peer is not closed. -/
def AcceptStep.isTemporary (s : AcceptStep) : Bool :=
  match s.result with
  | .error e => !s.closed && e.isNetError && e.temporary
  | .ok _ => false

/-- A round in which `Accept` returns a connection. -/
def AcceptStep.isAccept (s : AcceptStep) : Bool :=
  match s.result with
  | .error _ => false
  | .ok _ => true

/-- The durations of the sleeps among `events`, in order. -/
def sleepsOf : List LoopEvent → List Int
  | [] => []
  | .sleep d :: rest => d :: sleepsOf rest
  | .serve _ :: rest => sleepsOf rest

/-- The delay the spec gives for the sleep after the `(i + 1)`-th consecutive
temporary error: `min (5ms * 2^i) 1s`. -/
def backoff (i : Nat) : Int := min (5 * Millisecond * 2 ^ i) (1 * Second)

/-- A round in which `Accept` fails with a temporary `net.Error`, the peer not
being closed. -/
def temporaryStep : AcceptStep := ⟨.error ⟨"accept: too many open files", true, true⟩, false⟩

/-! ## Messages (message.go is not among the sources) -/

/-- A Go `[]byte`, or the bytes of a Go `string`. -/
abbrev Bytes := List Nat

/-- Modelled from the spec: meta, an "ordered multimap of byte-string
key/value pairs". -/
abbrev Meta := List (Bytes × Bytes)

/-- Modelled from the spec: the `Message` of `message.go` (not among the
sources), with the fields the spec lists: sequence number (`int32`), message
type (byte), service method, body codec ID (byte), body, meta, status,
transfer-pipe IDs and size (`uint32`). -/
structure Message where
  seq : Int
  mtype : Nat
  serviceMethod : String
  bodyCodec : Nat
  body : Bytes
  meta : Meta
  status : Option Status
  xferPipe : List Nat
  size : Nat
deriving DecidableEq, Repr

/-- Modelled from the spec: the message types
"{CALL, REPLY, PUSH, AUTH_CALL, AUTH_REPLY}", constants of `message.go` (not
among the sources); numbered from 1 in the order the spec lists them. -/
def TypeCall : Nat := 1

/-- Modelled from the spec: the message type REPLY (see `TypeCall`). -/
def TypeReply : Nat := 2

/-- Modelled from the spec: the message type PUSH (see `TypeCall`). -/
def TypePush : Nat := 3

/-- Modelled from the spec: the message type AUTH_CALL (see `TypeCall`). -/
def TypeAuthCall : Nat := 4

/-- Modelled from the spec: the message type AUTH_REPLY (see `TypeCall`). -/
def TypeAuthReply : Nat := 5

/-- The methods of `Message`, `XferPipe`, `Meta` and `Status` that the protocols
call and that are not among the sources, as parameters: body marshalling, the
transfer pipe (`registered` tells the IDs that `XferPipe.Append` accepts), the
query-string forms of meta and status, and the check of `SetSize`. -/
structure MsgEnv where
  marshalBody : Message → Except GoError Bytes
  unmarshalBody : Message → Bytes → Except GoError Bytes
  onPack : List Nat → Bytes → Except GoError Bytes
  onUnpack : List Nat → Bytes → Except GoError Bytes
  registered : Nat → Bool
  metaQueryString : Meta → Bytes
  metaParse : Meta → Bytes → Meta
  statusQueryString : Option Status → Bytes
  statusDecodeQuery : Option Status → Bytes → Option Status
  checkMessageSize : Nat → Option GoError

/-- The conversion `uint32(n)` of a length. -/
def toUint32 (n : Nat) : Nat := n % 2 ^ 32

/-- The conversion `byte(x)` of an `int32`. -/
def toByte (x : Int) : Nat := (x % 256).toNat

/-- `m.SetSize(size)`: the size is checked, then recorded. -/
def Message.SetSize (env : MsgEnv) (m : Message) (size : Nat) : Option GoError × Message :=
  match env.checkMessageSize size with
  | some e => (some e, m)
  | none => (none, { m with size := size })

/-- `m.XferPipe().Append(id)` for one ID: appended when registered, refused
with an error otherwise. -/
def xferAppendOne (env : MsgEnv) (pipe : List Nat) (id : Nat) : Option GoError × List Nat :=
  if env.registered id then (none, pipe ++ [id]) else (some "unknown transfer pipe id", pipe)

/-- `m.XferPipe().Append(ids...)`, the IDs taken in order; stops at the first
one refused. -/
def xferAppend (env : MsgEnv) : List Nat → List Nat → Option GoError × List Nat
  | pipe, [] => (none, pipe)
  | pipe, id :: rest =>
    match xferAppendOne env pipe id with
    | (some e, pipe') => (some e, pipe')
    | (none, pipe') => xferAppend env pipe' rest

/-! ## mixer/websocket/pbSubProto/pbSubProto.go -/

/-- The fields of `pb.Payload` that `Pack` fills and `Unpack` reads (`Seq`,
`Mtype`, `BodyCodec` are `int32`). -/
structure Payload where
  Seq : Int
  Mtype : Int
  ServiceMethod : String
  Meta : Bytes
  BodyCodec : Int
  Body : Bytes
  XferPipe : Bytes
deriving DecidableEq, Repr

/-- The protobuf encoding of `codec.ProtoMarshal` / `codec.ProtoUnmarshal`, an
outside library: a message on the wire is the payload it encodes, of
`encodedLen` bytes. -/
structure PbWire where
  payload : Payload
  encodedLen : Nat
deriving DecidableEq, Repr

/-- What `ioutil.ReadAll` and `codec.ProtoUnmarshal` find on the stream: a read
error, `n` bytes that are no payload (with the error of `ProtoUnmarshal`), or
an encoded payload. -/
inductive PbInput
  | readError (e : GoError)
  | garbage (n : Nat) (e : GoError)
  | wire (w : PbWire)
deriving DecidableEq, Repr

/-- What `Pack` did: the error returned, the message afterwards, and the
writes on the stream. -/
structure PbPackResult where
  err : Option GoError
  msg : Message
  writes : List PbWire
deriving DecidableEq, Repr

/-- `pbSubProto.Pack`; `encodedLen` is the length of the encoding,
`marshalErr` the error of `codec.ProtoMarshal` and `writeErr` that of
`rw.Write`, if any. The error of `m.SetSize` is not looked at. -/
def pbSubProto.Pack (env : MsgEnv) (encodedLen : Payload → Nat)
    (marshalErr writeErr : Option GoError) (m : Message) : PbPackResult :=
  match env.marshalBody m with
  | .error e => ⟨some e, m, []⟩
  | .ok bodyBytes =>
    match env.onPack m.xferPipe bodyBytes with
    | .error e => ⟨some e, m, []⟩
    | .ok bodyBytes =>
      let payload : Payload :=
        { Seq := m.seq
          Mtype := (m.mtype : Int)
          ServiceMethod := m.serviceMethod
          Meta := env.metaQueryString m.meta
          BodyCodec := (m.bodyCodec : Int)
          Body := bodyBytes
          XferPipe := m.xferPipe }
      match marshalErr with
      | some e => ⟨some e, m, []⟩
      | none =>
        let b : PbWire := ⟨payload, encodedLen payload⟩
        ⟨writeErr, (Message.SetSize env m (toUint32 b.encodedLen)).2, [b]⟩

/-- `pbSubProto.Unpack` into the message `m`: the error returned and the
message afterwards. The error of `m.SetSize` is not looked at. -/
def pbSubProto.Unpack (env : MsgEnv) (input : PbInput) (m : Message) :
    Option GoError × Message :=
  match input with
  | .readError e => (some e, m)
  | .garbage n e => (some e, (Message.SetSize env m (toUint32 n)).2)
  | .wire w =>
    let m1 : Message := (Message.SetSize env m (toUint32 w.encodedLen)).2
    let s := w.payload
    let pipe := s.XferPipe.foldl (fun pipe r => (xferAppendOne env pipe r).2) m1.xferPipe
    let m2 : Message := { m1 with xferPipe := pipe }
    let m3 : Message := { m2 with bodyCodec := toByte s.BodyCodec }
    match env.onUnpack m3.xferPipe s.Body with
    | .error e => (some e, m3)
    | .ok bodyBytes =>
      let m4 : Message :=
        { m3 with
          seq := s.Seq
          mtype := toByte s.Mtype
          serviceMethod := s.ServiceMethod
          meta := env.metaParse m3.meta s.Meta }
      match env.unmarshalBody m4 bodyBytes with
      | .error e => (some e, m4)
      | .ok body => (none, { m4 with body := body })

/-! ## proto/thriftproto/binary_proto.go -/

/-- `HeaderStatus`. -/
def HeaderStatus : String := "Tp-Status"

/-- `HeaderMeta`. -/
def HeaderMeta : String := "Tp-Meta"

/-- `HeaderBodyCodec`. -/
def HeaderBodyCodec : String := "Tp-BodyCodec"

/-- `HeaderXferPipe`. -/
def HeaderXferPipe : String := "Tp-XferPipe"

/-- The message types of the thrift library: `thrift.INVALID_TMESSAGE_TYPE`,
the zero value of `thrift.TMessageType`. -/
def thriftINVALID : Nat := 0

/-- `thrift.CALL`. -/
def thriftCALL : Nat := 1

/-- `thrift.REPLY`. -/
def thriftREPLY : Nat := 2

/-- `thrift.EXCEPTION`. -/
def thriftEXCEPTION : Nat := 3

/-- `thrift.ONEWAY`. -/
def thriftONEWAY : Nat := 4

/-- What `WriteMessageBegin(name, typeID, seqID)` puts on the wire and
`ReadMessageBegin` gets back; the thrift library is taken to transmit it
unchanged. -/
structure TMessageBegin where
  name : String
  typeID : Nat
  seqID : Int
deriving DecidableEq, Repr

/-- One thrift message on the wire, as the header protocol sends it on
`Flush`: the message header, the binary body, and the write headers (a Go
`map[string]string`, as the list of its settings, latest first). -/
structure TFrame where
  begin : TMessageBegin
  body : Bytes
  headers : List (String × Bytes)
deriving DecidableEq, Repr

/-- `headers[key]` on a Go map: the empty string when the key is absent. -/
def lookupHeader : List (String × Bytes) → String → Bytes
  | [], _ => []
  | (k, v) :: rest, key => if k = key then v else lookupHeader rest key

/-- `SetWriteHeader(key, value)`. -/
def setHeader (hs : List (String × Bytes)) (key : String) (value : Bytes) :
    List (String × Bytes) :=
  (key, value) :: hs

/-- The Go conversion `string(b)` of a byte `b`: as for every integer, the
UTF-8 encoding of the code point `b`, one byte below 128 and two from 128 on. -/
def goStringOfByte (b : Nat) : Bytes :=
  if b < 128 then [b] else [192 + b / 64, 128 + b % 64]

/-- `writeMessageBegin`: the header written for `m`; `typeID` starts at the
zero value and the `switch` sets it for three message types. -/
def writeMessageBegin (m : Message) : TMessageBegin :=
  let typeID : Nat :=
    if m.mtype = TypeCall then thriftCALL
    else if m.mtype = TypeReply then thriftREPLY
    else if m.mtype = TypePush then thriftONEWAY
    else thriftINVALID
  ⟨m.serviceMethod, typeID, m.seq⟩

/-- `readMessageBegin`, on the result of `ReadMessageBegin`; `exception` is the
`TApplicationException` read from the wire when the type is `EXCEPTION`. -/
def readMessageBegin (exception : GoError) (r : Except GoError TMessageBegin)
    (m : Message) : Option GoError × Message :=
  match r with
  | .error e => (some e, m)
  | .ok b =>
    let m1 : Message := { m with serviceMethod := b.name, seq := b.seqID }
    if b.typeID = thriftCALL then (none, { m1 with mtype := TypeCall })
    else if b.typeID = thriftREPLY then (none, { m1 with mtype := TypeReply })
    else if b.typeID = thriftONEWAY then (none, { m1 with mtype := TypePush })
    else if b.typeID = thriftEXCEPTION then (some exception, m1)
    else (none, { m1 with mtype := TypePush })

/-- The two counters of `utils.ReadWriteCounter`: the bytes read and the bytes
written since each was last set to zero. -/
structure RWCounter where
  readed : Nat
  writed : Nat
deriving DecidableEq, Repr

/-- What `binaryPack` did: the error returned, the message and the counters
afterwards, and the frame flushed, if any. -/
structure TPackResult where
  err : Option GoError
  msg : Message
  counter : RWCounter
  frame : Option TFrame
deriving DecidableEq, Repr

/-- `tBinaryProto.binaryPack`; `frameLen` is the length of a frame on the
wire and `flushErr` the error of `Flush`, if any. -/
def binaryPack (env : MsgEnv) (frameLen : TFrame → Nat) (flushErr : Option GoError)
    (counter : RWCounter) (m : Message) : TPackResult :=
  match env.marshalBody m with
  | .error e => ⟨some e, m, counter, none⟩
  | .ok bodyBytes =>
    match env.onPack m.xferPipe bodyBytes with
    | .error e => ⟨some e, m, counter, none⟩
    | .ok bodyBytes =>
      let c1 : RWCounter := { counter with writed := 0 }
      let b := writeMessageBegin m
      let h0 : List (String × Bytes) := []
      let h1 := setHeader h0 HeaderStatus (env.statusQueryString m.status)
      let h2 := setHeader h1 HeaderMeta (env.metaQueryString m.meta)
      let h3 := setHeader h2 HeaderBodyCodec (goStringOfByte m.bodyCodec)
      let h4 := setHeader h3 HeaderXferPipe m.xferPipe
      let frame : TFrame := ⟨b, bodyBytes, h4⟩
      match flushErr with
      | some e => ⟨some e, m, c1, none⟩
      | none =>
        let c2 : RWCounter := { c1 with writed := c1.writed + frameLen frame }
        let r := m.SetSize env (toUint32 c2.writed)
        ⟨r.1, r.2, c2, some frame⟩

/-- `tBinaryProto.binaryUnpack` into the message `m`; `input` is the frame
that arrives, or the error of reading it. -/
def binaryUnpack (env : MsgEnv) (frameLen : TFrame → Nat) (exception : GoError)
    (counter : RWCounter) (input : Except GoError TFrame) (m : Message) :
    Option GoError × Message × RWCounter :=
  let c1 : RWCounter := { counter with writed := 0 }
  match input with
  | .error e => (some e, m, c1)
  | .ok frame =>
    let c2 : RWCounter := { c1 with readed := c1.readed + frameLen frame }
    match readMessageBegin exception (.ok frame.begin) m with
    | (some e, m1) => (some e, m1, c2)
    | (none, m1) =>
      let bodyBytes := frame.body
      let headers := frame.headers
      let m2 : Message :=
        { m1 with status := env.statusDecodeQuery m1.status (lookupHeader headers HeaderStatus) }
      let m3 : Message :=
        { m2 with meta := env.metaParse m2.meta (lookupHeader headers HeaderMeta) }
      let codecID := lookupHeader headers HeaderBodyCodec
      let m4 : Message :=
        match codecID with
        | [] => m3
        | c :: _ => { m3 with bodyCodec := c }
      match xferAppend env m4.xferPipe (lookupHeader headers HeaderXferPipe) with
      | (some e, pipe) => (some e, { m4 with xferPipe := pipe }, c2)
      | (none, pipe) =>
        let m5 : Message := { m4 with xferPipe := pipe }
        match env.onUnpack m5.xferPipe bodyBytes with
        | .error e => (some e, m5, c2)
        | .ok body =>
          match env.unmarshalBody m5 body with
          | .error e => (some e, m5, c2)
          | .ok v =>
            let r := Message.SetSize env { m5 with body := v } (toUint32 c2.readed)
            (r.1, r.2, c2)

/-- A message environment for examples: bodies are sent as they are, every
transfer-pipe ID is registered, meta and status have no wire form, and every
size is accepted. -/
def plainEnv : MsgEnv :=
  { marshalBody := fun m => .ok m.body
    unmarshalBody := fun _ b => .ok b
    onPack := fun _ b => .ok b
    onUnpack := fun _ b => .ok b
    registered := fun _ => true
    metaQueryString := fun _ => []
    metaParse := fun m _ => m
    statusQueryString := fun _ => []
    statusDecodeQuery := fun st _ => st
    checkMessageSize := fun _ => none }

/-- A message as it comes from the pool, all fields reset. -/
def emptyMessage : Message := ⟨0, 0, "", 0, [], [], none, [], 0⟩

/-! ## Example values -/

/-- Codes with DialFailed numbered 105. -/
def exampleCodes : Codes := ⟨105, "Dial Failed", by decide⟩

/-- A client peer without redial whose plugins accept everything. -/
def plainPeer : Peer :=
  { dialer := ⟨"tcp", 1000, 0⟩
    preDial := fun _ => none
    postDial := fun _ _ => none
    codes := exampleCodes
    closeLocked := fun s => s }

/-- A client peer with one redial whose PostDial chain rejects every session. -/
def rejectingPeer : Peer :=
  { dialer := ⟨"tcp", 1000, 1⟩
    preDial := fun _ => none
    postDial := fun _ _ => some ⟨403, "auth fail", "auth fail detail"⟩
    codes := exampleCodes
    closeLocked := fun s => s }

/-- A client peer whose PreDial chain rejects every address, and whose PostDial
chain rejects every session. -/
def preRejectingPeer : Peer :=
  { dialer := ⟨"tcp", 1000, 1⟩
    preDial := fun _ => some ⟨403, "forbidden", "address not allowed"⟩
    postDial := fun _ _ => some ⟨403, "auth fail", "auth fail detail"⟩
    codes := exampleCodes
    closeLocked := fun s => s }

/-- A session dialled from local port 50000, which lost its connection. -/
def lostSession : SessState :=
  ⟨⟨some ⟨"127.0.0.1:50000", 1⟩, "127.0.0.1:50000", .statusRedialing, true⟩, []⟩

/-- A session whose ID was set to `user-1234`, which lost its connection. -/
def namedLostSession : SessState :=
  ⟨⟨some ⟨"127.0.0.1:50000", 1⟩, "user-1234", .statusRedialing, true⟩, []⟩

/-- A reply carrying the status with which the auth checker of
`websocket_test.go` answers: code 403, "auth fail". -/
def rejectedReply : Message :=
  ⟨7, TypeReply, "/p/divide", 115, [], [], some ⟨403, "auth fail", "auth fail detail"⟩, [], 0⟩

/-- A message with body codec `b`. -/
def codecMessage (b : Nat) : Message := ⟨1, TypeCall, "/home/test", b, [], [], none, [], 0⟩

/-- The message the auth plugin sends first: type AUTH_CALL, empty service
method. -/
def authCallMessage : Message := ⟨1, TypeAuthCall, "", 115, [], [], none, [], 0⟩

/-- The message `binaryUnpack` leaves, from a fresh message and fresh counters,
on the frame that `binaryPack` flushed for `m`; `none` when nothing was
flushed. -/
def binaryRoundTrip (env : MsgEnv) (m : Message) : Option (Option GoError × Message) :=
  match (binaryPack env (fun _ => 0) none ⟨0, 0⟩ m).frame with
  | none => none
  | some frame =>
    let r := binaryUnpack env (fun _ => 0) "exception" ⟨0, 0⟩ (.ok frame) emptyMessage
    some (r.1, r.2.1)

/-! ## proto/thriftproto/struct_proto.go -/

/-- Modelled from the spec: `codec.NilCodecID`, the "sentinel `NilCodec`
(ID 0)"; the codec package is not among the sources. -/
def NilCodecID : Nat := 0

/-- The part of `structPack` from `t.packLock.Lock()` on, for a message `m`
that has passed the checks of transfer pipe and body codec. -/
def structPackWrite (env : MsgEnv) (asTStruct : Message → Option (Except GoError Bytes))
    (frameLen : TFrame → Nat) (flushErr : Option GoError) (counter : RWCounter)
    (m : Message) : TPackResult :=
  let c1 : RWCounter := { counter with writed := 0 }
  let b := writeMessageBegin m
  match asTStruct m with
  | none => ⟨some "thrift codec: body does not implement thrift.TStruct", m, c1, none⟩
  | some (.error e) => ⟨some e, m, c1, none⟩
  | some (.ok bodyBytes) =>
    let h0 : List (String × Bytes) := []
    let h1 := setHeader h0 HeaderStatus (env.statusQueryString m.status)
    let h2 := setHeader h1 HeaderMeta (env.metaQueryString m.meta)
    let frame : TFrame := ⟨b, bodyBytes, h2⟩
    match flushErr with
    | some e => ⟨some e, m, c1, none⟩
    | none =>
      let c2 : RWCounter := { c1 with writed := c1.writed + frameLen frame }
      let r := m.SetSize env (toUint32 c2.writed)
      ⟨r.1, r.2, c2, some frame⟩

/-- `tStructProto.structPack`. `ID_THRIFT` is `codec.ID_THRIFT` (the codec
package is not among the sources); `asTStruct m` is `none` when the body of
`m` is no `thrift.TStruct`, and else what its `Write` puts on the wire, or the
error of `Write`; `frameLen` and `flushErr` are as for `binaryPack`. -/
def structPack (env : MsgEnv) (ID_THRIFT : Nat)
    (asTStruct : Message → Option (Except GoError Bytes)) (frameLen : TFrame → Nat)
    (flushErr : Option GoError) (counter : RWCounter) (m : Message) : TPackResult :=
  if m.xferPipe.length > 0 then ⟨some "unsupport transfer pipe", m, counter, none⟩
  else
    let bodyCodec := m.bodyCodec
    if bodyCodec = NilCodecID then
      structPackWrite env asTStruct frameLen flushErr counter { m with bodyCodec := ID_THRIFT }
    else if bodyCodec ≠ ID_THRIFT then
      ⟨some "body codec must be thrift", m, counter, none⟩
    else structPackWrite env asTStruct frameLen flushErr counter m

/-- `tStructProto.structUnpack` into the message `m`. `readTStruct m bytes` is
`none` when the body that `m.UnmarshalBody(nil)` leaves on `m` is no
`thrift.TStruct`, and else the body its `Read` yields from `bytes`, or the
error of `Read`. -/
def structUnpack (env : MsgEnv) (ID_THRIFT : Nat)
    (readTStruct : Message → Bytes → Option (Except GoError Bytes)) (frameLen : TFrame → Nat)
    (exception : GoError) (counter : RWCounter) (input : Except GoError TFrame)
    (m : Message) : Option GoError × Message × RWCounter :=
  let c1 : RWCounter := { counter with writed := 0 }
  match input with
  | .error e => (some e, m, c1)
  | .ok frame =>
    let c2 : RWCounter := { c1 with readed := c1.readed + frameLen frame }
    match readMessageBegin exception (.ok frame.begin) m with
    | (some e, m1) => (some e, m1, c2)
    | (none, m1) =>
      let m2 : Message :=
        match env.unmarshalBody m1 [] with
        | .ok v => { m1 with body := v }
        | .error _ => m1
      match readTStruct m2 frame.body with
      | none => (some "thrift codec: body does not implement thrift.TStruct", m2, c2)
      | some (.error e) => (some e, m2, c2)
      | some (.ok v) =>
        let m3 : Message := { m2 with body := v }
        let headers := frame.headers
        let m4 : Message :=
          { m3 with status := env.statusDecodeQuery m3.status (lookupHeader headers HeaderStatus) }
        let m5 : Message :=
          { m4 with meta := env.metaParse m4.meta (lookupHeader headers HeaderMeta) }
        let m6 : Message := { m5 with bodyCodec := ID_THRIFT }
        let r := Message.SetSize env m6 (toUint32 c2.readed)
        (r.1, r.2, c2)

/-- Successive `binaryUnpack` calls on one connection, each into a fresh
message, the counters going from one call to the next: the error and the size
recorded by each call. -/
def binaryUnpackAll (env : MsgEnv) (frameLen : TFrame → Nat) :
    RWCounter → List TFrame → List (Option GoError × Nat)
  | _, [] => []
  | c, f :: rest =>
    let r := binaryUnpack env frameLen "exception" c (.ok f) emptyMessage
    (r.1, r.2.1.size) :: binaryUnpackAll env frameLen r.2.2 rest

/-- Successive `structUnpack` calls on one connection, as `binaryUnpackAll`. -/
def structUnpackAll (env : MsgEnv) (ID_THRIFT : Nat)
    (readTStruct : Message → Bytes → Option (Except GoError Bytes)) (frameLen : TFrame → Nat) :
    RWCounter → List TFrame → List (Option GoError × Nat)
  | _, [] => []
  | c, f :: rest =>
    let r := structUnpack env ID_THRIFT readTStruct frameLen "exception" c (.ok f) emptyMessage
    (r.1, r.2.1.size) :: structUnpackAll env ID_THRIFT readTStruct frameLen r.2.2 rest

/-- A frame whose body has the bytes `body`. -/
def exampleFrame (body : Bytes) : TFrame := ⟨⟨"Home.Test", thriftCALL, 1⟩, body, []⟩

/-- The length of a frame on the wire, for examples: a header of 20 bytes and
the body. -/
def exampleFrameLen (f : TFrame) : Nat := 20 + f.body.length

/-- A message environment in which only the transfer-pipe ID 103 (`'g'`) is
registered; for the rest as `plainEnv`. -/
def gzipOnlyEnv : MsgEnv := { plainEnv with registered := fun id => id == 103 }

/-- A payload whose transfer-pipe list holds the ID 122 (`'z'`). -/
def unknownPipePayload : Payload := ⟨1, 1, "/home/test", [], 115, [1, 2, 3], [122]⟩

/-! ## plugin/auth/auth.go -/

/-- Modelled from the spec: the status codes `WriteFailed`,
`InternalServerError` and `UnauthorizedError` with the text of the last,
declared in `status.go`, not among the sources; their numbers are left open. -/
structure AuthCodes where
  CodeWriteFailed : Int
  CodeInternalServerError : Int
  CodeUnauthorized : Int
  textUnauthorized : String

/-- The variable `MultiSendErr`. -/
def MultiSendErr (c : AuthCodes) : Status :=
  ⟨c.CodeWriteFailed, "auth-bearer plugin usage is incorrect", "multiple call SendOnce function"⟩

/-- The variable `MultiRecvErr`. -/
def MultiRecvErr (c : AuthCodes) : Status :=
  ⟨c.CodeInternalServerError, "auth-checker plugin usage is incorrect",
    "multiple call RecvOnce function"⟩

/-- A message returned by `sess.PreReceive`, as far as the plugin looks at it:
its type and its status. -/
structure ReceivedMsg where
  mtype : Nat
  status : Option Status
deriving DecidableEq, Repr

/-- What the plugin does on the session: `sess.PreSend(mtype, "", body, stat)`
and `sess.PreReceive(...)`. -/
inductive AuthEvent
  | preSend (mtype : Nat) (stat : Option Status)
  | preReceive
deriving DecidableEq, Repr

/-- The session as the plugin meets it (`PreSend` and `PreReceive` belong to
`session.go`, not among the sources): the status that `PreSend` returns, for
the type and status of the message sent, and the message that `PreReceive`
returns. -/
structure AuthEnv where
  codes : AuthCodes
  preSend : Nat → Option Status → Option Status
  preReceive : ReceivedMsg

/-- The state of one run of `PostDial` or `PostAccept`: the variable `called`,
the events on the session so far, and the statuses that the calls of
`SendOnce` (or `RecvOnce`) returned so far. -/
structure OnceState where
  called : Int
  events : List AuthEvent
  results : List (Option Status)
deriving DecidableEq, Repr

/-- `atomic.CompareAndSwapInt32(&v, old, new)` run alone: whether it swapped,
and the value afterwards. -/
def CompareAndSwapInt32 (v old new : Int) : Bool × Int :=
  if v = old then (true, new) else (false, v)

/-- The status `NewStatus(CodeUnauthorized, CodeText(CodeUnauthorized), ...)`
for a first auth message of the wrong type. -/
def statUnexpectedType (c : AuthCodes) (expected : String) : Status :=
  ⟨c.CodeUnauthorized, c.textUnauthorized, "auth message(1st) expect: " ++ expected⟩

/-- The closure that `authBearerPlugin.PostDial` passes for `SendOnce`, called
in state `st`: the status returned and the state afterwards. -/
def SendOnce (env : AuthEnv) (st : OnceState) : Option Status × OnceState :=
  match CompareAndSwapInt32 st.called 0 1 with
  | (false, v) => (some (MultiSendErr env.codes), { st with called := v })
  | (true, v) =>
    let stat := env.preSend TypeAuthCall none
    let st1 : OnceState := { st with called := v, events := st.events ++ [.preSend TypeAuthCall none] }
    if !Status.OK stat then (stat, st1)
    else
      let retMsg := env.preReceive
      let st2 : OnceState := { st1 with events := st1.events ++ [.preReceive] }
      if !Status.OK retMsg.status then (retMsg.status, st2)
      else if retMsg.mtype ≠ TypeAuthReply then
        (some (statUnexpectedType env.codes "AUTH_REPLY"), st2)
      else (none, st2)

/-- The closure that `authCheckerPlugin.PostAccept` passes for `RecvOnce`,
called in state `st`. -/
def RecvOnce (env : AuthEnv) (st : OnceState) : Option Status × OnceState :=
  match CompareAndSwapInt32 st.called 0 1 with
  | (false, v) => (some (MultiRecvErr env.codes), { st with called := v })
  | (true, v) =>
    let infoMsg := env.preReceive
    let st1 : OnceState := { st with called := v, events := st.events ++ [.preReceive] }
    if !Status.OK infoMsg.status then (infoMsg.status, st1)
    else if infoMsg.mtype ≠ TypeAuthCall then
      (some (statUnexpectedType env.codes "AUTH_CALL"), st1)
    else (none, st1)

/-- A `Bearer`, the function of the user: it returns a status, or calls
`SendOnce` and goes on according to the status it gets. -/
inductive BearerProg
  | done (stat : Option Status)
  | send (k : Option Status → BearerProg)

/-- A `Checker`, the function of the user: it returns a result and a status, or
calls `RecvOnce` and goes on according to the status it gets. -/
inductive CheckerProg
  | done (ret : Bytes) (stat : Option Status)
  | recv (k : Option Status → CheckerProg)

/-- The run of a `Bearer` with the closure `SendOnce`. -/
def runBearer (env : AuthEnv) : BearerProg → OnceState → Option Status × OnceState
  | .done stat, st => (stat, st)
  | .send k, st =>
    let r := SendOnce env st
    runBearer env (k r.1) { r.2 with results := r.2.results ++ [r.1] }

/-- The run of a `Checker` with the closure `RecvOnce`. -/
def runChecker (env : AuthEnv) : CheckerProg → OnceState → (Bytes × Option Status) × OnceState
  | .done ret stat, st => ((ret, stat), st)
  | .recv k, st =>
    let r := RecvOnce env st
    runChecker env (k r.1) { r.2 with results := r.2.results ++ [r.1] }

/-- `authBearerPlugin.PostDial`: the status returned and the state at the end
(`bearerFunc = none` is the nil function). -/
def authBearerPlugin.PostDial (env : AuthEnv) (bearerFunc : Option BearerProg) :
    Option Status × OnceState :=
  match bearerFunc with
  | none => (none, ⟨0, [], []⟩)
  | some prog => runBearer env prog ⟨0, [], []⟩

/-- `authCheckerPlugin.PostAccept`: the status returned and the state at the
end. The test `stat == MultiRecvErr` compares pointers in Go; here the
statuses are compared, so a status of the checker's own that equals
`MultiRecvErr` field by field is taken for it: both branches send the same
AUTH_REPLY, and they differ only in the status returned when that `PreSend`
fails. -/
def authCheckerPlugin.PostAccept (env : AuthEnv) (checkerFunc : Option CheckerProg) :
    Option Status × OnceState :=
  match checkerFunc with
  | none => (none, ⟨0, [], []⟩)
  | some prog =>
    let r := runChecker env prog ⟨0, [], []⟩
    let stat := r.1.2
    if stat = some (MultiRecvErr env.codes) then
      (stat, { r.2 with events := r.2.events ++ [.preSend TypeAuthReply stat] })
    else
      let stat2 := env.preSend TypeAuthReply stat
      let st : OnceState := { r.2 with events := r.2.events ++ [.preSend TypeAuthReply stat] }
      if !Status.OK stat2 then (stat2, st) else (stat, st)

/-- A bearer as the one of `websocket_test.go`: it calls `SendOnce` once and
returns the status it gets. -/
def singleSendBearer : BearerProg := .send fun stat => .done stat

/-- A checker as the one of `websocket_test.go` when the credentials are wrong:
it calls `RecvOnce` once, returns a status that is not OK as it is, and
otherwise rejects with code 403. -/
def rejectingChecker : CheckerProg :=
  .recv fun stat =>
    if Status.OK stat then .done [] (some ⟨403, "auth fail", "auth fail detail"⟩)
    else .done [] stat

/-- A bearer that calls `SendOnce` three times and returns the last status. -/
def tripleSendBearer : BearerProg := .send fun _ => .send fun _ => .send fun stat => .done stat

/-- Codes for examples: WriteFailed 104, InternalServerError 500,
Unauthorized 401. -/
def exampleAuthCodes : AuthCodes := ⟨104, 500, 401, "Unauthorized"⟩

/-- The session of the server in an auth handshake: the AUTH_CALL of the
client arrives, and sending succeeds. -/
def authServerEnv : AuthEnv := ⟨exampleAuthCodes, fun _ _ => none, ⟨TypeAuthCall, none⟩⟩

/-- The message the other side gets for the last `PreSend` among `events`, type
and status arriving as sent. -/
def lastSent : List AuthEvent → Option ReceivedMsg
  | [] => none
  | .preSend mtype stat :: rest =>
    match lastSent rest with
    | some m => some m
    | none => some ⟨mtype, stat⟩
  | .preReceive :: rest => lastSent rest

/-- The session of the client in an auth handshake: sending succeeds, and the
message `reply` arrives. -/
def authClientEnv (reply : ReceivedMsg) : AuthEnv := ⟨exampleAuthCodes, fun _ _ => none, reply⟩

/-! ## mixer/websocket/handshake_auth.go -/

/-- A Go `http.Header`: for each canonical key, its values in order. -/
abbrev HttpHeader := List (String × List String)

/-- `Header.Get(key)`: the first value of the key, the empty string when there
is none. -/
def HttpHeader.Get : HttpHeader → String → String
  | [], _ => ""
  | (k, vs) :: rest, key =>
    if k = key then
      match vs with
      | v :: _ => v
      | [] => ""
    else HttpHeader.Get rest key

/-- `Header.Set(key, value)`: the key gets the single value `value`. -/
def HttpHeader.Set (h : HttpHeader) (key value : String) : HttpHeader :=
  (key, [value]) :: h.filter fun e => e.1 ≠ key

/-- An `http.Request`, as far as the plugin looks at it: the header and the raw
query. -/
structure HttpRequest where
  header : HttpHeader
  rawQuery : String
deriving DecidableEq, Repr

/-- The constant `sessionHeader`. -/
def sessionHeader : String := "Erpc-Session-Id"

/-- `HandshakeAuthPlugin`: `CheckFunc` gives the session ID and a status for a
request, `AcceptFunc` a status for the session it sees; `none` is nil. -/
structure HandshakeAuthPlugin where
  CheckFunc : Option (HttpRequest → String × Option Status)
  AcceptFunc : Option (Session → Option Status)

/-- `HandshakeAuthPlugin.PreHandshake`: the status returned and the request
afterwards. -/
def HandshakeAuthPlugin.PreHandshake (p : HandshakeAuthPlugin) (r : HttpRequest) :
    Option Status × HttpRequest :=
  match p.CheckFunc with
  | none => (none, r)
  | some check =>
    let (id, stat) := check r
    (stat, { r with header := r.header.Set sessionHeader id })

/-- `HandshakeAuthPlugin.PostAccept`, with `request` the `conn.Request()`: the
status returned and the session afterwards. -/
def HandshakeAuthPlugin.PostAccept (p : HandshakeAuthPlugin) (sess : Session)
    (request : HttpRequest) : Option Status × Session :=
  match p.AcceptFunc with
  | none => (none, sess)
  | some accept =>
    let id := request.header.Get sessionHeader
    let sess1 : Session := { sess with id := id }
    let stat := accept sess1
    (stat, sess1)

/-! ## mixer/websocket/server.go: the hook chains -/

/-- What the call of a plugin's hook does: it returns a status, or panics with
a value. -/
inductive HookResult
  | returns (stat : Option Status)
  | panics (value : GoError)
deriving DecidableEq, Repr

/-- A plugin of the container, as the websocket server meets it: its name, and
for each of the two hooks what its call does at its turn, `none` when the
plugin does not implement the hook. -/
structure WsPlugin where
  name : String
  preHandshake : Option HookResult
  postAccept : Option HookResult
deriving DecidableEq, Repr

/-- What a hook chain returns, and the names of the plugins whose hook it
called, in order. -/
structure ChainRun where
  stat : Option Status
  invoked : List String
deriving DecidableEq, Repr

/-- The variable `statInternalServerError` of `server.go`; code and text come
from `status.go`, not among the sources. -/
def statInternalServerError (code : Int) (text : String) : Status := ⟨code, text, ""⟩

/-- The loop `for _, plugin := range p.GetAll()` of `preHandshake` and of
`postAccept`, with the deferred `recover`: `hookOf` picks the hook, `statISE`
is `statInternalServerError`. -/
def hookChain (statISE : Status) (hookOf : WsPlugin → Option HookResult) :
    List WsPlugin → ChainRun
  | [] => ⟨none, []⟩
  | plugin :: rest =>
    match hookOf plugin with
    | none => hookChain statISE hookOf rest
    | some (.panics value) => ⟨some (statISE.Copy value), [plugin.name]⟩
    | some (.returns stat) =>
      if !Status.OK stat then ⟨stat, [plugin.name]⟩
      else
        let r := hookChain statISE hookOf rest
        ⟨r.stat, plugin.name :: r.invoked⟩

/-- `serverHandler.preHandshake`, on the plugins that `GetAll()` returns. -/
def serverHandler.preHandshake (statISE : Status) (plugins : List WsPlugin) : ChainRun :=
  hookChain statISE (fun pl => pl.preHandshake) plugins

/-- `serverHandler.postAccept`, on the plugins that `GetAll()` returns. -/
def serverHandler.postAccept (statISE : Status) (plugins : List WsPlugin) : ChainRun :=
  hookChain statISE (fun pl => pl.postAccept) plugins

/-- A plugin that does not implement the hook, or whose hook returns an OK
status. -/
def hookPasses : Option HookResult → Bool
  | none => true
  | some (.returns stat) => Status.OK stat
  | some (.panics _) => false

/-- The names of the plugins among `plugins` that implement the hook. -/
def implementers (hookOf : WsPlugin → Option HookResult) : List WsPlugin → List String
  | [] => []
  | plugin :: rest =>
    match hookOf plugin with
    | none => implementers hookOf rest
    | some _ => plugin.name :: implementers hookOf rest

/-! ## plugin/ignorecase/ignorecase.go -/

/-- `strings.ToLower`: every rune is mapped by `lower`, which stands for
`unicode.ToLower`. -/
def ToLower (lower : Char → Char) (s : String) : String := ⟨s.data.map lower⟩

/-- A `ReadCtx`, as far as the plugin looks at it: the service method. -/
structure ReadCtx where
  serviceMethod : String
deriving DecidableEq, Repr

/-- `ignoreCase.PostReadCallHeader`: the status returned and the context
afterwards. -/
def ignoreCase.PostReadCallHeader (lower : Char → Char) (ctx : ReadCtx) :
    Option Status × ReadCtx :=
  (none, { ctx with serviceMethod := ToLower lower ctx.serviceMethod })

/-- `ignoreCase.PostReadPushHeader`: the status returned and the context
afterwards. -/
def ignoreCase.PostReadPushHeader (lower : Char → Char) (ctx : ReadCtx) :
    Option Status × ReadCtx :=
  (none, { ctx with serviceMethod := ToLower lower ctx.serviceMethod })

/-- Modelled from the spec: the lookup of the router (not among the sources),
"exact-match on the canonical service method": the registered method found
for the service method `q`. -/
def lookupHandler (registered : List String) (q : String) : Option String :=
  if q ∈ registered then some q else none

/-! ## peer.go: ServeConn and the accepted connections -/

/-- The effects of `ServeConn` and of the goroutine of the accept loop, in the
order they happen. -/
inductive AcceptEvent
  | setReadDeadline (t : Int)
  | tlsHandshake
  | newSession (c : Conn)
  | sessClose
  | changeStatus (st : SessStatus)
  | startReadAndHandle
  | hubSet (id : String)
deriving DecidableEq, Repr

/-- The part of a `peer` that serving a connection uses: the PostAccept chain,
given by the status it returns for the session, the two default ages (each a
`time.Duration`), and the code `CodeWrongConn` of `status.go`. -/
structure AcceptPeer where
  postAccept : Session → Option Status
  defaultSessionAge : Int
  defaultContextAge : Int
  CodeWrongConn : Int

/-- What `ServeConn` finds out about the connection: whether
`asQUIC(network)` is not empty and then whether the connection is a
`*quic.Conn`, else whether `asKCP(network)` is not empty and then whether it is
a `*kcp.UDPSession`. -/
inductive ConnNetwork
  | quic (network : String) (isQuicConn : Bool)
  | kcp (network : String) (isUDPSession : Bool)
  | other (network : String)
deriving DecidableEq, Repr

/-- `newSession(p, conn, protoFunc)` for a connection. Modelled from the spec:
the session is "created `preparing`" and its "identity defaults to
local-address string"; it has no redial closure. -/
def newSessionOn (c : Conn) : Session := ⟨some c, c.localAddr, .statusPreparing, false⟩

/-- What `ServeConn` returns (`sess = none` is the nil `Session`), with the
effects. -/
structure ServeReturn where
  sess : Option Session
  stat : Option Status
  trace : List AcceptEvent
deriving DecidableEq, Repr

/-- The status `NewStatus(CodeWrongConn, "not support "+network, ...)`. -/
def statWrongConn (p : AcceptPeer) (network : String) : Status :=
  ⟨p.CodeWrongConn, "not support " ++ network,
    "network must be one of the following: tcp, tcp4, tcp6, unix, unixpacket, kcp or quic"⟩

/-- The end of `ServeConn`, from `newSession` on. -/
def AcceptPeer.serveSession (p : AcceptPeer) (conn : Conn) : ServeReturn :=
  let sess := newSessionOn conn
  let stat := p.postAccept sess
  if !Status.OK stat then ⟨none, stat, [.newSession conn, .sessClose]⟩
  else
    ⟨some { sess with status := .statusOk }, none,
      [.newSession conn, .changeStatus .statusOk, .startReadAndHandle, .hubSet sess.id]⟩

/-- `peer.ServeConn`. -/
def AcceptPeer.ServeConn (p : AcceptPeer) (net : ConnNetwork) (conn : Conn) : ServeReturn :=
  match net with
  | .quic network false => ⟨none, some (statWrongConn p network), []⟩
  | .kcp network false => ⟨none, some (statWrongConn p network), []⟩
  | _ => p.serveSession conn

/-- The read deadlines and the TLS handshake with which the goroutine of the
accept loop starts on a `*tls.Conn`; `now1` and `now2` are what the two calls
of `coarsetime.CeilingTimeNow()` return. -/
def AcceptPeer.tlsEvents (p : AcceptPeer) (now1 now2 : Int) : List AcceptEvent :=
  (if p.defaultSessionAge > 0 then [.setReadDeadline (now1 + p.defaultSessionAge)] else [])
    ++ (if p.defaultContextAge > 0 then [.setReadDeadline (now2 + p.defaultContextAge)]
      else [])
    ++ [.tlsHandshake]

/-- The goroutine that the accept loop of `serveListener` starts for an
accepted connection. `tls` is `none` when the connection is no `*tls.Conn`,
and else the error of `Handshake`, if any. The result is the effects and the
session at the end, if one was created. -/
def AcceptPeer.serveAccepted (p : AcceptPeer) (tls : Option (Option GoError))
    (now1 now2 : Int) (conn : Conn) : List AcceptEvent × Option Session :=
  let before : List AcceptEvent :=
    match tls with
    | none => []
    | some _ => p.tlsEvents now1 now2
  match tls with
  | some (some _) => (before, none)
  | _ =>
    let sess := newSessionOn conn
    let stat := p.postAccept sess
    if !Status.OK stat then (before ++ [.newSession conn, .sessClose], some sess)
    else
      (before ++
          [.newSession conn, .hubSet sess.id, .changeStatus .statusOk, .startReadAndHandle],
        some { sess with status := .statusOk })

/-- Whether `ServeConn` gets past its check of the connection. -/
def ConnNetwork.accepted : ConnNetwork → Bool
  | .quic _ false => false
  | .kcp _ false => false
  | _ => true

/-- A server peer whose PostAccept chain rejects every session with code 403. -/
def rejectingServer : AcceptPeer :=
  ⟨fun _ => some ⟨403, "auth fail", "auth fail detail"⟩, 0, 0, 100⟩

/-- A server peer whose PostAccept chain accepts every session. -/
def acceptingServer : AcceptPeer := ⟨fun _ => none, 0, 0, 100⟩

/-- Four plugins: the hook of the first returns OK, the second has no hook,
the hook of the third returns the status 401, the hook of the last would
return OK. -/
def examplePlugins : List WsPlugin :=
  [⟨"log", some (.returns none), none⟩, ⟨"websocket", none, none⟩,
    ⟨"handshake-auth-plugin", some (.returns (some ⟨401, "Unauthorized", ""⟩)), none⟩,
    ⟨"later", some (.returns none), none⟩]

/-! ## peer.go: the waits of a redial -/

/-- The durations that the `dialWithRetry` call of the redial closure sleeps,
in order; when the PreDial chain fails the dialer is not called and nothing is
slept. -/
def Peer.redialSleeps (p : Peer) (addr : String) (dials : List (Except GoError Conn))
    (st : SessState) : Option (List Int) :=
  if Status.OK (p.preDial addr) then
    match p.dialer.dialWithRetry (some (p.redialFn st.sess.id st.sess.LocalAddr)) dials st with
    | none => none
    | some r => some r.sleeps
  else some []

/-- A client peer with three redials, one second apart, whose plugins accept
everything. -/
def redialingPeer : Peer :=
  { dialer := ⟨"tcp", Second, 3⟩
    preDial := fun _ => none
    postDial := fun _ _ => none
    codes := exampleCodes
    closeLocked := fun s => s }

/-- A callback for `dialWithRetry` that counts its calls and rejects the
connection with serial number 1. -/
def countingCallback : DialCallback Nat :=
  some (fun c n => (n + 1, if c.serial = 1 then some "rejected" else none))

/-- What the redial closure of `redialingPeer` returns on `lostSession` when
the first dial is refused and the second gives a connection from local port
50001. -/
def redialedReturn : RedialReturn :=
  ⟨true,
    ⟨⟨some ⟨"127.0.0.1:50001", 2⟩, "127.0.0.1:50001", .statusOk, true⟩,
      [.socketReset ⟨"127.0.0.1:50001", 2⟩, .setID "127.0.0.1:50001",
        .changeStatus .statusPreparing, .connClose ⟨"127.0.0.1:50000", 1⟩,
        .changeStatus .statusOk, .startReadAndHandle, .hubSet "127.0.0.1:50001"]⟩,
    2⟩

/-- The read deadline of the connection when the first `Handshake` among the
effects `evs` starts, `cur` being the deadline before `evs`: the time of the
last `SetReadDeadline` before that handshake. `none` is no deadline (a
connection starts without one), or no handshake. -/
def deadlineAtHandshake : List AcceptEvent → Option Int → Option Int
  | [], _ => none
  | .tlsHandshake :: _, cur => cur
  | .setReadDeadline t :: rest, _ => deadlineAtHandshake rest (some t)
  | _ :: rest, cur => deadlineAtHandshake rest cur

/-- A server peer with a session age of ten seconds and a context age of three
seconds, whose PostAccept chain accepts every session. -/
def agedServer : AcceptPeer :=
  { postAccept := fun _ => none
    defaultSessionAge := 10 * Second
    defaultContextAge := 3 * Second
    CodeWrongConn := 107 }

/-! ## peer.go: Close -/

/-- A `net.Listener` of the peer's listener set: whether it is a
`*quic.Listener`, and the error its `Close` returns. -/
structure Listener where
  addr : String
  isQuic : Bool
  closeErr : Option GoError
deriving DecidableEq, Repr

/-- A session of the session hub, as far as `Close` looks at it: its ID and the
error its `Close` returns. -/
structure HubSession where
  id : String
  closeErr : Option GoError
deriving DecidableEq, Repr

/-- The part of a `peer` that `Close` uses: whether `closeCh` is closed, the
listener set in the order the `range` over the map yields it, and the sessions
in the order `sessHub.rangeCallback` visits them. -/
structure ClosingPeer where
  closeChClosed : Bool
  listeners : List Listener
  sessions : List HubSession
deriving DecidableEq, Repr

/-- The effects of `Close`, in the order they happen; the calls of
`sess.Close()`, which run in goroutines of their own, are listed in the order
the goroutines are started. -/
inductive CloseEvent
  | closeCh
  | listenerClose (l : Listener)
  | deletePeer
  | sessClose (s : HubSession)
deriving DecidableEq, Repr

/-- An error built by `errors.Merge` of `goutil/errors` (a library outside the
repository): the errors merged into it, in order; the empty list is nil. -/
abbrev MergedError := List GoError

/-- `errors.Merge(err, e)`: nil errors are left out. -/
def errorsMerge (err : MergedError) (e : Option GoError) : MergedError :=
  match e with
  | none => err
  | some x => err ++ [x]

/-- What `Close` returns, its effects, and the peer afterwards. -/
structure CloseReturn where
  err : MergedError
  events : List CloseEvent
  peer : ClosingPeer
deriving DecidableEq, Repr

/-- `peer.Close`. `arrival` lists the sessions in the order their results
arrive on `errCh`, of which `Close` reads as many as it started goroutines;
`panicTrace` is the text of `goutil.PanicTrace(2)`. Closing the closed
`closeCh` panics, and the deferred function turns the panic into the error
returned. -/
def ClosingPeer.Close (p : ClosingPeer) (arrival : List HubSession) (panicTrace : String) :
    CloseReturn :=
  if p.closeChClosed then
    ⟨["panic:close of closed channel\n" ++ panicTrace], [], p⟩
  else
    let ev1 := (p.listeners.filter (fun l => !l.isQuic)).map CloseEvent.listenerClose
    let count := p.sessions.length
    let ev2 := p.sessions.map CloseEvent.sessClose
    let err1 := (arrival.take count).foldl (fun e s => errorsMerge e s.closeErr) []
    let quics := p.listeners.filter (fun l => l.isQuic)
    let err2 := quics.foldl (fun e l => errorsMerge e l.closeErr) err1
    ⟨err2, [CloseEvent.closeCh] ++ ev1 ++ [CloseEvent.deletePeer] ++ ev2
        ++ quics.map CloseEvent.listenerClose,
      { p with closeChClosed := true }⟩

/-- A peer with a TCP listener, a QUIC listener whose `Close` fails, and one
session whose `Close` succeeds. -/
def quicPeer : ClosingPeer :=
  ⟨false, [⟨":9090", false, none⟩, ⟨":9091", true, some "quic: server closed"⟩],
    [⟨"127.0.0.1:50000", none⟩]⟩

/-- The sessions whose `Close` is called among the effects, in order. -/
def closedSessions : List CloseEvent → List HubSession
  | [] => []
  | .sessClose s :: rest => s :: closedSessions rest
  | _ :: rest => closedSessions rest

/-! ## strconv, as far as the heartbeat plugin uses it

A Go string is given as a Lean `String`; the bytes of a character outside
ASCII are neither digits nor signs, as the character itself. -/

/-- A byte is a decimal digit: the test `ch -= '0'; ch > 9` of `strconv`. -/
def isDecimalDigit (c : Char) : Bool := 48 ≤ c.toNat && c.toNat ≤ 57

/-- The value `ch - '0'` of a digit. -/
def digitValue (c : Char) : Nat := c.toNat - 48

/-- The digit loop of `strconv.ParseUint` for base 10, started with the value
`n`, without its bound; `none` is a syntax error. -/
def parseDigits : List Char → Nat → Option Nat
  | [], n => some n
  | c :: cs, n => if isDecimalDigit c then parseDigits cs (n * 10 + digitValue c) else none

/-- `strconv.Atoi` for an `int` of `intSize` bits (`ParseInt(s, 10, 0)`, of
which the fast path of `Atoi` is a special case): an optional sign, then at
least one digit; `none` is a non-nil error, for bad syntax or a value out of
range. The value returned along with an error is left out: the heartbeat
plugin does not read it. -/
def Atoi (intSize : Nat) (s : String) : Option Int :=
  match s.data with
  | [] => none
  | c :: rest =>
    let neg : Bool := c == '-'
    let ds := if c == '+' || c == '-' then rest else c :: rest
    match ds with
    | [] => none
    | d :: ds1 =>
      match parseDigits (d :: ds1) 0 with
      | none => none
      | some un =>
        let cutoff : Nat := 2 ^ (intSize - 1)
        if !neg && un ≥ cutoff then none
        else if neg && un > cutoff then none
        else some (if neg then -(un : Int) else (un : Int))

/-- The digit loop of `strconv.FormatInt` for base 10: the digits of `n`, most
significant first, put before `acc`; `fuel` bounds the number of digits. -/
def formatDecimal : Nat → Nat → List Char → List Char
  | 0, _, acc => acc
  | fuel + 1, n, acc =>
    let acc1 := Char.ofNat (48 + n % 10) :: acc
    if n / 10 = 0 then acc1 else formatDecimal fuel (n / 10) acc1

/-- `strconv.Itoa`: the decimal digits of `n`, after a minus sign when `n` is
negative. -/
def Itoa (n : Int) : String :=
  if n < 0 then ⟨'-' :: formatDecimal (n.natAbs + 1) n.natAbs []⟩
  else ⟨formatDecimal (n.natAbs + 1) n.natAbs []⟩

/-! ## plugin/heartbeat -/

/-- `parseHeartbeatRateSecond`, for an `int` of `intSize` bits. -/
def parseHeartbeatRateSecond (intSize : Nat) (s : String) : Int :=
  if s.length = 0 then 0
  else
    match Atoi intSize s with
    | none => -1
    | some r => if r < 0 then -1 else r

/-- The constant `heartbeatMetaKey`. -/
def heartbeatMetaKey : String := "hb_"

/-- The constant `HeartbeatServiceMethod`. -/
def HeartbeatServiceMethod : String := "/heartbeat"

/-- `handelHeartbeat`. `peekMeta` gives the meta values of the message as
strings; `updateHeartbeatInfo` is not among the sources and is given by what
it does to the swap of the session and by the flag it returns;
`CodeBadMessage` is the code of that name. The duration
`time.Second * time.Duration(rateSecond)` is an `int64`. -/
def handelHeartbeat {σ : Type} (intSize : Nat) (CodeBadMessage : Int)
    (updateHeartbeatInfo : σ → Int → Bool × σ) (swap : σ) (peekMeta : String → String) :
    Option Status × σ :=
  let rateStr := peekMeta heartbeatMetaKey
  let rateSecond := parseHeartbeatRateSecond intSize rateStr
  let u := updateHeartbeatInfo swap (wrapInt64 (Second * rateSecond))
  let isFirst := u.1
  if isFirst && rateSecond == -1 then
    (some ⟨CodeBadMessage, "invalid heartbeat rate", rateStr⟩, u.2)
  else (none, u.2)

/-- The fields of `heartPing` that `SetRate` writes: `pingRate`, a
`time.Duration`, and `pingRateSecond`. -/
structure heartPing where
  pingRate : Int
  pingRateSecond : String
deriving DecidableEq, Repr

/-- `heartPing.SetRate`; `minRateSecond` is a constant that is not among the
sources. -/
def heartPing.SetRate (minRateSecond : Int) (h : heartPing) (rateSecond : Int) : heartPing :=
  let rateSecond := if rateSecond < minRateSecond then minRateSecond else rateSecond
  { h with
    pingRate := wrapInt64 (Second * rateSecond)
    pingRateSecond := Itoa rateSecond }

/-- The heartbeat that `goCall` and `goPush` send: the service method, and the
meta pair that `WithSetMeta` sets. -/
structure HeartbeatMsg where
  serviceMethod : String
  metaKey : String
  metaValue : String
deriving DecidableEq, Repr

/-- The message of `goCall` and of `goPush`. -/
def heartPing.heartbeat (h : heartPing) : HeartbeatMsg :=
  ⟨HeartbeatServiceMethod, heartbeatMetaKey, h.pingRateSecond⟩

/-- `PeekMeta` on a received heartbeat: the value of the key, empty when the
key is not set. -/
def HeartbeatMsg.PeekMeta (m : HeartbeatMsg) (key : String) : String :=
  if key = m.metaKey then m.metaValue else ""

/-- The value of a string of decimal digits, most significant first. -/
def numeralValue (ds : List Char) : Nat := Nat.ofDigits 10 (ds.reverse.map digitValue)

/-- A string is a decimal numeral of the `int` `n` (of `intSize` bits): decimal
digits, at least one, after an optional sign. -/
def IsNumeralOf (intSize : Nat) (s : String) (n : Int) : Prop :=
  ∃ sign ds : List Char, s.data = sign ++ ds ∧
    (sign = [] ∨ sign = ['+'] ∨ sign = ['-']) ∧
    ds ≠ [] ∧ (∀ c ∈ ds, isDecimalDigit c = true) ∧
    n = (if sign = ['-'] then -(numeralValue ds : Int) else (numeralValue ds : Int)) ∧
    -(2 ^ (intSize - 1) : Int) ≤ n ∧ n < 2 ^ (intSize - 1)

/-! ## mixer/multiclient/multiclient.go -/

/-- Modelled from the spec: a `CallCmd` as `NewFakeCallCmd(uri, arg, result, stat)`
builds it (`NewFakeCallCmd` is not among the sources): the service method and
the status it reports. -/
structure CallCmd where
  uri : String
  status : Option Status
deriving DecidableEq, Repr

/-- Modelled from the spec: `NewStatusByCodeText(code, cause, tagStack)`, which
is not among the sources: the status of that code, with the text of the code
as message and the error as cause. -/
def NewStatusByCodeText (codeText : Int → String) (code : Int) (cause : GoError) : Status :=
  ⟨code, codeText code, cause⟩

/-- A `chan<- yrpc.CallCmd`: the nil channel, or a channel with its capacity
and the elements in its buffer. -/
inductive CmdChan
  | nil
  | chan (capacity : Nat) (buffer : List CallCmd)
deriving DecidableEq, Repr

/-- Go's `ch != nil`. -/
def CmdChan.notNil : CmdChan → Bool
  | .nil => false
  | .chan _ _ => true

/-- Go's `cap(ch)`; the capacity of the nil channel is 0. -/
def CmdChan.cap : CmdChan → Nat
  | .nil => 0
  | .chan c _ => c

/-- The statement `ch <- v` while no other goroutine receives from `ch`: the
channel afterwards, or `none` when the statement blocks. A send on the nil
channel blocks forever; a send on a channel whose buffer is full (an
unbuffered channel among them) blocks until somebody receives. -/
def CmdChan.send (ch : CmdChan) (v : CallCmd) : Option CmdChan :=
  match ch with
  | .nil => none
  | .chan c q => if q.length < c then some (.chan c (q ++ [v])) else none

/-- How a call of `AsyncCall` ends: it returns a `CallCmd`, leaving the channel
as given; it panics; or it blocks in a channel send. -/
inductive CallOutcome
  | returns (cmd : CallCmd) (ch : CmdChan)
  | panics (msg : String)
  | blocks
deriving DecidableEq, Repr

/-- `MultiClient.AsyncCall`. `hire` is what `c.pool.Hire()` returns (the pool
is a library outside the repository), `sessAsyncCall` the `AsyncCall` of the
hired session. -/
def MultiClient.AsyncCall {σ : Type} (CodeWrongConn : Int) (codeText : Int → String)
    (hire : Except GoError σ) (sessAsyncCall : σ → String → CmdChan → CallOutcome)
    (uri : String) (callCmdChan : CmdChan) : CallOutcome :=
  match hire with
  | .error err =>
    let callCmd : CallCmd := ⟨uri, some (NewStatusByCodeText codeText CodeWrongConn err)⟩
    if callCmdChan.notNil && callCmdChan.cap == 0 then
      .panics "*MultiClient.AsyncCall(): callCmdChan channel is unbuffered"
    else
      match callCmdChan.send callCmd with
      | none => .blocks
      | some ch => .returns callCmd ch
  | .ok sess => sessAsyncCall sess uri callCmdChan

/-- `MultiClient.Push`: the status returned, and the service methods pushed on
a session; `sessPush` is the `Push` of the hired session. -/
def MultiClient.Push {σ : Type} (CodeWrongConn : Int) (codeText : Int → String)
    (hire : Except GoError σ) (sessPush : σ → String → Option Status) (uri : String) :
    Option Status × List String :=
  match hire with
  | .error err => (some (NewStatusByCodeText codeText CodeWrongConn err), [])
  | .ok sess => (sessPush sess uri, [uri])

/-- A CALL with sequence number 7, body codec `'s'` and the transfer pipe
`['g']`. -/
def gzipCall : Message := ⟨7, TypeCall, "/home/test", 115, [1, 2, 3], [], none, [103], 0⟩

/-- A message environment in which `SetSize` refuses every size above 10 and
only the transfer-pipe ID 103 is registered; for the rest as `plainEnv`. -/
def limitedEnv : MsgEnv :=
  { gzipOnlyEnv with
    checkMessageSize := fun n => if n > 10 then some "message is too large" else none }

/-! # Theorems -/

/-! ## dialer.go: the redial counter and dialWithRetry -/

theorem next_zero : redialCounter.Next 0 = (false, 0) := by
  simp [redialCounter.Next]

theorem next_succ (n : Nat) : redialCounter.Next ((n : Int) + 1) = (true, (n : Int)) := by
  have h1 : ¬ ((n : Int) + 1 = 0) := by omega
  have h2 : (n : Int) + 1 > 0 := by omega
  simp [redialCounter.Next, h1, h2]

theorem next_neg_one : redialCounter.Next (-1) = (true, -1) := by
  simp [redialCounter.Next]

theorem runAttempts_cons {σ : Type} (fn : DialCallback σ) (o : Except GoError Conn)
    (rest : List (Except GoError Conn)) (s : σ) :
    runAttempts fn (o :: rest) s =
      ((runAttempts fn rest (tryOnce fn o s).1).1,
        (tryOnce fn o s).2 :: (runAttempts fn rest (tryOnce fn o s).1).2) := rfl

theorem runAttempts_length {σ : Type} (fn : DialCallback σ) :
    ∀ (dials : List (Except GoError Conn)) (s : σ),
      (runAttempts fn dials s).2.length = dials.length
  | [], _ => rfl
  | o :: rest, s => by
    rw [runAttempts_cons]
    simp [runAttempts_length fn rest]

/-- When every outcome is a failure, `lastError` is the error of the last one. -/
theorem lastError_getLast :
    ∀ (l : List (Except GoError Conn)) (e0 : GoError),
      (∀ o ∈ l, isFailure o = true) → l ≠ [] →
      l.getLast? = some (.error (lastError e0 l))
  | [], _, _, h => absurd rfl h
  | .ok c :: rest, _, hf, _ => by
    have := hf (.ok c) (by simp)
    simp [isFailure] at this
  | .error e :: rest, e0, hf, _ => by
    cases rest with
    | nil => simp [lastError]
    | cons o rest2 =>
      have ih := lastError_getLast (o :: rest2) e
        (fun x hx => hf x (List.mem_cons_of_mem _ hx)) (by simp)
      rw [List.getLast?_cons_cons]
      simpa [lastError] using ih

/-- The loop of `dialWithRetry` entered with a counter `n ≥ 0`, when the next
`n` attempts all fail: it makes these `n` attempts and returns the last error. -/
theorem redialLoop_all_fail {σ : Type} (d : Dialer) (fn : DialCallback σ) :
    ∀ (n : Nat) (dials : List (Except GoError Conn)) (err : GoError) (s : σ)
      (att : Nat) (sl : List Int),
      n ≤ dials.length →
      (∀ o ∈ (runAttempts fn (dials.take n) s).2, isFailure o = true) →
      redialLoop d fn dials (n : Int) err s att sl =
        some ⟨none, some (lastError err (runAttempts fn (dials.take n) s).2),
          (runAttempts fn (dials.take n) s).1, att + n,
          sl ++ List.replicate n d.redialInterval⟩
  | 0, dials, err, s, att, sl, _, _ => by
    cases dials <;> simp [redialLoop, next_zero, runAttempts, lastError]
  | n + 1, [], _, _, _, _, hlen, _ => by simp at hlen
  | n + 1, o :: rest, err, s, att, sl, hlen, hf => by
    have hlen2 : n ≤ rest.length := by simpa using hlen
    rw [List.take_succ_cons, runAttempts_cons] at hf
    have h0 : isFailure (tryOnce fn o s).2 = true := hf _ (by simp)
    have hrest : ∀ x ∈ (runAttempts fn (rest.take n) (tryOnce fn o s).1).2,
        isFailure x = true := fun x hx => hf x (List.mem_cons_of_mem _ hx)
    have ih := fun e => redialLoop_all_fail d fn n rest e (tryOnce fn o s).1 (att + 1)
      (sl ++ [d.redialInterval]) hlen2 hrest
    rw [List.take_succ_cons, runAttempts_cons]
    have hcast : ((n + 1 : Nat) : Int) = (n : Int) + 1 := by push_cast; rfl
    rw [redialLoop, hcast, next_succ]
    rcases hto : tryOnce fn o s with ⟨s1, r⟩
    rw [hto] at h0 ih
    cases r with
    | ok c => simp [isFailure] at h0
    | error e =>
      simp only []
      rw [ih e]
      simp [lastError, List.replicate_succ, Nat.add_assoc, Nat.add_comm 1 n]

/-- With `redialTimes = n ≥ 0` and the first `n + 1` attempts failing,
`dialWithRetry` makes these attempts, sleeping before each retry, and returns
the last error. -/
theorem dialWithRetry_fail_result {σ : Type} (d : Dialer) (fn : DialCallback σ)
    (dials : List (Except GoError Conn)) (s : σ) (n : Nat)
    (hn : d.redialTimes = (n : Int)) (hlen : n + 1 ≤ dials.length)
    (hfail : ∀ o ∈ (runAttempts fn (dials.take (n + 1)) s).2, isFailure o = true) :
    d.dialWithRetry fn dials s =
      some ⟨none, some (lastError "" (runAttempts fn (dials.take (n + 1)) s).2),
        (runAttempts fn (dials.take (n + 1)) s).1, n + 1,
        List.replicate n d.redialInterval⟩ := by
  cases dials with
  | nil => simp at hlen
  | cons o rest =>
    have hlen2 : n ≤ rest.length := by simpa using hlen
    rw [List.take_succ_cons, runAttempts_cons] at hfail
    have h0 : isFailure (tryOnce fn o s).2 = true := hfail _ (by simp)
    have hrest : ∀ x ∈ (runAttempts fn (rest.take n) (tryOnce fn o s).1).2,
        isFailure x = true := fun x hx => hfail x (List.mem_cons_of_mem _ hx)
    have hl := fun e => redialLoop_all_fail d fn n rest e (tryOnce fn o s).1 1 []
      hlen2 hrest
    rw [List.take_succ_cons, runAttempts_cons]
    rw [Dialer.dialWithRetry]
    rcases hto : tryOnce fn o s with ⟨s1, r⟩
    rw [hto] at h0 hl
    cases r with
    | ok c => simp [isFailure] at h0
    | error e =>
      simp only [Dialer.newRedialCounter, hn]
      rw [hl e]
      simp [lastError, Nat.add_comm 1 n]

/-- C1: with `redialTimes = n ≥ 0`, when each of the first `n + 1` attempts
fails (`dialOne` returns an error, or it connects and the callback returns an
error), `dialWithRetry` returns after exactly `n + 1` attempts (one and `n`
retries) with a nil connection and the error of the last attempt; with
`n = 0` that is one attempt. -/
theorem dialWithRetry_all_fail {σ : Type} (d : Dialer) (fn : DialCallback σ)
    (dials : List (Except GoError Conn)) (s : σ) (n : Nat)
    (hn : d.redialTimes = (n : Int)) (hlen : n + 1 ≤ dials.length)
    (hfail : ∀ o ∈ (runAttempts fn (dials.take (n + 1)) s).2, isFailure o = true) :
    d.dialWithRetry fn dials s =
        some ⟨none, some (lastError "" (runAttempts fn (dials.take (n + 1)) s).2),
          (runAttempts fn (dials.take (n + 1)) s).1, n + 1,
          List.replicate n d.redialInterval⟩ ∧
      (runAttempts fn (dials.take (n + 1)) s).2.getLast? =
        some (.error (lastError "" (runAttempts fn (dials.take (n + 1)) s).2)) := by
  refine ⟨dialWithRetry_fail_result d fn dials s n hn hlen hfail,
    lastError_getLast _ "" hfail ?_⟩
  intro h
  have hl := congrArg List.length h
  rw [runAttempts_length, List.length_take] at hl
  simp only [List.length_nil] at hl
  omega

/-- C1 at `redialTimes = 2` with three refused connections. -/
theorem dialWithRetry_all_fail_witness :
    let d : Dialer := ⟨"tcp", 1000, 2⟩
    let dials : List (Except GoError Conn) := [.error "a", .error "b", .error "c"]
    d.dialWithRetry (none : DialCallback Unit) dials () =
        some ⟨none, some (lastError "" (runAttempts none (dials.take (2 + 1)) ()).2),
          (runAttempts (none : DialCallback Unit) (dials.take (2 + 1)) ()).1, 2 + 1,
          List.replicate 2 d.redialInterval⟩ ∧
      (runAttempts (none : DialCallback Unit) (dials.take (2 + 1)) ()).2.getLast? =
        some (.error (lastError "" (runAttempts none (dials.take (2 + 1)) ()).2)) :=
  dialWithRetry_all_fail ⟨"tcp", 1000, 2⟩ none [.error "a", .error "b", .error "c"] () 2
    rfl (by decide) (by simp [runAttempts, tryOnce, isFailure])

theorem callsNext_succ (k : Nat) (r : redialCounter) :
    callsNext (k + 1) r =
      ((redialCounter.Next r).1 :: (callsNext k (redialCounter.Next r).2).1,
        (callsNext k (redialCounter.Next r).2).2) := rfl

theorem callsNext_nonneg :
    ∀ (k n : Nat), callsNext k (n : Int) =
      (List.replicate (min k n) true ++ List.replicate (k - n) false,
        max ((n : Int) - (k : Int)) 0)
  | 0, n => by simp [callsNext]
  | k + 1, 0 => by
    have ih := callsNext_nonneg k 0
    simp only [Nat.cast_zero] at ih
    rw [callsNext_succ]
    simp only [Nat.cast_zero, next_zero, ih]
    refine Prod.ext ?_ ?_
    · simp [List.replicate_succ]
    · show max ((0 : Int) - (k : Int)) 0 = max ((0 : Int) - ((k + 1 : Nat) : Int)) 0
      omega
  | k + 1, n + 1 => by
    have ih := callsNext_nonneg k n
    have hcast : ((n + 1 : Nat) : Int) = (n : Int) + 1 := by push_cast; rfl
    rw [callsNext_succ, hcast, next_succ]
    simp only [ih]
    refine Prod.ext ?_ ?_
    · simp [List.replicate_succ, Nat.succ_min_succ]
    · show max ((n : Int) - (k : Int)) 0 = max ((n : Int) + 1 - ((k + 1 : Nat) : Int)) 0
      omega

theorem callsNext_neg_one : ∀ (k : Nat), callsNext k (-1) = (List.replicate k true, -1)
  | 0 => rfl
  | k + 1 => by
    rw [callsNext_succ, next_neg_one]
    simp [callsNext_neg_one k, List.replicate_succ]

/-- The loop of `dialWithRetry` with the counter at -1: failed attempts are
followed by a further attempt, until one succeeds. -/
theorem redialLoop_neg_one {σ : Type} (d : Dialer) (fn : DialCallback σ)
    (o : Except GoError Conn) (post : List (Except GoError Conn)) (c : Conn) :
    ∀ (pre : List (Except GoError Conn)) (err : GoError) (s : σ) (att : Nat)
      (sl : List Int),
      (∀ x ∈ (runAttempts fn pre s).2, isFailure x = true) →
      (tryOnce fn o (runAttempts fn pre s).1).2 = .ok c →
      redialLoop d fn (pre ++ o :: post) (-1) err s att sl =
        some ⟨some c, none, (tryOnce fn o (runAttempts fn pre s).1).1,
          att + pre.length + 1, sl ++ List.replicate (pre.length + 1) d.redialInterval⟩
  | [], err, s, att, sl, _, hok => by
    simp only [runAttempts] at hok
    rw [List.nil_append, redialLoop, next_neg_one]
    rcases hto : tryOnce fn o s with ⟨s1, r⟩
    rw [hto] at hok
    simp only at hok
    subst hok
    simp [runAttempts, hto]
  | p :: pre, err, s, att, sl, hf, hok => by
    rw [runAttempts_cons] at hf hok
    have h0 : isFailure (tryOnce fn p s).2 = true := hf _ (by simp)
    have hrest : ∀ x ∈ (runAttempts fn pre (tryOnce fn p s).1).2,
        isFailure x = true := fun x hx => hf x (List.mem_cons_of_mem _ hx)
    have ih := fun e => redialLoop_neg_one d fn o post c pre e (tryOnce fn p s).1 (att + 1)
      (sl ++ [d.redialInterval]) hrest hok
    rw [runAttempts_cons, List.cons_append, redialLoop, next_neg_one]
    rcases hto : tryOnce fn p s with ⟨s1, r⟩
    rw [hto] at h0 ih
    cases r with
    | ok c2 => simp [isFailure] at h0
    | error e =>
      simp only []
      rw [ih e]
      simp [List.replicate_succ, Nat.add_assoc, Nat.add_comm 1]

/-- C2: `redialCounter.Next` on a counter holding `n ≥ 0` returns true on the
first `n` calls and false on every later one, the counter holding
`max (n - k) 0` after `k` calls; on a counter holding -1 every call returns
true and the counter stays -1; and `dialWithRetry` with `redialTimes = -1`,
when the attempts `pre` all fail and the next one succeeds with connection
`c`, returns `c` with a nil error after `pre.length + 1` attempts, however
long `pre` is. -/
theorem redialCounter_next_spec :
    (∀ n k : Nat, callsNext k (n : Int) =
      (List.replicate (min k n) true ++ List.replicate (k - n) false,
        max ((n : Int) - (k : Int)) 0)) ∧
    (∀ k : Nat, callsNext k (-1) = (List.replicate k true, -1)) ∧
    (∀ (σ : Type) (d : Dialer) (fn : DialCallback σ)
      (pre : List (Except GoError Conn)) (o : Except GoError Conn)
      (post : List (Except GoError Conn)) (s : σ) (c : Conn),
      d.redialTimes = -1 →
      (∀ x ∈ (runAttempts fn pre s).2, isFailure x = true) →
      (tryOnce fn o (runAttempts fn pre s).1).2 = .ok c →
      d.dialWithRetry fn (pre ++ o :: post) s =
        some ⟨some c, none, (tryOnce fn o (runAttempts fn pre s).1).1,
          pre.length + 1, List.replicate pre.length d.redialInterval⟩) := by
  refine ⟨fun n k => callsNext_nonneg k n, callsNext_neg_one, ?_⟩
  intro σ d fn pre o post s c hd hf hok
  cases pre with
  | nil =>
    simp only [runAttempts] at hok
    rw [List.nil_append, Dialer.dialWithRetry]
    rcases hto : tryOnce fn o s with ⟨s1, r⟩
    rw [hto] at hok
    simp only at hok
    subst hok
    simp [runAttempts, hto]
  | cons p pre =>
    rw [runAttempts_cons] at hf hok
    have h0 : isFailure (tryOnce fn p s).2 = true := hf _ (by simp)
    have hrest : ∀ x ∈ (runAttempts fn pre (tryOnce fn p s).1).2,
        isFailure x = true := fun x hx => hf x (List.mem_cons_of_mem _ hx)
    have hl := fun e => redialLoop_neg_one d fn o post c pre e (tryOnce fn p s).1 1 []
      hrest hok
    rw [runAttempts_cons, List.cons_append, Dialer.dialWithRetry]
    rcases hto : tryOnce fn p s with ⟨s1, r⟩
    rw [hto] at h0 hl
    cases r with
    | ok c2 => simp [isFailure] at h0
    | error e =>
      simp only [Dialer.newRedialCounter, hd]
      rw [hl e]
      simp [List.replicate_succ, Nat.add_comm 1]

/-- C2 at `redialTimes = -1`: two refused connections, then one accepted. -/
theorem redialCounter_next_spec_witness :
    (∀ x ∈ (runAttempts (none : DialCallback Unit) [.error "a", .error "b"] ()).2,
        isFailure x = true) ∧
      (tryOnce (none : DialCallback Unit) (.ok ⟨"127.0.0.1:5000", 7⟩)
        (runAttempts none [.error "a", .error "b"] ()).1).2 = .ok ⟨"127.0.0.1:5000", 7⟩ ∧
      Dialer.dialWithRetry ⟨"tcp", 1000, -1⟩ (none : DialCallback Unit)
          ([.error "a", .error "b"] ++ .ok ⟨"127.0.0.1:5000", 7⟩ :: [.error "z"]) () =
        some ⟨some ⟨"127.0.0.1:5000", 7⟩, none,
          (tryOnce (none : DialCallback Unit) (.ok ⟨"127.0.0.1:5000", 7⟩)
            (runAttempts none [.error "a", .error "b"] ()).1).1,
          2 + 1, List.replicate 2 1000⟩ :=
  ⟨by simp [runAttempts, tryOnce, isFailure], rfl,
    redialCounter_next_spec.2.2 Unit ⟨"tcp", 1000, -1⟩ none [.error "a", .error "b"]
      (.ok ⟨"127.0.0.1:5000", 7⟩) [.error "z"] () ⟨"127.0.0.1:5000", 7⟩ rfl
      (by simp [runAttempts, tryOnce, isFailure]) rfl⟩

/-! ## peer.go: Dial and the redial closure -/

theorem cause_of_not_ok (st : Option Status) (h : Status.OK st = false) :
    ∃ e, Status.Cause st = some e := by
  cases st with
  | none => simp [Status.OK] at h
  | some x => exact ⟨x.cause, rfl⟩

/-- A run of the loop that ends without error ends on a call of the callback
that returned nil, and returns the connection of that call. -/
theorem redialLoop_ok_inv {σ : Type} (d : Dialer) (f : Conn → σ → σ × Option GoError) :
    ∀ (dials : List (Except GoError Conn)) (counter : redialCounter) (err : GoError)
      (s : σ) (att : Nat) (sl : List Int) (r : DialResult σ),
      redialLoop d (some f) dials counter err s att sl = some r → r.err = none →
      ∃ c s0, r.conn = some c ∧ f c s0 = (r.state, none)
  | [], counter, err, s, att, sl, r, h, hr => by
    rcases hN : redialCounter.Next counter with ⟨b, c'⟩
    cases b <;> simp [redialLoop, hN] at h
    subst h
    simp at hr
  | o :: rest, counter, err, s, att, sl, r, h, hr => by
    rcases hN : redialCounter.Next counter with ⟨b, c'⟩
    cases b
    · simp [redialLoop, hN] at h
      subst h
      simp at hr
    · cases o with
      | error e =>
        simp only [redialLoop, hN, tryOnce] at h
        exact redialLoop_ok_inv d f rest c' e s _ _ r h hr
      | ok c =>
        rcases hf : f c s with ⟨s1, oe⟩
        cases oe with
        | none =>
          simp only [redialLoop, hN, tryOnce, hf] at h
          simp only [Option.some.injEq] at h
          subst h
          exact ⟨c, s, rfl, hf⟩
        | some e =>
          simp only [redialLoop, hN, tryOnce, hf] at h
          exact redialLoop_ok_inv d f rest c' e s1 _ _ r h hr

/-- A run of `dialWithRetry` that ends without error ends on a call of the
callback that returned nil, and returns the connection of that call. -/
theorem dialWithRetry_ok_inv {σ : Type} (d : Dialer) (f : Conn → σ → σ × Option GoError)
    (dials : List (Except GoError Conn)) (s : σ) (r : DialResult σ)
    (h : d.dialWithRetry (some f) dials s = some r) (hr : r.err = none) :
    ∃ c s0, r.conn = some c ∧ f c s0 = (r.state, none) := by
  cases dials with
  | nil => simp [Dialer.dialWithRetry] at h
  | cons o rest =>
    cases o with
    | error e =>
      simp only [Dialer.dialWithRetry, tryOnce] at h
      exact redialLoop_ok_inv d f rest _ e s _ _ r h hr
    | ok c =>
      rcases hf : f c s with ⟨s1, oe⟩
      cases oe with
      | none =>
        simp only [Dialer.dialWithRetry, tryOnce, hf] at h
        simp only [Option.some.injEq] at h
        subst h
        exact ⟨c, s, rfl, hf⟩
      | some e =>
        simp only [Dialer.dialWithRetry, tryOnce, hf] at h
        exact redialLoop_ok_inv d f rest _ e s1 _ _ r h hr

/-- The session a successful call of the redial callback leaves. -/
theorem redialFn_ok (p : Peer) (oldID oldIP : String) (c : Conn) (s0 t : SessState)
    (h : p.redialFn oldID oldIP c s0 = (t, none)) :
    t.sess.conn = some c ∧ t.sess.id = (if oldIP = oldID then c.localAddr else oldID) := by
  unfold Peer.redialFn at h
  dsimp only at h
  generalize p.postDial _ true = stat at h
  cases hOK : Status.OK stat with
  | false =>
    obtain ⟨e, he⟩ := cause_of_not_ok _ hOK
    simp [hOK, he] at h
  | true =>
    simp only [hOK, Bool.not_true, Bool.false_eq_true, if_false, Prod.mk.injEq, and_true] at h
    subst h
    simp [Session.LocalAddr]

/-- C3, as amended: after a successful run of the redial closure, the session
ID is the ID before the redial when that ID differed from the string of the
session's local address; when the ID before was that string (the ID `Dial`
gives by default), the ID afterwards is the string of the new connection's
local address. -/
theorem redial_session_id (p : Peer) (addr : String)
    (dials : List (Except GoError Conn)) (st : SessState) (r : RedialReturn)
    (h : p.redialForClientLocked addr dials st = some r) (hok : r.ok = true) :
    r.state.sess.id =
      (if st.sess.LocalAddr = st.sess.id then r.state.sess.LocalAddr else st.sess.id) := by
  unfold Peer.redialForClientLocked at h
  dsimp only at h
  cases hpre : Status.OK (p.preDial addr) with
  | false =>
    obtain ⟨e, he⟩ := cause_of_not_ok _ hpre
    simp only [hpre, he, Bool.false_eq_true, if_false, Option.some.injEq] at h
    subst h
    simp at hok
  | true =>
    simp only [hpre, if_true] at h
    cases hd : p.dialer.dialWithRetry
        (some (p.redialFn st.sess.id st.sess.LocalAddr)) dials st with
    | none => simp [hd] at h
    | some r0 =>
      simp only [hd] at h
      cases herr : r0.err with
      | some e =>
        simp only [herr, Option.some.injEq] at h
        subst h
        simp at hok
      | none =>
        obtain ⟨c, s0, _, hf⟩ := dialWithRetry_ok_inv _ _ _ _ _ hd herr
        obtain ⟨hc, hid⟩ := redialFn_ok p _ _ c s0 r0.state hf
        simp only [herr, Option.some.injEq] at h
        subst h
        simp only [Session.LocalAddr, hc, hid]

/-- C3 on a session whose ID had been set to `user-1234`: the ID is kept. -/
theorem redial_session_id_witness :
    plainPeer.redialForClientLocked ":9090" [.ok ⟨"127.0.0.1:50001", 2⟩] namedLostSession =
        some ⟨true, ⟨⟨some ⟨"127.0.0.1:50001", 2⟩, "user-1234", .statusOk, true⟩,
          [.socketReset ⟨"127.0.0.1:50001", 2⟩, .setID "user-1234",
            .changeStatus .statusPreparing, .connClose ⟨"127.0.0.1:50000", 1⟩,
            .changeStatus .statusOk, .startReadAndHandle, .hubSet "user-1234"]⟩, 1⟩ ∧
      (⟨⟨some ⟨"127.0.0.1:50001", 2⟩, "user-1234", .statusOk, true⟩, []⟩ : SessState).sess.id =
        (if namedLostSession.sess.LocalAddr = namedLostSession.sess.id then
          (⟨⟨some ⟨"127.0.0.1:50001", 2⟩, "user-1234", .statusOk, true⟩, []⟩ :
            SessState).sess.LocalAddr
        else namedLostSession.sess.id) :=
  ⟨by decide,
    redial_session_id plainPeer ":9090" [.ok ⟨"127.0.0.1:50001", 2⟩] namedLostSession
      ⟨true, ⟨⟨some ⟨"127.0.0.1:50001", 2⟩, "user-1234", .statusOk, true⟩,
        [.socketReset ⟨"127.0.0.1:50001", 2⟩, .setID "user-1234",
          .changeStatus .statusPreparing, .connClose ⟨"127.0.0.1:50000", 1⟩,
          .changeStatus .statusOk, .startReadAndHandle, .hubSet "user-1234"]⟩, 1⟩
      (by decide) rfl⟩

/-- C3 fails as stated: a session dialled from local port 50000 keeps the
default ID `127.0.0.1:50000`; a successful redial from local port 50001 leaves
it with the ID `127.0.0.1:50001`. -/
theorem redial_changes_default_id :
    lostSession.sess.id = "127.0.0.1:50000" ∧
      (plainPeer.redialForClientLocked ":9090" [.ok ⟨"127.0.0.1:50001", 2⟩] lostSession).map
          (fun r => (r.ok, r.state.sess.id)) = some (true, "127.0.0.1:50001") ∧
      "127.0.0.1:50001" ≠ "127.0.0.1:50000" := by
  decide

theorem tryOnce_error {σ : Type} (fn : DialCallback σ) (e : GoError) (s : σ) :
    tryOnce fn (.error e) s = (s, .error e) := rfl

/-- A call of the callback of `Dial` on a connection whose PostDial chain
fails: the connection is closed and an error returned. -/
theorem dialFn_fail (p : Peer) (c : Conn) (st : SessState)
    (h : Status.OK (p.postDial ⟨some c, c.localAddr, st.sess.status, st.sess.hasRedial⟩
      false) = false) :
    ∃ e, tryOnce (some p.dialFn) (.ok c) st =
      (⟨⟨some c, c.localAddr, st.sess.status, st.sess.hasRedial⟩,
        st.trace ++ [.socketReset c, .setID c.localAddr, .connClose c]⟩, .error e) := by
  obtain ⟨e, he⟩ := cause_of_not_ok _ h
  refine ⟨e, ?_⟩
  simp [tryOnce, Peer.dialFn, Session.LocalAddr, h, he]

/-- The attempts of `Dial` when the PostDial chain fails on every connection
opened: all fail, and each connection opened is closed. -/
theorem runAttempts_dialFn_fail (p : Peer) :
    ∀ (l : List (Except GoError Conn)) (st : SessState),
      (∀ c ∈ connsOf l, Status.OK (p.postDial
        ⟨some c, c.localAddr, st.sess.status, st.sess.hasRedial⟩ false) = false) →
      (∀ o ∈ (runAttempts (some p.dialFn) l st).2, isFailure o = true) ∧
        (runAttempts (some p.dialFn) l st).1.trace = st.trace ++ rejectedTrace (connsOf l)
  | [], st, _ => by simp [runAttempts, connsOf, rejectedTrace]
  | .error e :: rest, st, h => by
    have ih := runAttempts_dialFn_fail p rest st (by simpa [connsOf] using h)
    rw [runAttempts_cons, tryOnce_error]
    refine ⟨?_, by simpa [connsOf] using ih.2⟩
    intro o ho
    rcases List.mem_cons.1 ho with h1 | h1
    · subst h1; rfl
    · exact ih.1 o h1
  | .ok c :: rest, st, h => by
    have hc := h c (by simp [connsOf])
    obtain ⟨e, he⟩ := dialFn_fail p c st hc
    have ih := runAttempts_dialFn_fail p rest
      ⟨⟨some c, c.localAddr, st.sess.status, st.sess.hasRedial⟩,
        st.trace ++ [.socketReset c, .setID c.localAddr, .connClose c]⟩
      (fun x hx => h x (by simp [connsOf, hx]))
    rw [runAttempts_cons, he]
    refine ⟨?_, by simpa [connsOf, rejectedTrace] using ih.2⟩
    intro o ho
    rcases List.mem_cons.1 ho with h1 | h1
    · subst h1; rfl
    · exact ih.1 o h1

theorem mem_rejectedTrace_close :
    ∀ (l : List Conn) (c : Conn), c ∈ l → Event.connClose c ∈ rejectedTrace l
  | [], _, h => by simp at h
  | x :: rest, c, h => by
    rcases List.mem_cons.1 h with h1 | h1
    · subst h1; simp [rejectedTrace]
    · have := mem_rejectedTrace_close rest c h1
      simp [rejectedTrace, this]

theorem rejectedTrace_events :
    ∀ (l : List Conn) (ev : Event), ev ∈ rejectedTrace l →
      (∃ c, ev = .socketReset c) ∨ (∃ i, ev = .setID i) ∨ (∃ c, ev = .connClose c)
  | [], _, h => by simp [rejectedTrace] at h
  | x :: rest, ev, h => by
    simp only [rejectedTrace, List.mem_cons] at h
    rcases h with h | h | h | h
    · exact Or.inl ⟨_, h⟩
    · exact Or.inr (Or.inl ⟨_, h⟩)
    · exact Or.inr (Or.inr ⟨_, h⟩)
    · exact rejectedTrace_events rest ev h

/-- C4, as amended: on a peer with `redialTimes = n ≥ 0` whose PreDial chain
returns OK, when the PostDial chain returns a non-OK status on every attempt
that connects, `Dial` returns a nil session with a non-OK status of code
DialFailed after `n + 1` attempts; every connection opened has been closed,
and the session is not set to ok, not put in the session hub, and its read
loop is not started. -/
theorem dial_postDial_rejects (p : Peer) (addr : String)
    (dials : List (Except GoError Conn)) (n : Nat)
    (hn : p.dialer.redialTimes = (n : Int)) (hlen : n + 1 ≤ dials.length)
    (hpre : Status.OK (p.preDial addr) = true)
    (hpost : ∀ c ∈ openedConns dials (n + 1),
      Status.OK (p.postDial ⟨some c, c.localAddr, .statusPreparing, false⟩ false) = false) :
    ∃ r, p.Dial addr dials = some r ∧ r.sess = none ∧ Status.OK r.stat = false ∧
      r.stat.map Status.code = some p.codes.CodeDialFailed ∧ r.attempts = n + 1 ∧
      (∀ c ∈ openedConns dials (n + 1), Event.connClose c ∈ r.trace) ∧
      Event.changeStatus .statusOk ∉ r.trace ∧ (∀ i, Event.hubSet i ∉ r.trace) ∧
      Event.startReadAndHandle ∉ r.trace := by
  have hrun := runAttempts_dialFn_fail p (dials.take (n + 1)) ⟨newSession, [.newSession]⟩
    (by simpa [newSession, openedConns] using hpost)
  have hd := dialWithRetry_fail_result p.dialer (some p.dialFn) dials
    ⟨newSession, [.newSession]⟩ n hn hlen hrun.1
  have hne := p.codes.dialFailed_ne_zero
  refine ⟨⟨none,
    some (p.codes.statDialFailed.Copy (lastError ""
      (runAttempts (some p.dialFn) (dials.take (n + 1)) ⟨newSession, [.newSession]⟩).2)),
    (runAttempts (some p.dialFn) (dials.take (n + 1)) ⟨newSession, [.newSession]⟩).1.trace,
    n + 1⟩, ?_, rfl, ?_, rfl, rfl, ?_, ?_, ?_, ?_⟩
  · simp only [Peer.Dial, hpre, hd]
    rfl
  · simp [Status.OK, Status.Copy, Codes.statDialFailed, hne]
  · intro c hc
    simp only [hrun.2]
    exact List.mem_append_right _ (mem_rejectedTrace_close _ c hc)
  · simp only [hrun.2]
    intro hmem
    rcases List.mem_append.1 hmem with h1 | h1
    · simp at h1
    · rcases rejectedTrace_events _ _ h1 with ⟨c, h2⟩ | ⟨i, h2⟩ | ⟨c, h2⟩ <;> cases h2
  · intro i
    simp only [hrun.2]
    intro hmem
    rcases List.mem_append.1 hmem with h1 | h1
    · simp at h1
    · rcases rejectedTrace_events _ _ h1 with ⟨c, h2⟩ | ⟨j, h2⟩ | ⟨c, h2⟩ <;> cases h2
  · simp only [hrun.2]
    intro hmem
    rcases List.mem_append.1 hmem with h1 | h1
    · simp at h1
    · rcases rejectedTrace_events _ _ h1 with ⟨c, h2⟩ | ⟨i, h2⟩ | ⟨c, h2⟩ <;> cases h2

/-- C4 on a peer with one redial: the first attempt connects and is rejected
by PostDial, the second is refused. -/
theorem dial_postDial_rejects_witness :
    (rejectingPeer.dialer.redialTimes = ((1 : Nat) : Int) ∧
      1 + 1 ≤ [Except.ok (⟨"127.0.0.1:50000", 1⟩ : Conn), Except.error "refused"].length ∧
      Status.OK (rejectingPeer.preDial ":9090") = true ∧
      ∀ c ∈ openedConns [.ok ⟨"127.0.0.1:50000", 1⟩, .error "refused"] (1 + 1),
        Status.OK (rejectingPeer.postDial ⟨some c, c.localAddr, .statusPreparing, false⟩
          false) = false) ∧
    ∃ r, rejectingPeer.Dial ":9090" [.ok ⟨"127.0.0.1:50000", 1⟩, .error "refused"] = some r ∧
      r.sess = none ∧ Status.OK r.stat = false ∧
      r.stat.map Status.code = some rejectingPeer.codes.CodeDialFailed ∧ r.attempts = 1 + 1 ∧
      (∀ c ∈ openedConns [.ok ⟨"127.0.0.1:50000", 1⟩, .error "refused"] (1 + 1),
        Event.connClose c ∈ r.trace) ∧
      Event.changeStatus .statusOk ∉ r.trace ∧ (∀ i, Event.hubSet i ∉ r.trace) ∧
      Event.startReadAndHandle ∉ r.trace :=
  ⟨⟨rfl, by decide, rfl, fun _ _ => rfl⟩,
    dial_postDial_rejects rejectingPeer ":9090"
      [.ok ⟨"127.0.0.1:50000", 1⟩, .error "refused"] 1 rfl (by decide) rfl
      (fun _ _ => rfl)⟩

/-- C4 fails as stated: on a peer with `redialTimes = 1` whose PostDial chain
rejects every session and whose PreDial chain rejects the address with code
403, `Dial` makes no attempt and returns the status of PreDial, whose code is
not DialFailed. -/
theorem dial_preDial_status_not_dialFailed :
    preRejectingPeer.dialer.redialTimes = 1 ∧
      preRejectingPeer.Dial ":9090" [.ok ⟨"127.0.0.1:50000", 1⟩, .error "refused"] =
        some ⟨none, some ⟨403, "forbidden", "address not allowed"⟩, [], 0⟩ ∧
      (403 : Int) ≠ preRejectingPeer.codes.CodeDialFailed := by
  decide

/-- C5: when the PreDial chain returns a non-OK status, `Dial` returns a nil
session and that very status, with no effect at all (no session created) and
no dial attempt; and the redial closure returns false with no dial attempt,
its only effects being `closeLocked` and
`tryChangeStatus(statusRedialFailed, statusRedialing)`. -/
theorem preDial_rejects (p : Peer) (addr : String) (dials : List (Except GoError Conn))
    (h : Status.OK (p.preDial addr) = false) :
    p.Dial addr dials = some ⟨none, p.preDial addr, [], 0⟩ ∧
      ∀ st : SessState, p.redialForClientLocked addr dials st =
        some ⟨false,
          ⟨(p.closeLocked st.sess).tryChangeStatus .statusRedialFailed .statusRedialing,
            st.trace ++
              [.closeLocked, .tryChangeStatus .statusRedialFailed .statusRedialing]⟩, 0⟩ := by
  obtain ⟨e, he⟩ := cause_of_not_ok _ h
  refine ⟨by simp [Peer.Dial, h], fun st => ?_⟩
  simp [Peer.redialForClientLocked, h, he]

/-- C5 on a peer whose PreDial chain rejects with code 403. -/
theorem preDial_rejects_witness :
    Status.OK (preRejectingPeer.preDial ":9090") = false ∧
      (preRejectingPeer.Dial ":9090" [.ok ⟨"127.0.0.1:50000", 1⟩] =
        some ⟨none, preRejectingPeer.preDial ":9090", [], 0⟩ ∧
      ∀ st : SessState,
        preRejectingPeer.redialForClientLocked ":9090" [.ok ⟨"127.0.0.1:50000", 1⟩] st =
          some ⟨false,
            ⟨(preRejectingPeer.closeLocked st.sess).tryChangeStatus .statusRedialFailed
              .statusRedialing,
              st.trace ++
                [.closeLocked, .tryChangeStatus .statusRedialFailed .statusRedialing]⟩, 0⟩) :=
  ⟨rfl, preDial_rejects preRejectingPeer ":9090" [.ok ⟨"127.0.0.1:50000", 1⟩] rfl⟩

/-! ## peer.go: serveListener -/

theorem nextDelay_zero : nextDelay 0 = backoff 0 := by
  decide

theorem nextDelay_min (a : Int) (ha : 0 < a) :
    nextDelay (min a (1 * Second)) = min (2 * a) (1 * Second) := by
  unfold nextDelay wrapInt64 Second Millisecond
  dsimp only
  split_ifs <;> omega

theorem nextDelay_le (d : Int) : nextDelay d ≤ 1 * Second := by
  unfold nextDelay
  dsimp only
  split_ifs <;> omega

theorem nextDelay_backoff (i : Nat) : nextDelay (backoff i) = backoff (i + 1) := by
  have hpos : (0 : Int) < 5 * Millisecond * 2 ^ i := by
    have : (0 : Int) < 2 ^ i := by positivity
    have h5 : (0 : Int) < 5 * Millisecond := by decide
    exact Int.mul_pos h5 this
  unfold backoff
  rw [nextDelay_min _ hpos, pow_succ]
  congr 1
  ring

theorem acceptLoop_temporary (step : AcceptStep) (rest : List AcceptStep) (d : Int)
    (h : step.isTemporary = true) :
    acceptLoop (step :: rest) d =
      ⟨.sleep (nextDelay d) :: (acceptLoop rest (nextDelay d)).events,
        (acceptLoop rest (nextDelay d)).ret, (acceptLoop rest (nextDelay d)).tempDelay⟩ := by
  rcases step with ⟨res, closed⟩
  cases res with
  | ok c => simp [AcceptStep.isTemporary] at h
  | error e =>
    simp only [AcceptStep.isTemporary, Bool.and_eq_true, Bool.not_eq_true'] at h
    simp [acceptLoop, h.1.1, h.1.2, h.2]

theorem acceptLoop_accept (step : AcceptStep) (rest : List AcceptStep) (d : Int)
    (h : step.isAccept = true) :
    ∃ c, acceptLoop (step :: rest) d =
      ⟨.serve c :: (acceptLoop rest 0).events, (acceptLoop rest 0).ret,
        (acceptLoop rest 0).tempDelay⟩ := by
  rcases step with ⟨res, closed⟩
  cases res with
  | ok c => exact ⟨c, by simp [acceptLoop]⟩
  | error e => simp [AcceptStep.isAccept] at h

/-- A run that has not returned on `pre` goes on with `post`. -/
theorem acceptLoop_append :
    ∀ (pre post : List AcceptStep) (d : Int), (acceptLoop pre d).ret = none →
      acceptLoop (pre ++ post) d =
        ⟨(acceptLoop pre d).events ++ (acceptLoop post (acceptLoop pre d).tempDelay).events,
          (acceptLoop post (acceptLoop pre d).tempDelay).ret,
          (acceptLoop post (acceptLoop pre d).tempDelay).tempDelay⟩
  | [], post, d, _ => by simp [acceptLoop]
  | ⟨.ok c, closed⟩ :: pre, post, d, h => by
    have h2 : (acceptLoop pre 0).ret = none := by simpa [acceptLoop] using h
    have ih := acceptLoop_append pre post 0 h2
    simp [acceptLoop, ih]
  | ⟨.error e, closed⟩ :: pre, post, d, h => by
    cases closed with
    | true => simp [acceptLoop] at h
    | false =>
      cases hT : (e.isNetError && e.temporary) with
      | false => simp [acceptLoop, hT] at h
      | true =>
        have h2 : (acceptLoop pre (nextDelay d)).ret = none := by
          simpa [acceptLoop, hT] using h
        have ih := acceptLoop_append pre post (nextDelay d) h2
        simp [acceptLoop, hT, ih]

/-- Consecutive temporary errors after `i + 1` earlier ones. -/
theorem acceptLoop_temps_from :
    ∀ (errs : List AcceptStep) (i : Nat), (∀ s ∈ errs, s.isTemporary = true) →
      acceptLoop errs (backoff i) =
        ⟨(List.range errs.length).map (fun j => LoopEvent.sleep (backoff (i + 1 + j))),
          none, backoff (i + errs.length)⟩
  | [], i, _ => by simp [acceptLoop]
  | s :: rest, i, h => by
    have hs := h s (by simp)
    have ih := acceptLoop_temps_from rest (i + 1) (fun x hx => h x (List.mem_cons_of_mem _ hx))
    rw [acceptLoop_temporary s rest _ hs, nextDelay_backoff, ih]
    simp only [List.length_cons, List.range_succ_eq_map, List.map_cons, List.map_map,
      ServeRun.mk.injEq, List.cons.injEq, true_and, Nat.add_zero]
    refine ⟨?_, by ring_nf⟩
    apply List.map_congr_left
    intro j _
    simp only [Function.comp, Nat.succ_eq_add_one]
    ring_nf

/-- Consecutive temporary errors from `tempDelay = 0`. -/
theorem acceptLoop_temps (errs : List AcceptStep) (h : ∀ s ∈ errs, s.isTemporary = true) :
    acceptLoop errs 0 =
      ⟨(List.range errs.length).map (fun j => LoopEvent.sleep (backoff j)), none,
        if errs.length = 0 then 0 else backoff (errs.length - 1)⟩ := by
  cases errs with
  | nil => simp [acceptLoop]
  | cons s rest =>
    have hs := h s (by simp)
    have hr := acceptLoop_temps_from rest 0 (fun x hx => h x (List.mem_cons_of_mem _ hx))
    rw [acceptLoop_temporary s rest _ hs, nextDelay_zero, hr]
    simp only [List.length_cons, List.range_succ_eq_map, List.map_cons, List.map_map,
      ServeRun.mk.injEq, List.cons.injEq, true_and, Nat.zero_add]
    refine ⟨?_, by simp⟩
    apply List.map_congr_left
    intro j _
    simp only [Function.comp, Nat.succ_eq_add_one]
    ring_nf

theorem sleepsOf_le :
    ∀ (steps : List AcceptStep) (d : Int),
      ∀ x ∈ sleepsOf (acceptLoop steps d).events, x ≤ 1 * Second
  | [], d => by simp [acceptLoop, sleepsOf]
  | ⟨.ok c, closed⟩ :: rest, d => by
    have ih := sleepsOf_le rest 0
    simpa [acceptLoop, sleepsOf] using ih
  | ⟨.error e, closed⟩ :: rest, d => by
    cases closed with
    | true => simp [acceptLoop, sleepsOf]
    | false =>
      cases hT : (e.isNetError && e.temporary) with
      | false => simp [acceptLoop, hT, sleepsOf]
      | true =>
        have ih := sleepsOf_le rest (nextDelay d)
        intro x hx
        simp only [acceptLoop, hT, Bool.false_eq_true, if_false, if_true, sleepsOf,
          List.mem_cons] at hx
        rcases hx with hx | hx
        · rw [hx]; exact nextDelay_le d
        · exact ih x hx

/-- C6: in the accept loop of `serveListener`, after any run `pre` that left
`tempDelay` at 0 (the start, or any run ending on a successful `Accept`), the
sleeps on `k` consecutive temporary errors are `min (5ms * 2^j) 1s` for
`j = 0 .. k-1`, i.e. 5, 10, 20, 40, 80, 160, 320, 640, 1000, 1000, ... ms; a
successful `Accept` puts `tempDelay` back to 0; and no sleep exceeds 1s. -/
theorem serveListener_backoff :
    (∀ (pre errs : List AcceptStep), (serveListener pre).ret = none →
      (serveListener pre).tempDelay = 0 → (∀ s ∈ errs, s.isTemporary = true) →
      serveListener (pre ++ errs) =
        ⟨(serveListener pre).events ++ (List.range errs.length).map
            (fun j => LoopEvent.sleep (min (5 * Millisecond * 2 ^ j) (1 * Second))),
          none,
          if errs.length = 0 then 0
          else min (5 * Millisecond * 2 ^ (errs.length - 1)) (1 * Second)⟩) ∧
    (List.range 10).map (fun j => min (5 * Millisecond * 2 ^ j) (1 * Second)) =
      [5000000, 10000000, 20000000, 40000000, 80000000, 160000000, 320000000, 640000000,
        1000000000, 1000000000] ∧
    (serveListener []).tempDelay = 0 ∧
    (∀ (pre : List AcceptStep) (c : Conn) (closed : Bool), (serveListener pre).ret = none →
      (serveListener (pre ++ [⟨.ok c, closed⟩])).ret = none ∧
        (serveListener (pre ++ [⟨.ok c, closed⟩])).tempDelay = 0) ∧
    (∀ (steps : List AcceptStep), ∀ x ∈ sleepsOf (serveListener steps).events,
      x ≤ 1 * Second) := by
  refine ⟨?_, by decide, rfl, ?_, fun steps => sleepsOf_le steps 0⟩
  · intro pre errs hret hd herrs
    unfold serveListener at hret hd ⊢
    rw [acceptLoop_append pre errs 0 hret, hd, acceptLoop_temps errs herrs]
    rfl
  · intro pre c closed hret
    unfold serveListener at hret ⊢
    rw [acceptLoop_append pre _ 0 hret]
    simp [acceptLoop]

/-- C6 after one accepted connection: three temporary errors sleep 5, 10 and
20 ms. -/
theorem serveListener_backoff_witness :
    ((serveListener [⟨.ok ⟨"10.0.0.1:80", 1⟩, false⟩]).ret = none ∧
      (serveListener [⟨.ok ⟨"10.0.0.1:80", 1⟩, false⟩]).tempDelay = 0 ∧
      ∀ s ∈ [temporaryStep, temporaryStep, temporaryStep], s.isTemporary = true) ∧
    serveListener ([⟨.ok ⟨"10.0.0.1:80", 1⟩, false⟩] ++
        [temporaryStep, temporaryStep, temporaryStep]) =
      ⟨(serveListener [⟨.ok ⟨"10.0.0.1:80", 1⟩, false⟩]).events ++
          (List.range [temporaryStep, temporaryStep, temporaryStep].length).map
            (fun j => LoopEvent.sleep (min (5 * Millisecond * 2 ^ j) (1 * Second))),
        none,
        if [temporaryStep, temporaryStep, temporaryStep].length = 0 then 0
        else min (5 * Millisecond *
          2 ^ ([temporaryStep, temporaryStep, temporaryStep].length - 1)) (1 * Second)⟩ :=
  ⟨⟨rfl, rfl, by decide⟩,
    serveListener_backoff.1 [⟨.ok ⟨"10.0.0.1:80", 1⟩, false⟩]
      [temporaryStep, temporaryStep, temporaryStep] rfl rfl (by decide)⟩

/-- The rounds before the one on which the loop returns: `Accept` succeeded,
or failed with a temporary error while the peer was not closed. -/
theorem acceptLoop_ret_some :
    ∀ (steps : List AcceptStep) (d : Int) (e : ListenError),
      (acceptLoop steps d).ret = some e →
      ∃ pre ae closed post, steps = pre ++ ⟨.error ae, closed⟩ :: post ∧
        (∀ s ∈ pre, s.isAccept = true ∨ s.isTemporary = true) ∧
        ((closed = true ∧ e = .ErrListenClosed) ∨
          (closed = false ∧ (ae.isNetError && ae.temporary) = false ∧ e = .acceptError ae))
  | [], d, e, h => by simp [acceptLoop] at h
  | ⟨.ok c, closed⟩ :: rest, d, e, h => by
    have h2 : (acceptLoop rest 0).ret = some e := by simpa [acceptLoop] using h
    obtain ⟨pre, ae, cl, post, hs, hp, hr⟩ := acceptLoop_ret_some rest 0 e h2
    refine ⟨⟨.ok c, closed⟩ :: pre, ae, cl, post, by simp [hs], ?_, hr⟩
    intro s hs2
    rcases List.mem_cons.1 hs2 with h1 | h1
    · subst h1; exact Or.inl rfl
    · exact hp s h1
  | ⟨.error a, closed⟩ :: rest, d, e, h => by
    cases closed with
    | true =>
      have he : e = .ErrListenClosed := by simpa [acceptLoop] using h.symm
      exact ⟨[], a, true, rest, rfl, by simp, Or.inl ⟨rfl, he⟩⟩
    | false =>
      cases hT : (a.isNetError && a.temporary) with
      | false =>
        have he : e = .acceptError a := by simpa [acceptLoop, hT] using h.symm
        exact ⟨[], a, false, rest, rfl, by simp, Or.inr ⟨rfl, hT, he⟩⟩
      | true =>
        have h2 : (acceptLoop rest (nextDelay d)).ret = some e := by
          simpa [acceptLoop, hT] using h
        obtain ⟨pre, ae, cl, post, hs, hp, hr⟩ := acceptLoop_ret_some rest _ e h2
        refine ⟨⟨.error a, false⟩ :: pre, ae, cl, post, by simp [hs], ?_, hr⟩
        intro s hs2
        rcases List.mem_cons.1 hs2 with h1 | h1
        · subst h1
          exact Or.inr (by simpa [AcceptStep.isTemporary] using hT)
        · exact hp s h1

/-- Rounds in which `Accept` succeeds or fails with a temporary error while the
peer is not closed do not make the loop return. -/
theorem acceptLoop_ret_none :
    ∀ (pre : List AcceptStep) (d : Int),
      (∀ s ∈ pre, s.isAccept = true ∨ s.isTemporary = true) → (acceptLoop pre d).ret = none
  | [], d, _ => by simp [acceptLoop]
  | s :: rest, d, h => by
    have hrest : ∀ x ∈ rest, x.isAccept = true ∨ x.isTemporary = true :=
      fun x hx => h x (List.mem_cons_of_mem _ hx)
    rcases h s (by simp) with h1 | h1
    · obtain ⟨c, hc⟩ := acceptLoop_accept s rest d h1
      rw [hc]
      exact acceptLoop_ret_none rest 0 hrest
    · rw [acceptLoop_temporary s rest d h1]
      exact acceptLoop_ret_none rest _ hrest

/-- C7: `serveListener` returns `e` exactly when some round `Accept` fails,
all earlier rounds being successful accepts or temporary errors with the peer
not closed (after which the loop slept and accepted again), and on that round
either the close channel is closed and `e` is `ErrListenClosed`, whatever the
error, or it is not closed, the error is not a temporary `net.Error`, and `e`
is that error; and as long as every round is a successful accept or such a
temporary error, it does not return. -/
theorem serveListener_returns (steps : List AcceptStep) (e : ListenError) :
    ((serveListener steps).ret = some e ↔
      ∃ pre ae closed post, steps = pre ++ ⟨.error ae, closed⟩ :: post ∧
        (∀ s ∈ pre, s.isAccept = true ∨ s.isTemporary = true) ∧
        ((closed = true ∧ e = .ErrListenClosed) ∨
          (closed = false ∧ (ae.isNetError && ae.temporary) = false ∧
            e = .acceptError ae))) ∧
    ((∀ s ∈ steps, s.isAccept = true ∨ s.isTemporary = true) →
      (serveListener steps).ret = none) := by
  refine ⟨⟨acceptLoop_ret_some steps 0 e, ?_⟩, acceptLoop_ret_none steps 0⟩
  rintro ⟨pre, ae, closed, post, hs, hp, hr⟩
  subst hs
  unfold serveListener
  rw [acceptLoop_append pre _ 0 (acceptLoop_ret_none pre 0 hp)]
  rcases hr with ⟨hc, he⟩ | ⟨hc, hT, he⟩
  · subst hc; subst he
    simp [acceptLoop]
  · subst hc; subst he
    simp [acceptLoop, hT]

/-- C7 on a run with an accepted connection, a temporary error, then a
temporary error arriving when the peer has been closed. -/
theorem serveListener_returns_witness :
    (∃ pre ae closed post,
      [⟨.ok ⟨"10.0.0.1:80", 1⟩, false⟩, temporaryStep,
          ⟨.error ⟨"use of closed network connection", true, true⟩, true⟩] =
        pre ++ (⟨.error ae, closed⟩ : AcceptStep) :: post ∧
      (∀ s ∈ pre, s.isAccept = true ∨ s.isTemporary = true) ∧
      ((closed = true ∧ ListenError.ErrListenClosed = .ErrListenClosed) ∨
        (closed = false ∧ (ae.isNetError && ae.temporary) = false ∧
          ListenError.ErrListenClosed = .acceptError ae))) ∧
    (serveListener [⟨.ok ⟨"10.0.0.1:80", 1⟩, false⟩, temporaryStep,
      ⟨.error ⟨"use of closed network connection", true, true⟩, true⟩]).ret =
        some .ErrListenClosed :=
  have hex : ∃ pre ae closed post,
      [⟨.ok ⟨"10.0.0.1:80", 1⟩, false⟩, temporaryStep,
          ⟨.error ⟨"use of closed network connection", true, true⟩, true⟩] =
        pre ++ (⟨.error ae, closed⟩ : AcceptStep) :: post ∧
      (∀ s ∈ pre, s.isAccept = true ∨ s.isTemporary = true) ∧
      ((closed = true ∧ ListenError.ErrListenClosed = .ErrListenClosed) ∨
        (closed = false ∧ (ae.isNetError && ae.temporary) = false ∧
          ListenError.ErrListenClosed = .acceptError ae)) :=
    ⟨[⟨.ok ⟨"10.0.0.1:80", 1⟩, false⟩, temporaryStep],
      ⟨"use of closed network connection", true, true⟩, true, [], rfl, by decide,
      Or.inl ⟨rfl, rfl⟩⟩
  ⟨hex, (serveListener_returns _ _).1.2 hex⟩

/-! ## The websocket protobuf sub-protocol and the thrift binary protocol -/

/-- `SetSize` changes no field of a message but the size. -/
theorem setSize_only_size (env : MsgEnv) (m : Message) (n : Nat) :
    ∃ k, (m.SetSize env n).2 = { m with size := k } := by
  unfold Message.SetSize
  cases env.checkMessageSize n with
  | none => exact ⟨n, rfl⟩
  | some e => exact ⟨m.size, rfl⟩

/-- C8 (the code drops the status): whatever arrives, `pbSubProto.Unpack`
leaves the status of the receiving message as it was, and the payload that
`Pack` writes has no field for it; a reply sent with the non-OK status 403 is
received, in a fresh message, with the nil status, which is OK. -/
theorem pbSubProto_status_not_transmitted :
    (∀ (env : MsgEnv) (input : PbInput) (m0 : Message),
      (pbSubProto.Unpack env input m0).2.status = m0.status) ∧
    Status.OK rejectedReply.status = false ∧
    (pbSubProto.Pack plainEnv (fun _ => 64) none none rejectedReply).err = none ∧
    (pbSubProto.Pack plainEnv (fun _ => 64) none none rejectedReply).writes.map
        (fun w => ((pbSubProto.Unpack plainEnv (.wire w) emptyMessage).1,
          (pbSubProto.Unpack plainEnv (.wire w) emptyMessage).2.status,
          Status.OK (pbSubProto.Unpack plainEnv (.wire w) emptyMessage).2.status)) =
      [(none, none, true)] := by
  refine ⟨?_, by decide, by decide, by decide⟩
  intro env input m0
  cases input with
  | readError e => rfl
  | garbage n e =>
    obtain ⟨k, hk⟩ := setSize_only_size env m0 (toUint32 n)
    simp only [pbSubProto.Unpack, hk]
  | wire w =>
    obtain ⟨k, hk⟩ := setSize_only_size env m0 (toUint32 w.encodedLen)
    simp only [pbSubProto.Unpack, hk]
    cases env.onUnpack _ w.payload.Body with
    | error e => rfl
    | ok bodyBytes =>
      simp only []
      cases env.unmarshalBody _ bodyBytes with
      | error e => rfl
      | ok body => rfl

theorem lookupHeader_bodyCodec (a b c d : Bytes) :
    lookupHeader (setHeader (setHeader (setHeader (setHeader [] HeaderStatus a)
      HeaderMeta b) HeaderBodyCodec c) HeaderXferPipe d) HeaderBodyCodec = c := by
  have h : ¬ (HeaderXferPipe = HeaderBodyCodec) := by decide
  simp [lookupHeader, setHeader, h]

/-- C9 (the code fails from 128 on): the header `Tp-BodyCodec` that
`binaryPack` writes is the Go conversion `string(b)` of the codec byte `b`,
its UTF-8 encoding, and `binaryUnpack` takes the first byte of the header; so
the codec received is `b` below 128 and `192 + b / 64` (194 or 195) from 128
on: a message sent with body codec 200 is received with body codec 195. -/
theorem binary_bodyCodec_roundtrip :
    (∀ (env : MsgEnv) (frameLen : TFrame → Nat) (c : RWCounter) (m : Message),
      (binaryPack env frameLen none c m).frame.map
          (fun f => lookupHeader f.headers HeaderBodyCodec) =
        (binaryPack env frameLen none c m).frame.map (fun _ => goStringOfByte m.bodyCodec)) ∧
    (∀ b : Nat, (binaryRoundTrip plainEnv (codecMessage b)).map
        (fun r => (r.1, r.2.bodyCodec)) =
      some (none, if b < 128 then b else 192 + b / 64)) ∧
    goStringOfByte 200 = [195, 136] ∧
    (binaryRoundTrip plainEnv (codecMessage 200)).map (fun r => (r.1, r.2.bodyCodec)) =
      some (none, 195) ∧
    (binaryRoundTrip plainEnv (codecMessage 128)).map (fun r => (r.1, r.2.bodyCodec)) =
      some (none, 194) ∧
    (binaryRoundTrip plainEnv (codecMessage 115)).map (fun r => (r.1, r.2.bodyCodec)) =
      some (none, 115) := by
  refine ⟨?_, ?_, by decide, by decide, by decide, by decide⟩
  · intro env frameLen c m
    simp only [binaryPack]
    cases env.marshalBody m with
    | error e => rfl
    | ok bodyBytes =>
      simp only []
      cases env.onPack m.xferPipe bodyBytes with
      | error e => rfl
      | ok packed =>
        simp only [Option.map_some', lookupHeader_bodyCodec]
  · intro b
    simp only [binaryRoundTrip, binaryPack, plainEnv, codecMessage, Message.SetSize,
      Option.map_some', binaryUnpack, lookupHeader_bodyCodec]
    by_cases hb : b < 128
    · simp [hb, goStringOfByte, readMessageBegin, writeMessageBegin, thriftCALL, TypeCall,
        lookupHeader, setHeader, xferAppend, emptyMessage, Message.SetSize, HeaderXferPipe]
    · simp [hb, goStringOfByte, readMessageBegin, writeMessageBegin, thriftCALL, TypeCall,
        lookupHeader, setHeader, xferAppend, emptyMessage, Message.SetSize, HeaderXferPipe]

/-- C10 (the code fails on AUTH_CALL and AUTH_REPLY): `readMessageBegin` on
what `writeMessageBegin` wrote for `m` sets the service method and the
sequence number of `m`, and the message type of `m` when it is CALL, REPLY or
PUSH; for every other type, AUTH_CALL and AUTH_REPLY among them,
`writeMessageBegin` writes the invalid thrift type 0 and the type received is
PUSH. -/
theorem thrift_messageBegin_roundtrip :
    (∀ (exception : GoError) (m m0 : Message),
      (readMessageBegin exception (.ok (writeMessageBegin m)) m0).1 = none ∧
      (readMessageBegin exception (.ok (writeMessageBegin m)) m0).2.serviceMethod =
        m.serviceMethod ∧
      (readMessageBegin exception (.ok (writeMessageBegin m)) m0).2.seq = m.seq ∧
      (readMessageBegin exception (.ok (writeMessageBegin m)) m0).2.mtype =
        (if m.mtype = TypeCall ∨ m.mtype = TypeReply ∨ m.mtype = TypePush then m.mtype
          else TypePush)) ∧
    (writeMessageBegin authCallMessage).typeID = thriftINVALID ∧
    (binaryRoundTrip plainEnv authCallMessage).map (fun r => (r.1, r.2.mtype)) =
      some (none, TypePush) ∧
    (binaryRoundTrip plainEnv { authCallMessage with mtype := TypeAuthReply }).map
      (fun r => (r.1, r.2.mtype)) = some (none, TypePush) ∧
    TypePush ≠ TypeAuthCall ∧ TypePush ≠ TypeAuthReply := by
  refine ⟨?_, by decide, by decide, by decide, by decide, by decide⟩
  intro exception m m0
  by_cases h1 : m.mtype = TypeCall
  · simp [readMessageBegin, writeMessageBegin, h1, thriftCALL]
  · by_cases h2 : m.mtype = TypeReply
    · simp [readMessageBegin, writeMessageBegin, h2, thriftCALL, thriftREPLY, TypeReply,
        TypeCall]
    · by_cases h3 : m.mtype = TypePush
      · simp [readMessageBegin, writeMessageBegin, h3, thriftCALL, thriftREPLY, thriftONEWAY,
          TypeReply, TypeCall, TypePush]
      · simp [readMessageBegin, writeMessageBegin, h1, h2, h3, thriftCALL, thriftREPLY,
          thriftONEWAY, thriftINVALID, thriftEXCEPTION]

/-! ## Sizes, transfer pipes and the thrift struct protocol -/

theorem setSize_bodyCodec (env : MsgEnv) (m : Message) (n : Nat) :
    (m.SetSize env n).2.bodyCodec = m.bodyCodec := by
  unfold Message.SetSize
  cases env.checkMessageSize n <;> rfl

theorem setSize_ok (env : MsgEnv) (m : Message) (n : Nat)
    (h : (m.SetSize env n).1 = none) : (m.SetSize env n).2.size = n := by
  unfold Message.SetSize at h ⊢
  cases hc : env.checkMessageSize n with
  | none => rfl
  | some e => simp [hc] at h

/-- The size a successful `binaryUnpack` records is the count of all bytes read
on the connection so far, the frame just read included. -/
theorem binaryUnpack_size (env : MsgEnv) (frameLen : TFrame → Nat) (exception : GoError)
    (c : RWCounter) (f : TFrame) (m : Message)
    (h : (binaryUnpack env frameLen exception c (.ok f) m).1 = none) :
    (binaryUnpack env frameLen exception c (.ok f) m).2.1.size =
      toUint32 (c.readed + frameLen f) := by
  revert h
  unfold binaryUnpack
  dsimp only
  rcases readMessageBegin exception (.ok f.begin) m with ⟨oe, m1⟩
  cases oe with
  | some e => simp
  | none =>
    dsimp only
    generalize (match lookupHeader f.headers HeaderBodyCodec with
      | [] => ({ m1 with
          status := env.statusDecodeQuery m1.status (lookupHeader f.headers HeaderStatus),
          meta := env.metaParse m1.meta (lookupHeader f.headers HeaderMeta) } : Message)
      | c :: _ => { m1 with
          status := env.statusDecodeQuery m1.status (lookupHeader f.headers HeaderStatus),
          meta := env.metaParse m1.meta (lookupHeader f.headers HeaderMeta),
          bodyCodec := c }) = m4
    rcases xferAppend env m4.xferPipe (lookupHeader f.headers HeaderXferPipe) with ⟨xe, pipe⟩
    cases xe with
    | some e => simp
    | none =>
      dsimp only
      cases env.onUnpack pipe f.body with
      | error e => simp
      | ok body =>
        dsimp only
        cases env.unmarshalBody { m4 with xferPipe := pipe } body with
        | error e => simp
        | ok v =>
          dsimp only
          exact setSize_ok env _ _

/-- The size a successful `structUnpack` records is the count of all bytes read
on the connection so far, the frame just read included. -/
theorem structUnpack_size (env : MsgEnv) (ID_THRIFT : Nat)
    (readTStruct : Message → Bytes → Option (Except GoError Bytes)) (frameLen : TFrame → Nat)
    (exception : GoError) (c : RWCounter) (f : TFrame) (m : Message)
    (h : (structUnpack env ID_THRIFT readTStruct frameLen exception c (.ok f) m).1 = none) :
    (structUnpack env ID_THRIFT readTStruct frameLen exception c (.ok f) m).2.1.size =
        toUint32 (c.readed + frameLen f) ∧
      (structUnpack env ID_THRIFT readTStruct frameLen exception c (.ok f) m).2.1.bodyCodec =
        ID_THRIFT := by
  revert h
  unfold structUnpack
  dsimp only
  rcases readMessageBegin exception (.ok f.begin) m with ⟨oe, m1⟩
  cases oe with
  | some e => simp
  | none =>
    dsimp only
    generalize (match env.unmarshalBody m1 [] with
      | .ok v => ({ m1 with body := v } : Message)
      | .error _ => m1) = m2
    cases readTStruct m2 f.body with
    | none => simp
    | some r =>
      cases r with
      | error e => simp
      | ok v =>
        dsimp only
        intro h
        exact ⟨setSize_ok env _ _ h, setSize_bodyCodec env _ _⟩

/-- The size `binaryPack` records when it succeeds is the length of the frame
it wrote, whatever the counters held before. -/
theorem binaryPack_size (env : MsgEnv) (frameLen : TFrame → Nat) (c : RWCounter)
    (m : Message) (h : (binaryPack env frameLen none c m).err = none) :
    ∃ f, (binaryPack env frameLen none c m).frame = some f ∧
      (binaryPack env frameLen none c m).msg.size = toUint32 (frameLen f) := by
  revert h
  unfold binaryPack
  cases env.marshalBody m with
  | error e => simp
  | ok bodyBytes =>
    dsimp only
    cases env.onPack m.xferPipe bodyBytes with
    | error e => simp
    | ok packed =>
      dsimp only
      intro h
      refine ⟨_, rfl, ?_⟩
      have := setSize_ok env m _ h
      simpa using this

/-- C11 (the code records the cumulative count on unpack): `binaryUnpack` and
`structUnpack` set the write counter to zero, not the read counter, and record
the read counter; on a connection where a frame of 23 bytes and then a frame
of 25 bytes arrive, the sizes recorded are 23 and 48, not 23 and 25. A pack
after these two unpacks records the 23 bytes it wrote. -/
theorem thrift_unpack_size_cumulative :
    [exampleFrame [1, 2, 3], exampleFrame [4, 5, 6, 7, 8]].map exampleFrameLen = [23, 25] ∧
    binaryUnpackAll plainEnv exampleFrameLen ⟨0, 0⟩
        [exampleFrame [1, 2, 3], exampleFrame [4, 5, 6, 7, 8]] = [(none, 23), (none, 48)] ∧
    structUnpackAll plainEnv 116 (fun _ b => some (.ok b)) exampleFrameLen ⟨0, 0⟩
        [exampleFrame [1, 2, 3], exampleFrame [4, 5, 6, 7, 8]] = [(none, 23), (none, 48)] ∧
    ((binaryPack plainEnv exampleFrameLen none ⟨48, 0⟩
        { emptyMessage with body := [1, 2, 3] }).err,
      (binaryPack plainEnv exampleFrameLen none ⟨48, 0⟩
        { emptyMessage with body := [1, 2, 3] }).msg.size) = (none, 23) ∧
    (∀ (env : MsgEnv) (frameLen : TFrame → Nat) (exception : GoError) (c : RWCounter)
      (f : TFrame) (m : Message),
      (binaryUnpack env frameLen exception c (.ok f) m).2.2 =
        ⟨c.readed + frameLen f, 0⟩) := by
  refine ⟨by decide, by decide, by decide, by decide, ?_⟩
  intro env frameLen exception c f m
  unfold binaryUnpack
  dsimp only
  rcases readMessageBegin exception (.ok f.begin) m with ⟨oe, m1⟩
  cases oe with
  | some e => rfl
  | none =>
    dsimp only
    generalize (match lookupHeader f.headers HeaderBodyCodec with
      | [] => ({ m1 with
          status := env.statusDecodeQuery m1.status (lookupHeader f.headers HeaderStatus),
          meta := env.metaParse m1.meta (lookupHeader f.headers HeaderMeta) } : Message)
      | c :: _ => { m1 with
          status := env.statusDecodeQuery m1.status (lookupHeader f.headers HeaderStatus),
          meta := env.metaParse m1.meta (lookupHeader f.headers HeaderMeta),
          bodyCodec := c }) = m4
    rcases xferAppend env m4.xferPipe (lookupHeader f.headers HeaderXferPipe) with ⟨xe, pipe⟩
    cases xe with
    | some e => rfl
    | none =>
      dsimp only
      cases env.onUnpack pipe f.body with
      | error e => rfl
      | ok body =>
        dsimp only
        cases env.unmarshalBody { m4 with xferPipe := pipe } body with
        | error e => rfl
        | ok v => rfl

theorem foldl_xferAppendOne (env : MsgEnv) :
    ∀ (ids pipe : List Nat),
      ids.foldl (fun pipe r => (xferAppendOne env pipe r).2) pipe =
        pipe ++ ids.filter env.registered
  | [], pipe => by simp
  | id :: rest, pipe => by
    rw [List.foldl_cons, foldl_xferAppendOne env rest]
    cases h : env.registered id <;> simp [xferAppendOne, h]

/-- C12 (the code ignores the refusal): `pbSubProto.Unpack` drops the error of
`XferPipe().Append(r)`, so the transfer pipe it leaves on the message is the
one before followed by the registered IDs of the payload, the others being
skipped without a word; on a payload whose transfer-pipe list is `[122]`,
with only the ID 103 registered, `Append` refuses 122, yet `Unpack` returns nil
and delivers the message with an empty transfer pipe and the body as it came;
`binaryUnpack` returns the error of `Append` on the same list. -/
theorem pbSubProto_unpack_ignores_unknown_pipe :
    (∀ (env : MsgEnv) (w : PbWire) (m0 : Message),
      (pbSubProto.Unpack env (.wire w) m0).2.xferPipe =
        m0.xferPipe ++ w.payload.XferPipe.filter env.registered) ∧
    (xferAppendOne gzipOnlyEnv [] 122).1 ≠ none ∧
    pbSubProto.Unpack gzipOnlyEnv (.wire ⟨unknownPipePayload, 30⟩) emptyMessage =
      (none, ⟨1, 1, "/home/test", 115, [1, 2, 3], [], none, [], 30⟩) ∧
    (binaryUnpack gzipOnlyEnv exampleFrameLen "exception" ⟨0, 0⟩
      (.ok ⟨⟨"/home/test", thriftCALL, 1⟩, [1, 2, 3], [(HeaderXferPipe, [122])]⟩)
      emptyMessage).1 ≠ none := by
  refine ⟨?_, by decide, by decide, by decide⟩
  intro env w m0
  obtain ⟨k, hk⟩ := setSize_only_size env m0 (toUint32 w.encodedLen)
  simp only [pbSubProto.Unpack, hk, foldl_xferAppendOne]
  cases env.onUnpack (m0.xferPipe ++ w.payload.XferPipe.filter env.registered)
      w.payload.Body with
  | error e => rfl
  | ok bodyBytes =>
    dsimp only
    cases env.unmarshalBody _ bodyBytes with
    | error e => rfl
    | ok body => rfl

theorem structPackWrite_bodyCodec (env : MsgEnv)
    (asTStruct : Message → Option (Except GoError Bytes)) (frameLen : TFrame → Nat)
    (flushErr : Option GoError) (c : RWCounter) (m : Message) :
    (structPackWrite env asTStruct frameLen flushErr c m).msg.bodyCodec = m.bodyCodec := by
  unfold structPackWrite
  dsimp only
  cases asTStruct m with
  | none => rfl
  | some r =>
    cases r with
    | error e => rfl
    | ok bodyBytes =>
      cases flushErr with
      | some e => rfl
      | none => exact setSize_bodyCodec env _ _

/-- C13: `structPack` returns an error, with nothing written and the counters
untouched, for every message whose transfer pipe is not empty and for every
message whose body codec is neither `NilCodecID` nor `ID_THRIFT`; for a
message with empty transfer pipe and `NilCodecID` it leaves the body codec at
`ID_THRIFT`; and a message on which `structUnpack` succeeded has body codec
`ID_THRIFT`. -/
theorem structProto_only_thrift (env : MsgEnv) (ID_THRIFT : Nat)
    (asTStruct : Message → Option (Except GoError Bytes))
    (readTStruct : Message → Bytes → Option (Except GoError Bytes))
    (frameLen : TFrame → Nat) (flushErr : Option GoError) (exception : GoError)
    (c : RWCounter) (m : Message) :
    (m.xferPipe ≠ [] →
      (structPack env ID_THRIFT asTStruct frameLen flushErr c m).err =
          some "unsupport transfer pipe" ∧
        (structPack env ID_THRIFT asTStruct frameLen flushErr c m).frame = none ∧
        (structPack env ID_THRIFT asTStruct frameLen flushErr c m).counter = c) ∧
    (m.bodyCodec ≠ NilCodecID → m.bodyCodec ≠ ID_THRIFT →
      (structPack env ID_THRIFT asTStruct frameLen flushErr c m).err ≠ none ∧
        (structPack env ID_THRIFT asTStruct frameLen flushErr c m).frame = none ∧
        (structPack env ID_THRIFT asTStruct frameLen flushErr c m).counter = c) ∧
    (m.xferPipe = [] → m.bodyCodec = NilCodecID →
      (structPack env ID_THRIFT asTStruct frameLen flushErr c m).msg.bodyCodec = ID_THRIFT) ∧
    (∀ (input : Except GoError TFrame),
      (structUnpack env ID_THRIFT readTStruct frameLen exception c input m).1 = none →
      (structUnpack env ID_THRIFT readTStruct frameLen exception c input m).2.1.bodyCodec =
        ID_THRIFT) := by
  refine ⟨?_, ?_, ?_, ?_⟩
  · intro hp
    have hlen : m.xferPipe.length > 0 := List.length_pos.2 hp
    simp [structPack, hlen]
  · intro h1 h2
    by_cases hlen : m.xferPipe.length > 0
    · simp [structPack, hlen]
    · simp [structPack, hlen, h1, h2]
  · intro hp hc
    simp only [structPack, hp, List.length_nil, gt_iff_lt, Nat.lt_irrefl, if_false, hc, if_true]
    exact structPackWrite_bodyCodec env asTStruct frameLen flushErr c _
  · intro input h
    cases input with
    | error e => simp [structUnpack] at h
    | ok f => exact (structUnpack_size env ID_THRIFT readTStruct frameLen exception c f m h).2

/-- C13 on messages with a transfer pipe, with the JSON codec (106), with no
codec, and on a frame that arrives. -/
theorem structProto_only_thrift_witness :
    ((⟨1, TypeCall, "Home.Test", 116, [], [], none, [103], 0⟩ : Message).xferPipe ≠ [] ∧
      (structPack plainEnv 116 (fun x => some (.ok x.body)) exampleFrameLen none ⟨0, 0⟩
          ⟨1, TypeCall, "Home.Test", 116, [], [], none, [103], 0⟩).err =
          some "unsupport transfer pipe" ∧
      (structPack plainEnv 116 (fun x => some (.ok x.body)) exampleFrameLen none ⟨0, 0⟩
          ⟨1, TypeCall, "Home.Test", 116, [], [], none, [103], 0⟩).frame = none) ∧
    ((codecMessage 106).bodyCodec ≠ NilCodecID ∧ (codecMessage 106).bodyCodec ≠ 116 ∧
      (structPack plainEnv 116 (fun x => some (.ok x.body)) exampleFrameLen none ⟨0, 0⟩
          (codecMessage 106)).err ≠ none) ∧
    ((codecMessage 0).xferPipe = [] ∧ (codecMessage 0).bodyCodec = NilCodecID ∧
      (structPack plainEnv 116 (fun x => some (.ok x.body)) exampleFrameLen none ⟨0, 0⟩
          (codecMessage 0)).msg.bodyCodec = 116) ∧
    ((structUnpack plainEnv 116 (fun _ b => some (.ok b)) exampleFrameLen "exception" ⟨0, 0⟩
        (.ok (exampleFrame [1, 2, 3])) emptyMessage).1 = none ∧
      (structUnpack plainEnv 116 (fun _ b => some (.ok b)) exampleFrameLen "exception" ⟨0, 0⟩
        (.ok (exampleFrame [1, 2, 3])) emptyMessage).2.1.bodyCodec = 116) :=
  ⟨⟨by decide,
      ((structProto_only_thrift plainEnv 116 (fun x => some (.ok x.body))
        (fun _ b => some (.ok b)) exampleFrameLen none "exception" ⟨0, 0⟩
        ⟨1, TypeCall, "Home.Test", 116, [], [], none, [103], 0⟩).1 (by decide)).1,
      ((structProto_only_thrift plainEnv 116 (fun x => some (.ok x.body))
        (fun _ b => some (.ok b)) exampleFrameLen none "exception" ⟨0, 0⟩
        ⟨1, TypeCall, "Home.Test", 116, [], [], none, [103], 0⟩).1 (by decide)).2.1⟩,
    ⟨by decide, by decide,
      ((structProto_only_thrift plainEnv 116 (fun x => some (.ok x.body))
        (fun _ b => some (.ok b)) exampleFrameLen none "exception" ⟨0, 0⟩
        (codecMessage 106)).2.1 (by decide) (by decide)).1⟩,
    ⟨by decide, by decide,
      (structProto_only_thrift plainEnv 116 (fun x => some (.ok x.body))
        (fun _ b => some (.ok b)) exampleFrameLen none "exception" ⟨0, 0⟩
        (codecMessage 0)).2.2.1 (by decide) (by decide)⟩,
    ⟨by decide,
      (structProto_only_thrift plainEnv 116 (fun x => some (.ok x.body))
        (fun _ b => some (.ok b)) exampleFrameLen none "exception" ⟨0, 0⟩
        emptyMessage).2.2.2 (.ok (exampleFrame [1, 2, 3])) (by decide)⟩⟩

/-! ## plugin/auth/auth.go -/

theorem sendOnce_first (env : AuthEnv) :
    (SendOnce env ⟨0, [], []⟩).2.called = 1 ∧ (SendOnce env ⟨0, [], []⟩).2.results = [] ∧
      (SendOnce env ⟨0, [], []⟩).2.events =
        .preSend TypeAuthCall none ::
          (if Status.OK (env.preSend TypeAuthCall none) then [.preReceive] else []) := by
  unfold SendOnce CompareAndSwapInt32
  cases h1 : Status.OK (env.preSend TypeAuthCall none) with
  | false => simp [h1]
  | true =>
    cases h2 : Status.OK env.preReceive.status with
    | false => simp [h1, h2]
    | true =>
      by_cases h3 : env.preReceive.mtype = TypeAuthReply <;> simp [h1, h2, h3]

theorem sendOnce_again (env : AuthEnv) (st : OnceState) (h : st.called ≠ 0) :
    SendOnce env st = (some (MultiSendErr env.codes), st) := by
  simp [SendOnce, CompareAndSwapInt32, h]

theorem recvOnce_first (env : AuthEnv) :
    (RecvOnce env ⟨0, [], []⟩).2.called = 1 ∧ (RecvOnce env ⟨0, [], []⟩).2.results = [] ∧
      (RecvOnce env ⟨0, [], []⟩).2.events = [.preReceive] := by
  unfold RecvOnce CompareAndSwapInt32
  cases h2 : Status.OK env.preReceive.status with
  | false => simp [h2]
  | true =>
    by_cases h3 : env.preReceive.mtype = TypeAuthCall <;> simp [h2, h3]

theorem recvOnce_again (env : AuthEnv) (st : OnceState) (h : st.called ≠ 0) :
    RecvOnce env st = (some (MultiRecvErr env.codes), st) := by
  simp [RecvOnce, CompareAndSwapInt32, h]

/-- Once `called` is set, the rest of a bearer gets `MultiSendErr` from every
call and nothing happens on the session. -/
theorem runBearer_called (env : AuthEnv) :
    ∀ (prog : BearerProg) (st : OnceState), st.called ≠ 0 →
      ∃ n, (runBearer env prog st).2.events = st.events ∧
        (runBearer env prog st).2.results =
          st.results ++ List.replicate n (some (MultiSendErr env.codes))
  | .done stat, st, _ => ⟨0, by simp [runBearer]⟩
  | .send k, st, h => by
    obtain ⟨n, h1, h2⟩ := runBearer_called env (k (some (MultiSendErr env.codes)))
      { st with results := st.results ++ [some (MultiSendErr env.codes)] } h
    refine ⟨n + 1, ?_, ?_⟩
    · simp only [runBearer, sendOnce_again env st h]
      exact h1
    · simp only [runBearer, sendOnce_again env st h]
      rw [h2]
      simp [List.replicate_succ]

/-- Once `called` is set, the rest of a checker gets `MultiRecvErr` from every
call and nothing happens on the session. -/
theorem runChecker_called (env : AuthEnv) :
    ∀ (prog : CheckerProg) (st : OnceState), st.called ≠ 0 →
      ∃ n, (runChecker env prog st).2.events = st.events ∧
        (runChecker env prog st).2.results =
          st.results ++ List.replicate n (some (MultiRecvErr env.codes))
  | .done ret stat, st, _ => ⟨0, by simp [runChecker]⟩
  | .recv k, st, h => by
    obtain ⟨n, h1, h2⟩ := runChecker_called env (k (some (MultiRecvErr env.codes)))
      { st with results := st.results ++ [some (MultiRecvErr env.codes)] } h
    refine ⟨n + 1, ?_, ?_⟩
    · simp only [runChecker, recvOnce_again env st h]
      exact h1
    · simp only [runChecker, recvOnce_again env st h]
      rw [h2]
      simp [List.replicate_succ]

theorem postAccept_state (env : AuthEnv) (prog : CheckerProg) :
    (authCheckerPlugin.PostAccept env (some prog)).2 =
      { (runChecker env prog ⟨0, [], []⟩).2 with
        events := (runChecker env prog ⟨0, [], []⟩).2.events ++
          [.preSend TypeAuthReply (runChecker env prog ⟨0, [], []⟩).1.2] } := by
  unfold authCheckerPlugin.PostAccept
  dsimp only
  split
  · rfl
  · split <;> rfl

/-- C14: in one `PostDial`, either the bearer never calls `SendOnce` and
nothing is sent or received, or the first call sends one AUTH_CALL (and
receives one message when the sending succeeded) and each of the later calls,
however many, returns `MultiSendErr` with nothing sent or received; in one
`PostAccept`, either the checker never calls `RecvOnce` and nothing is
received, or the first call receives one message and each of the later calls
returns `MultiRecvErr` with nothing received, the only other event being the
AUTH_REPLY that `PostAccept` sends at the end. -/
theorem auth_send_recv_once (env : AuthEnv) (bearer : BearerProg) (checker : CheckerProg) :
    (((authBearerPlugin.PostDial env (some bearer)).2.results = [] ∧
        (authBearerPlugin.PostDial env (some bearer)).2.events = []) ∨
      ∃ n, (authBearerPlugin.PostDial env (some bearer)).2.results =
          (SendOnce env ⟨0, [], []⟩).1 :: List.replicate n (some (MultiSendErr env.codes)) ∧
        (authBearerPlugin.PostDial env (some bearer)).2.events =
          .preSend TypeAuthCall none ::
            (if Status.OK (env.preSend TypeAuthCall none) then [.preReceive] else [])) ∧
    (((authCheckerPlugin.PostAccept env (some checker)).2.results = [] ∧
        (authCheckerPlugin.PostAccept env (some checker)).2.events =
          [.preSend TypeAuthReply (runChecker env checker ⟨0, [], []⟩).1.2]) ∨
      ∃ n, (authCheckerPlugin.PostAccept env (some checker)).2.results =
          (RecvOnce env ⟨0, [], []⟩).1 :: List.replicate n (some (MultiRecvErr env.codes)) ∧
        (authCheckerPlugin.PostAccept env (some checker)).2.events =
          [.preReceive, .preSend TypeAuthReply (runChecker env checker ⟨0, [], []⟩).1.2]) := by
  constructor
  · cases bearer with
    | done stat => exact Or.inl ⟨rfl, rfl⟩
    | send k =>
      right
      obtain ⟨hc, hr, he⟩ := sendOnce_first env
      obtain ⟨n, h1, h2⟩ := runBearer_called env (k (SendOnce env ⟨0, [], []⟩).1)
        { (SendOnce env ⟨0, [], []⟩).2 with
          results := (SendOnce env ⟨0, [], []⟩).2.results ++ [(SendOnce env ⟨0, [], []⟩).1] }
        (by simp [hc])
      refine ⟨n, ?_, ?_⟩
      · simp only [authBearerPlugin.PostDial, runBearer]
        rw [h2, hr]
        rfl
      · simp only [authBearerPlugin.PostDial, runBearer]
        rw [h1]
        exact he
  · rw [postAccept_state]
    cases checker with
    | done ret stat => exact Or.inl ⟨rfl, rfl⟩
    | recv k =>
      right
      obtain ⟨hc, hr, he⟩ := recvOnce_first env
      obtain ⟨n, h1, h2⟩ := runChecker_called env (k (RecvOnce env ⟨0, [], []⟩).1)
        { (RecvOnce env ⟨0, [], []⟩).2 with
          results := (RecvOnce env ⟨0, [], []⟩).2.results ++ [(RecvOnce env ⟨0, [], []⟩).1] }
        (by simp [hc])
      refine ⟨n, ?_, ?_⟩
      · simp only [runChecker]
        rw [h2, hr]
        rfl
      · simp only [runChecker]
        rw [h1, he]
        rfl

/-- C15, as amended: when the checker of the server returns a non-OK status
`stat`, the last message `PostAccept` sends is an AUTH_REPLY carrying `stat`;
and a client whose AUTH_CALL was sent and which receives an AUTH_REPLY with
that status gets `stat` itself from `SendOnce`, and from `PostDial` when the
bearer returns what `SendOnce` gave: the code is the one the checker chose. -/
theorem auth_reject_status (envS envC : AuthEnv) (checker : CheckerProg)
    (stat : Option Status)
    (hchk : (runChecker envS checker ⟨0, [], []⟩).1.2 = stat)
    (hno : Status.OK stat = false)
    (hsent : Status.OK (envC.preSend TypeAuthCall none) = true)
    (hrecv : envC.preReceive = ⟨TypeAuthReply, stat⟩) :
    lastSent (authCheckerPlugin.PostAccept envS (some checker)).2.events =
        some ⟨TypeAuthReply, stat⟩ ∧
      (SendOnce envC ⟨0, [], []⟩).1 = stat ∧
      (authBearerPlugin.PostDial envC (some singleSendBearer)).1 = stat := by
  have hs : (SendOnce envC ⟨0, [], []⟩).1 = stat := by
    simp [SendOnce, CompareAndSwapInt32, hsent, hrecv, hno]
  refine ⟨?_, hs, ?_⟩
  · rw [postAccept_state, hchk]
    have hl : ∀ (l : List AuthEvent) (m : Nat) (t : Option Status),
        lastSent (l ++ [.preSend m t]) = some ⟨m, t⟩ := by
      intro l m t
      induction l with
      | nil => rfl
      | cons e rest ih =>
        cases e with
        | preSend m2 t2 => simp [lastSent, ih]
        | preReceive => simpa [lastSent] using ih
    exact hl _ _ _
  · simp only [authBearerPlugin.PostDial, singleSendBearer, runBearer]
    exact hs

/-- C15 with the checker of `websocket_test.go`, which rejects with code 403. -/
theorem auth_reject_status_witness :
    ((runChecker authServerEnv rejectingChecker ⟨0, [], []⟩).1.2 =
        some ⟨403, "auth fail", "auth fail detail"⟩ ∧
      Status.OK (some ⟨403, "auth fail", "auth fail detail"⟩) = false ∧
      Status.OK ((authClientEnv ⟨TypeAuthReply, some ⟨403, "auth fail", "auth fail detail"⟩⟩).preSend
        TypeAuthCall none) = true ∧
      (authClientEnv ⟨TypeAuthReply, some ⟨403, "auth fail", "auth fail detail"⟩⟩).preReceive =
        ⟨TypeAuthReply, some ⟨403, "auth fail", "auth fail detail"⟩⟩) ∧
    (lastSent (authCheckerPlugin.PostAccept authServerEnv (some rejectingChecker)).2.events =
        some ⟨TypeAuthReply, some ⟨403, "auth fail", "auth fail detail"⟩⟩ ∧
      (SendOnce (authClientEnv ⟨TypeAuthReply, some ⟨403, "auth fail", "auth fail detail"⟩⟩)
        ⟨0, [], []⟩).1 = some ⟨403, "auth fail", "auth fail detail"⟩ ∧
      (authBearerPlugin.PostDial
        (authClientEnv ⟨TypeAuthReply, some ⟨403, "auth fail", "auth fail detail"⟩⟩)
        (some singleSendBearer)).1 = some ⟨403, "auth fail", "auth fail detail"⟩) :=
  ⟨⟨by decide, by decide, by decide, rfl⟩,
    auth_reject_status authServerEnv
      (authClientEnv ⟨TypeAuthReply, some ⟨403, "auth fail", "auth fail detail"⟩⟩)
      rejectingChecker (some ⟨403, "auth fail", "auth fail detail"⟩)
      (by decide) (by decide) (by decide) rfl⟩

/-- C15 fails as stated: the checker of `websocket_test.go` rejects wrong
credentials with code 403; the AUTH_REPLY that `PostAccept` sends carries that
status, and the client that receives it gets a status of code 403 from
`SendOnce` and from `PostDial`, not of code Unauthorized. -/
theorem auth_reject_code_not_unauthorized :
    Status.OK (runChecker authServerEnv rejectingChecker ⟨0, [], []⟩).1.2 = false ∧
      lastSent (authCheckerPlugin.PostAccept authServerEnv (some rejectingChecker)).2.events =
        some ⟨TypeAuthReply, some ⟨403, "auth fail", "auth fail detail"⟩⟩ ∧
      ((SendOnce (authClientEnv ⟨TypeAuthReply, some ⟨403, "auth fail", "auth fail detail"⟩⟩)
        ⟨0, [], []⟩).1.map Status.code,
        (authBearerPlugin.PostDial
          (authClientEnv ⟨TypeAuthReply, some ⟨403, "auth fail", "auth fail detail"⟩⟩)
          (some singleSendBearer)).1.map Status.code) = (some 403, some 403) ∧
      (403 : Int) ≠ exampleAuthCodes.CodeUnauthorized := by
  decide

/-! ## The websocket handshake plugin and the hook chains -/

theorem header_get_set (h : HttpHeader) (key value : String) :
    (h.Set key value).Get key = value := by
  simp [HttpHeader.Set, HttpHeader.Get]

/-- C16: with `CheckFunc` and `AcceptFunc` set, `PreHandshake` returns the
status that `CheckFunc` returns for the request (OK or not) and leaves the ID
that `CheckFunc` returns in the header `Erpc-Session-Id`, whatever the request
held there; `PostAccept` on that request sets this ID on the session, and
`AcceptFunc` is called on the session with this ID. -/
theorem handshakeAuth_session_id (check : HttpRequest → String × Option Status)
    (accept : Session → Option Status) (r : HttpRequest) (sess : Session) :
    (HandshakeAuthPlugin.PreHandshake ⟨some check, some accept⟩ r).1 = (check r).2 ∧
    (HandshakeAuthPlugin.PreHandshake ⟨some check, some accept⟩ r).2.header.Get sessionHeader =
      (check r).1 ∧
    HandshakeAuthPlugin.PostAccept ⟨some check, some accept⟩ sess
        (HandshakeAuthPlugin.PreHandshake ⟨some check, some accept⟩ r).2 =
      (accept { sess with id := (check r).1 }, { sess with id := (check r).1 }) := by
  have hg : (HandshakeAuthPlugin.PreHandshake ⟨some check, some accept⟩ r).2.header.Get
      sessionHeader = (check r).1 := by
    simp only [HandshakeAuthPlugin.PreHandshake]
    exact header_get_set _ _ _
  refine ⟨rfl, hg, ?_⟩
  simp only [HandshakeAuthPlugin.PostAccept]
  rw [hg]

theorem hookChain_pass (statISE : Status) (hookOf : WsPlugin → Option HookResult)
    (x : WsPlugin) (rest : List WsPlugin) (h : hookPasses (hookOf x) = true) :
    hookChain statISE hookOf (x :: rest) =
      ⟨(hookChain statISE hookOf rest).stat,
        implementers hookOf [x] ++ (hookChain statISE hookOf rest).invoked⟩ := by
  cases hx : hookOf x with
  | none => simp [hookChain, implementers, hx]
  | some res =>
    cases res with
    | panics v => simp [hookPasses, hx] at h
    | returns stat =>
      have hok : Status.OK stat = true := by simpa [hookPasses, hx] using h
      simp [hookChain, implementers, hx, hok]

theorem implementers_cons (hookOf : WsPlugin → Option HookResult) (x : WsPlugin)
    (rest : List WsPlugin) :
    implementers hookOf (x :: rest) = implementers hookOf [x] ++ implementers hookOf rest := by
  cases hx : hookOf x <;> simp [implementers, hx]

/-- The chain after plugins that pass: their hooks are called in order and the
chain goes on. -/
theorem hookChain_append (statISE : Status) (hookOf : WsPlugin → Option HookResult) :
    ∀ (pre rest : List WsPlugin), (∀ x ∈ pre, hookPasses (hookOf x) = true) →
      hookChain statISE hookOf (pre ++ rest) =
        ⟨(hookChain statISE hookOf rest).stat,
          implementers hookOf pre ++ (hookChain statISE hookOf rest).invoked⟩
  | [], rest, _ => by simp [implementers]
  | x :: pre, rest, h => by
    have ih := hookChain_append statISE hookOf pre rest
      (fun y hy => h y (List.mem_cons_of_mem _ hy))
    rw [List.cons_append, hookChain_pass statISE hookOf x _ (h x (by simp)), ih,
      implementers_cons hookOf x pre]
    simp

/-- What a chain does on a list of plugins: short cut at the first hook that
returns a non-OK status or panics, nil when all pass. -/
theorem hookChain_spec (statISE : Status) (hookOf : WsPlugin → Option HookResult) :
    (∀ (pre : List WsPlugin) (q : WsPlugin) (post : List WsPlugin) (stat : Option Status),
      (∀ x ∈ pre, hookPasses (hookOf x) = true) → hookOf q = some (.returns stat) →
      Status.OK stat = false →
      hookChain statISE hookOf (pre ++ q :: post) =
        ⟨stat, implementers hookOf pre ++ [q.name]⟩) ∧
    (∀ (pre : List WsPlugin) (q : WsPlugin) (post : List WsPlugin) (value : GoError),
      (∀ x ∈ pre, hookPasses (hookOf x) = true) → hookOf q = some (.panics value) →
      hookChain statISE hookOf (pre ++ q :: post) =
        ⟨some ⟨statISE.code, statISE.msg, value⟩, implementers hookOf pre ++ [q.name]⟩) ∧
    (∀ (plugins : List WsPlugin), (∀ x ∈ plugins, hookPasses (hookOf x) = true) →
      hookChain statISE hookOf plugins = ⟨none, implementers hookOf plugins⟩) := by
  refine ⟨?_, ?_, ?_⟩
  · intro pre q post stat hpre hq hno
    rw [hookChain_append statISE hookOf pre _ hpre]
    simp [hookChain, hq, hno]
  · intro pre q post value hpre hq
    rw [hookChain_append statISE hookOf pre _ hpre]
    simp [hookChain, hq, Status.Copy]
  · intro plugins hall
    have := hookChain_append statISE hookOf plugins [] hall
    simpa [hookChain] using this

/-- C17: `preHandshake` and `postAccept` call the hooks of the plugins in the
order of the container; at the first hook that returns a non-OK status they
return that status, no later plugin being called; at a hook that panics they
return a status with the code of `statInternalServerError`; and when every
plugin passes (no hook, or a hook returning OK) they return nil, having called
every hook. -/
theorem wsHookChains_short_circuit (code : Int) (text : String) :
    ((∀ (pre : List WsPlugin) (q : WsPlugin) (post : List WsPlugin) (stat : Option Status),
        (∀ x ∈ pre, hookPasses x.preHandshake = true) → q.preHandshake = some (.returns stat) →
        Status.OK stat = false →
        serverHandler.preHandshake (statInternalServerError code text) (pre ++ q :: post) =
          ⟨stat, implementers (fun pl => pl.preHandshake) pre ++ [q.name]⟩) ∧
      (∀ (pre : List WsPlugin) (q : WsPlugin) (post : List WsPlugin) (value : GoError),
        (∀ x ∈ pre, hookPasses x.preHandshake = true) → q.preHandshake = some (.panics value) →
        serverHandler.preHandshake (statInternalServerError code text) (pre ++ q :: post) =
          ⟨some ⟨code, text, value⟩, implementers (fun pl => pl.preHandshake) pre ++ [q.name]⟩) ∧
      (∀ (plugins : List WsPlugin), (∀ x ∈ plugins, hookPasses x.preHandshake = true) →
        serverHandler.preHandshake (statInternalServerError code text) plugins =
          ⟨none, implementers (fun pl => pl.preHandshake) plugins⟩)) ∧
    ((∀ (pre : List WsPlugin) (q : WsPlugin) (post : List WsPlugin) (stat : Option Status),
        (∀ x ∈ pre, hookPasses x.postAccept = true) → q.postAccept = some (.returns stat) →
        Status.OK stat = false →
        serverHandler.postAccept (statInternalServerError code text) (pre ++ q :: post) =
          ⟨stat, implementers (fun pl => pl.postAccept) pre ++ [q.name]⟩) ∧
      (∀ (pre : List WsPlugin) (q : WsPlugin) (post : List WsPlugin) (value : GoError),
        (∀ x ∈ pre, hookPasses x.postAccept = true) → q.postAccept = some (.panics value) →
        serverHandler.postAccept (statInternalServerError code text) (pre ++ q :: post) =
          ⟨some ⟨code, text, value⟩, implementers (fun pl => pl.postAccept) pre ++ [q.name]⟩) ∧
      (∀ (plugins : List WsPlugin), (∀ x ∈ plugins, hookPasses x.postAccept = true) →
        serverHandler.postAccept (statInternalServerError code text) plugins =
          ⟨none, implementers (fun pl => pl.postAccept) plugins⟩)) := by
  constructor
  · exact hookChain_spec (statInternalServerError code text) (fun pl => pl.preHandshake)
  · exact hookChain_spec (statInternalServerError code text) (fun pl => pl.postAccept)

/-- C17 on four plugins, the third of which rejects the handshake with the
status 401: the first and the third hook are called, the fourth is not. -/
theorem wsHookChains_short_circuit_witness :
    ((∀ x ∈ [(⟨"log", some (.returns none), none⟩ : WsPlugin), ⟨"websocket", none, none⟩],
        hookPasses x.preHandshake = true) ∧
      (⟨"handshake-auth-plugin", some (.returns (some ⟨401, "Unauthorized", ""⟩)), none⟩ :
        WsPlugin).preHandshake = some (.returns (some ⟨401, "Unauthorized", ""⟩)) ∧
      Status.OK (some ⟨401, "Unauthorized", ""⟩) = false) ∧
    serverHandler.preHandshake (statInternalServerError 500 "Internal Server Error")
        ([⟨"log", some (.returns none), none⟩, ⟨"websocket", none, none⟩] ++
          ⟨"handshake-auth-plugin", some (.returns (some ⟨401, "Unauthorized", ""⟩)), none⟩ ::
            [⟨"later", some (.returns none), none⟩]) =
      ⟨some ⟨401, "Unauthorized", ""⟩,
        implementers (fun pl => pl.preHandshake)
            [⟨"log", some (.returns none), none⟩, ⟨"websocket", none, none⟩] ++
          ["handshake-auth-plugin"]⟩ :=
  ⟨⟨by decide, rfl, by decide⟩,
    (wsHookChains_short_circuit 500 "Internal Server Error").1.1
      [⟨"log", some (.returns none), none⟩, ⟨"websocket", none, none⟩]
      ⟨"handshake-auth-plugin", some (.returns (some ⟨401, "Unauthorized", ""⟩)), none⟩
      [⟨"later", some (.returns none), none⟩] (some ⟨401, "Unauthorized", ""⟩)
      (by decide) rfl (by decide)⟩

/-! ## plugin/ignorecase/ignorecase.go -/

/-- C18, as amended: for a registered service method `p` that is its own
lower-case form and a requested `q` equal to `p` up to letter case, the hooks
of the plugin leave exactly `p` on the read context, so the exact-match lookup
finds `p`; and without the plugin the lookup on `q` finds `p` exactly when
`q = p`. -/
theorem ignorecase_routing (lower : Char → Char) (registered : List String) (p q : String)
    (hp : p ∈ registered) (hq : ToLower lower q = ToLower lower p)
    (hl : ToLower lower p = p) :
    ignoreCase.PostReadCallHeader lower ⟨q⟩ = (none, ⟨p⟩) ∧
      ignoreCase.PostReadPushHeader lower ⟨q⟩ = (none, ⟨p⟩) ∧
      lookupHandler registered (ignoreCase.PostReadCallHeader lower ⟨q⟩).2.serviceMethod =
        some p ∧
      (lookupHandler registered q = some p ↔ q = p) := by
  have h1 : ignoreCase.PostReadCallHeader lower ⟨q⟩ = (none, ⟨p⟩) := by
    simp only [ignoreCase.PostReadCallHeader, hq, hl]
  have h2 : ignoreCase.PostReadPushHeader lower ⟨q⟩ = (none, ⟨p⟩) := by
    simp only [ignoreCase.PostReadPushHeader, hq, hl]
  refine ⟨h1, h2, ?_, ?_⟩
  · rw [h1]
    simp [lookupHandler, hp]
  · constructor
    · intro h
      unfold lookupHandler at h
      split at h
      · exact Option.some.inj h
      · exact absurd h (by simp)
    · intro h
      subst h
      simp [lookupHandler, hp]

/-- C18 on the case of the spec: `/home/test` registered, `/HoMe/TesT`
requested. -/
theorem ignorecase_routing_witness :
    ("/home/test" ∈ ["/home/test", "/home/other"] ∧
      ToLower Char.toLower "/HoMe/TesT" = ToLower Char.toLower "/home/test" ∧
      ToLower Char.toLower "/home/test" = "/home/test") ∧
    (ignoreCase.PostReadCallHeader Char.toLower ⟨"/HoMe/TesT"⟩ = (none, ⟨"/home/test"⟩) ∧
      ignoreCase.PostReadPushHeader Char.toLower ⟨"/HoMe/TesT"⟩ = (none, ⟨"/home/test"⟩) ∧
      lookupHandler ["/home/test", "/home/other"]
        (ignoreCase.PostReadCallHeader Char.toLower ⟨"/HoMe/TesT"⟩).2.serviceMethod =
          some "/home/test" ∧
      (lookupHandler ["/home/test", "/home/other"] "/HoMe/TesT" = some "/home/test" ↔
        "/HoMe/TesT" = "/home/test")) :=
  ⟨⟨by decide, by decide, by decide⟩,
    ignorecase_routing Char.toLower ["/home/test", "/home/other"] "/home/test" "/HoMe/TesT"
      (by decide) (by decide) (by decide)⟩

/-- C18 fails as stated: with `Home.Test` registered (a service method of the
RPC mapper), a request for `home.test`, equal to it up to letter case, and
even a request for `Home.Test` itself, leave `home.test` on the read context,
which is not the registered method, and the lookup finds nothing. -/
theorem ignorecase_upper_case_registered :
    ToLower Char.toLower "home.test" = ToLower Char.toLower "Home.Test" ∧
      (ignoreCase.PostReadCallHeader Char.toLower ⟨"home.test"⟩).2.serviceMethod =
        "home.test" ∧
      (ignoreCase.PostReadCallHeader Char.toLower ⟨"Home.Test"⟩).2.serviceMethod =
        "home.test" ∧
      "home.test" ≠ "Home.Test" ∧
      lookupHandler ["Home.Test"]
        (ignoreCase.PostReadCallHeader Char.toLower ⟨"home.test"⟩).2.serviceMethod = none ∧
      lookupHandler ["Home.Test"]
        (ignoreCase.PostReadCallHeader Char.toLower ⟨"Home.Test"⟩).2.serviceMethod = none := by
  decide

/-! ## peer.go: ServeConn and the accepted connections -/

theorem serveConn_accepted (p : AcceptPeer) (net : ConnNetwork) (conn : Conn)
    (h : net.accepted = true) : p.ServeConn net conn = p.serveSession conn := by
  cases net with
  | quic network b =>
    cases b with
    | false => simp [ConnNetwork.accepted] at h
    | true => rfl
  | kcp network b =>
    cases b with
    | false => simp [ConnNetwork.accepted] at h
    | true => rfl
  | other network => rfl

theorem tlsEvents_kinds (p : AcceptPeer) (now1 now2 : Int) :
    ∀ e ∈ p.tlsEvents now1 now2, (∃ t, e = .setReadDeadline t) ∨ e = .tlsHandshake := by
  intro e he
  unfold AcceptPeer.tlsEvents at he
  simp only [List.mem_append, List.mem_singleton] at he
  rcases he with (he | he) | he
  · split at he
    · exact Or.inl ⟨_, by simpa using he⟩
    · simp at he
  · split at he
    · exact Or.inl ⟨_, by simpa using he⟩
    · simp at he
  · exact Or.inr he

/-- C19: for a connection that gets past the check of `ServeConn`, resp. whose
TLS handshake (if any) succeeds in the goroutine of the accept loop: when the
PostAccept chain returns a non-OK status, `ServeConn` returns a nil session
with that very status, and in both places the session is closed without being
set to ok, put in the session hub, or having its read loop started; when the
chain returns OK, the session is set to ok, put in the hub and its read loop
started, and `ServeConn` returns it with a nil status. -/
theorem postAccept_gate (p : AcceptPeer) (net : ConnNetwork) (conn : Conn)
    (tls : Option (Option GoError)) (now1 now2 : Int)
    (hnet : net.accepted = true) (htls : tls = none ∨ tls = some none) :
    (Status.OK (p.postAccept (newSessionOn conn)) = false →
      p.ServeConn net conn =
          ⟨none, p.postAccept (newSessionOn conn), [.newSession conn, .sessClose]⟩ ∧
        (p.serveAccepted tls now1 now2 conn).2 = some (newSessionOn conn) ∧
        (∃ before, (∀ e ∈ before, (∃ t, e = .setReadDeadline t) ∨ e = .tlsHandshake) ∧
          (p.serveAccepted tls now1 now2 conn).1 = before ++ [.newSession conn, .sessClose])) ∧
    (Status.OK (p.postAccept (newSessionOn conn)) = true →
      p.ServeConn net conn =
          ⟨some { newSessionOn conn with status := .statusOk }, none,
            [.newSession conn, .changeStatus .statusOk, .startReadAndHandle,
              .hubSet (newSessionOn conn).id]⟩ ∧
        (p.serveAccepted tls now1 now2 conn).2 =
          some { newSessionOn conn with status := .statusOk } ∧
        (∃ before, (∀ e ∈ before, (∃ t, e = .setReadDeadline t) ∨ e = .tlsHandshake) ∧
          (p.serveAccepted tls now1 now2 conn).1 =
            before ++ [.newSession conn, .hubSet (newSessionOn conn).id,
              .changeStatus .statusOk, .startReadAndHandle])) := by
  constructor
  · intro hno
    refine ⟨?_, ?_, ?_⟩
    · rw [serveConn_accepted p net conn hnet]
      simp [AcceptPeer.serveSession, hno]
    · rcases htls with h | h <;> subst h <;> simp [AcceptPeer.serveAccepted, hno]
    · rcases htls with h | h <;> subst h
      · exact ⟨[], by simp, by simp [AcceptPeer.serveAccepted, hno]⟩
      · exact ⟨p.tlsEvents now1 now2, tlsEvents_kinds p now1 now2,
          by simp [AcceptPeer.serveAccepted, hno]⟩
  · intro hok
    refine ⟨?_, ?_, ?_⟩
    · rw [serveConn_accepted p net conn hnet]
      simp [AcceptPeer.serveSession, hok]
    · rcases htls with h | h <;> subst h <;> simp [AcceptPeer.serveAccepted, hok]
    · rcases htls with h | h <;> subst h
      · exact ⟨[], by simp, by simp [AcceptPeer.serveAccepted, hok]⟩
      · exact ⟨p.tlsEvents now1 now2, tlsEvents_kinds p now1 now2,
          by simp [AcceptPeer.serveAccepted, hok]⟩

/-- C19 on a TCP connection served by a peer whose PostAccept chain rejects
with code 403. -/
theorem postAccept_gate_witness :
    ((ConnNetwork.other "tcp").accepted = true ∧
      ((none : Option (Option GoError)) = none ∨ (none : Option (Option GoError)) = some none) ∧
      Status.OK (rejectingServer.postAccept (newSessionOn ⟨"10.0.0.1:80", 1⟩)) = false) ∧
    (rejectingServer.ServeConn (.other "tcp") ⟨"10.0.0.1:80", 1⟩ =
        ⟨none, rejectingServer.postAccept (newSessionOn ⟨"10.0.0.1:80", 1⟩),
          [.newSession ⟨"10.0.0.1:80", 1⟩, .sessClose]⟩ ∧
      (rejectingServer.serveAccepted none 0 0 ⟨"10.0.0.1:80", 1⟩).2 =
        some (newSessionOn ⟨"10.0.0.1:80", 1⟩) ∧
      (∃ before, (∀ e ∈ before, (∃ t, e = AcceptEvent.setReadDeadline t) ∨ e = .tlsHandshake) ∧
        (rejectingServer.serveAccepted none 0 0 ⟨"10.0.0.1:80", 1⟩).1 =
          before ++ [.newSession ⟨"10.0.0.1:80", 1⟩, .sessClose])) :=
  ⟨⟨rfl, Or.inl rfl, rfl⟩,
    (postAccept_gate rejectingServer (.other "tcp") ⟨"10.0.0.1:80", 1⟩ none 0 0 rfl
      (Or.inl rfl)).1 rfl⟩

/-- A property of the state that holds at the start and that every call of the
callback keeps holds at the end of the loop of `dialWithRetry`. -/
theorem redialLoop_invariant {σ : Type} (d : Dialer) (fn : DialCallback σ) (P : σ → Prop)
    (hP : ∀ o s, P s → P (tryOnce fn o s).1) :
    ∀ (dials : List (Except GoError Conn)) (counter : redialCounter) (err : GoError)
      (s : σ) (att : Nat) (sl : List Int) (r : DialResult σ),
      P s → redialLoop d fn dials counter err s att sl = some r → P r.state
  | [], counter, err, s, att, sl, r, hs, h => by
    rcases hN : redialCounter.Next counter with ⟨b, c'⟩
    cases b <;> simp [redialLoop, hN] at h
    subst h
    exact hs
  | o :: rest, counter, err, s, att, sl, r, hs, h => by
    rcases hN : redialCounter.Next counter with ⟨b, c'⟩
    cases b
    · simp [redialLoop, hN] at h
      subst h
      exact hs
    · have hs1 := hP o s hs
      rcases hto : tryOnce fn o s with ⟨s1, res⟩
      rw [hto] at hs1
      cases res with
      | ok c =>
        simp only [redialLoop, hN, hto, Option.some.injEq] at h
        subst h
        exact hs1
      | error e =>
        simp only [redialLoop, hN, hto] at h
        exact redialLoop_invariant d fn P hP rest c' e s1 _ _ r hs1 h

/-- A property of the state that holds at the start and that every call of the
callback keeps holds at the end of `dialWithRetry`. -/
theorem dialWithRetry_invariant {σ : Type} (d : Dialer) (fn : DialCallback σ) (P : σ → Prop)
    (hP : ∀ o s, P s → P (tryOnce fn o s).1)
    (dials : List (Except GoError Conn)) (s : σ) (r : DialResult σ)
    (hs : P s) (h : d.dialWithRetry fn dials s = some r) : P r.state := by
  cases dials with
  | nil => simp [Dialer.dialWithRetry] at h
  | cons o rest =>
    have hs1 := hP o s hs
    rcases hto : tryOnce fn o s with ⟨s1, res⟩
    rw [hto] at hs1
    cases res with
    | ok c =>
      simp only [Dialer.dialWithRetry, hto, Option.some.injEq] at h
      subst h
      exact hs1
    | error e =>
      simp only [Dialer.dialWithRetry, hto] at h
      exact redialLoop_invariant d fn P hP rest _ e s1 _ _ r hs1 h

theorem dialFn_hasRedial (p : Peer) (o : Except GoError Conn) (s : SessState)
    (h : s.sess.hasRedial = false) :
    (tryOnce (some p.dialFn) o s).1.sess.hasRedial = false := by
  cases o with
  | error e => exact h
  | ok c =>
    simp only [tryOnce, Peer.dialFn]
    split <;> rename_i heq <;> split at heq <;>
      simp only [Prod.mk.injEq] at heq <;> obtain ⟨h1, _⟩ := heq <;> subst h1 <;> exact h

theorem serveSession_hasRedial (p : AcceptPeer) (conn : Conn) (s : Session)
    (h : (p.serveSession conn).sess = some s) : s.hasRedial = false := by
  unfold AcceptPeer.serveSession at h
  dsimp only at h
  split at h
  · simp at h
  · simp only [Option.some.injEq] at h
    subst h
    rfl

/-- A `Dial` whose PreDial chain passes, whose first `dialOne` gives a
connection and whose PostDial chain accepts the session returns that session,
with the redial closure set exactly when `redialTimes` is not 0. -/
theorem dial_first_attempt_ok (p : Peer) (addr : String) (c : Conn)
    (rest : List (Except GoError Conn))
    (hpre : Status.OK (p.preDial addr) = true)
    (hpost : Status.OK (p.postDial ⟨some c, c.localAddr, .statusPreparing, false⟩ false) = true) :
    p.Dial addr (.ok c :: rest) =
      some ⟨some ⟨some c, c.localAddr, .statusOk, decide (p.dialer.redialTimes ≠ 0)⟩, none,
        [.newSession, .socketReset c, .setID c.localAddr, .changeStatus .statusOk,
          .startReadAndHandle, .hubSet c.localAddr], 1⟩ := by
  have hfn : p.dialFn c ⟨newSession, [.newSession]⟩ =
      (⟨⟨some c, c.localAddr, .statusPreparing, false⟩,
        [.newSession, .socketReset c, .setID c.localAddr]⟩, none) := by
    simp [Peer.dialFn, newSession, Session.LocalAddr, hpost]
  by_cases hz : p.dialer.redialTimes = 0
  · simp [Peer.Dial, hpre, Dialer.dialWithRetry, tryOnce, hfn, hz]
  · simp [Peer.Dial, hpre, Dialer.dialWithRetry, tryOnce, hfn, hz]

/-- C20: a session that `Dial` returns carries a redial closure exactly when
the `redialTimes` of the dialer is not 0, and such sessions are returned: a
`Dial` whose first attempt succeeds returns its session, with the closure when
`redialTimes` is not 0 and without it when `redialTimes` is 0; a session that
`ServeConn` returns carries none. -/
theorem redial_closure_iff :
    (∀ (p : Peer) (addr : String) (dials : List (Except GoError Conn)) (r : DialReturn)
      (s : Session), p.Dial addr dials = some r → r.sess = some s →
      (s.hasRedial = true ↔ p.dialer.redialTimes ≠ 0)) ∧
    (∀ (p : Peer) (addr : String) (c : Conn) (rest : List (Except GoError Conn)),
      Status.OK (p.preDial addr) = true →
      Status.OK (p.postDial ⟨some c, c.localAddr, .statusPreparing, false⟩ false) = true →
      ∃ r s, p.Dial addr (.ok c :: rest) = some r ∧ r.sess = some s ∧ s.conn = some c ∧
        (p.dialer.redialTimes ≠ 0 → s.hasRedial = true) ∧
        (p.dialer.redialTimes = 0 → s.hasRedial = false)) ∧
    (∀ (p : AcceptPeer) (net : ConnNetwork) (conn : Conn) (s : Session),
      (p.ServeConn net conn).sess = some s → s.hasRedial = false) := by
  refine ⟨?_, ?_, ?_⟩
  · intro p addr dials r s h hs
    unfold Peer.Dial at h
    dsimp only at h
    cases hpre : Status.OK (p.preDial addr) with
    | false =>
      simp only [hpre, Bool.not_false, if_true, Option.some.injEq] at h
      subst h
      simp at hs
    | true =>
      simp only [hpre, Bool.not_true, Bool.false_eq_true, if_false] at h
      cases hd : p.dialer.dialWithRetry (some p.dialFn) dials ⟨newSession, [.newSession]⟩ with
      | none => simp [hd] at h
      | some r0 =>
        have hinv : r0.state.sess.hasRedial = false :=
          dialWithRetry_invariant p.dialer (some p.dialFn)
            (fun st => st.sess.hasRedial = false) (dialFn_hasRedial p) dials _ r0 rfl hd
        simp only [hd] at h
        cases herr : r0.err with
        | some e =>
          simp only [herr, Option.some.injEq] at h
          subst h
          simp at hs
        | none =>
          simp only [herr, Option.some.injEq] at h
          subst h
          simp only [Option.some.injEq] at hs
          subst hs
          by_cases hz : p.dialer.redialTimes = 0
          · simp [hz, hinv]
          · simp [hz]
  · intro p addr c rest hpre hpost
    refine ⟨_, _, dial_first_attempt_ok p addr c rest hpre hpost, rfl, rfl, ?_, ?_⟩
    · intro hz
      simp [hz]
    · intro hz
      simp [hz]
  · intro p net conn s h
    cases net with
    | quic network b =>
      cases b with
      | false => simp [AcceptPeer.ServeConn] at h
      | true => exact serveSession_hasRedial p conn s h
    | kcp network b =>
      cases b with
      | false => simp [AcceptPeer.ServeConn] at h
      | true => exact serveSession_hasRedial p conn s h
    | other network => exact serveSession_hasRedial p conn s h

/-- C20 on a peer with three redials and on a peer without redial, both
dialling successfully, and on a served connection: the first session carries
the closure, the other two do not. -/
theorem redial_closure_iff_witness :
    (redialingPeer.Dial ":9090" [.ok ⟨"127.0.0.1:50000", 1⟩] =
        some ⟨some ⟨some ⟨"127.0.0.1:50000", 1⟩, "127.0.0.1:50000", .statusOk, true⟩, none,
          [.newSession, .socketReset ⟨"127.0.0.1:50000", 1⟩, .setID "127.0.0.1:50000",
            .changeStatus .statusOk, .startReadAndHandle, .hubSet "127.0.0.1:50000"], 1⟩ ∧
      redialingPeer.dialer.redialTimes ≠ 0 ∧
      ((⟨some ⟨"127.0.0.1:50000", 1⟩, "127.0.0.1:50000", .statusOk, true⟩ : Session).hasRedial
          = true ↔ redialingPeer.dialer.redialTimes ≠ 0)) ∧
    (plainPeer.Dial ":9090" [.ok ⟨"127.0.0.1:50000", 1⟩] =
        some ⟨some ⟨some ⟨"127.0.0.1:50000", 1⟩, "127.0.0.1:50000", .statusOk, false⟩, none,
          [.newSession, .socketReset ⟨"127.0.0.1:50000", 1⟩, .setID "127.0.0.1:50000",
            .changeStatus .statusOk, .startReadAndHandle, .hubSet "127.0.0.1:50000"], 1⟩ ∧
      ((⟨some ⟨"127.0.0.1:50000", 1⟩, "127.0.0.1:50000", .statusOk, false⟩ : Session).hasRedial
          = true ↔ plainPeer.dialer.redialTimes ≠ 0)) ∧
    ((acceptingServer.ServeConn (.other "tcp") ⟨"10.0.0.1:80", 1⟩).sess =
        some ⟨some ⟨"10.0.0.1:80", 1⟩, "10.0.0.1:80", .statusOk, false⟩ ∧
      (⟨some ⟨"10.0.0.1:80", 1⟩, "10.0.0.1:80", .statusOk, false⟩ : Session).hasRedial = false) :=
  ⟨⟨by decide, by decide,
      redial_closure_iff.1 redialingPeer ":9090" [.ok ⟨"127.0.0.1:50000", 1⟩]
        ⟨some ⟨some ⟨"127.0.0.1:50000", 1⟩, "127.0.0.1:50000", .statusOk, true⟩, none,
          [.newSession, .socketReset ⟨"127.0.0.1:50000", 1⟩, .setID "127.0.0.1:50000",
            .changeStatus .statusOk, .startReadAndHandle, .hubSet "127.0.0.1:50000"], 1⟩
        ⟨some ⟨"127.0.0.1:50000", 1⟩, "127.0.0.1:50000", .statusOk, true⟩
        (by decide) rfl⟩,
    ⟨by decide,
      redial_closure_iff.1 plainPeer ":9090" [.ok ⟨"127.0.0.1:50000", 1⟩]
        ⟨some ⟨some ⟨"127.0.0.1:50000", 1⟩, "127.0.0.1:50000", .statusOk, false⟩, none,
          [.newSession, .socketReset ⟨"127.0.0.1:50000", 1⟩, .setID "127.0.0.1:50000",
            .changeStatus .statusOk, .startReadAndHandle, .hubSet "127.0.0.1:50000"], 1⟩
        ⟨some ⟨"127.0.0.1:50000", 1⟩, "127.0.0.1:50000", .statusOk, false⟩
        (by decide) rfl⟩,
    ⟨by decide,
      redial_closure_iff.2.2 acceptingServer (.other "tcp") ⟨"10.0.0.1:80", 1⟩
        ⟨some ⟨"10.0.0.1:80", 1⟩, "10.0.0.1:80", .statusOk, false⟩ (by decide)⟩⟩

/-- A finished run of the retry loop slept `redialInterval` once for each
attempt it made, and nothing else. -/
theorem redialLoop_sleeps {σ : Type} (d : Dialer) (fn : DialCallback σ) :
    ∀ (dials : List (Except GoError Conn)) (counter : redialCounter) (err : GoError)
      (s : σ) (att : Nat) (sl : List Int) (r : DialResult σ),
      redialLoop d fn dials counter err s att sl = some r →
      att ≤ r.attempts ∧
        r.sleeps = sl ++ List.replicate (r.attempts - att) d.redialInterval
  | [], counter, err, s, att, sl, r, h => by
    rcases hN : redialCounter.Next counter with ⟨b, c'⟩
    cases b <;> simp [redialLoop, hN] at h
    subst h
    simp
  | o :: rest, counter, err, s, att, sl, r, h => by
    rcases hN : redialCounter.Next counter with ⟨b, c'⟩
    cases b
    · simp [redialLoop, hN] at h
      subst h
      simp
    · rcases hT : tryOnce fn o s with ⟨s1, oc⟩
      cases oc with
      | ok c =>
        simp only [redialLoop, hN, hT, Option.some.injEq] at h
        subst h
        simp
      | error e =>
        simp only [redialLoop, hN, hT] at h
        obtain ⟨h1, h2⟩ := redialLoop_sleeps d fn rest c' e s1 _ _ r h
        refine ⟨by omega, ?_⟩
        rw [h2, List.append_assoc]
        congr 1
        have : r.attempts - att = (r.attempts - (att + 1)) + 1 := by omega
        rw [this, List.replicate_succ]
        rfl

/-- A finished run of `dialWithRetry` made at least one attempt and slept
`redialInterval` before each attempt but the first. -/
theorem dialWithRetry_sleeps_replicate {σ : Type} (d : Dialer) (fn : DialCallback σ)
    (dials : List (Except GoError Conn)) (s : σ) (r : DialResult σ)
    (h : d.dialWithRetry fn dials s = some r) :
    0 < r.attempts ∧ r.sleeps = List.replicate (r.attempts - 1) d.redialInterval := by
  cases dials with
  | nil => simp [Dialer.dialWithRetry] at h
  | cons o rest =>
    rcases hT : tryOnce fn o s with ⟨s1, oc⟩
    cases oc with
    | ok c =>
      simp only [Dialer.dialWithRetry, hT, Option.some.injEq] at h
      subst h
      simp
    | error e =>
      simp only [Dialer.dialWithRetry, hT] at h
      obtain ⟨h1, h2⟩ := redialLoop_sleeps d fn rest _ e s1 _ _ r h
      exact ⟨by omega, by simpa using h2⟩

/-! ## dialer.go: the sleeps and the returned pair -/

/-- C22: `dialWithRetry` does not sleep before its first attempt and sleeps
`redialInterval` before each retry: a finished call made `k + 1` attempts for
some `k`, its sleeps are `k` times `redialInterval`, `k * redialInterval` in
total, and a call that stopped after its first attempt slept nothing. -/
theorem dialWithRetry_sleeps {σ : Type} (d : Dialer) (fn : DialCallback σ)
    (dials : List (Except GoError Conn)) (s : σ) (r : DialResult σ)
    (h : d.dialWithRetry fn dials s = some r) :
    ∃ k : Nat, r.attempts = k + 1 ∧
      r.sleeps = List.replicate k d.redialInterval ∧
      r.sleeps.sum = (k : Int) * d.redialInterval ∧
      (∀ w ∈ r.sleeps, w = d.redialInterval) ∧
      (r.attempts = 1 → r.sleeps = []) := by
  obtain ⟨h1, h2⟩ := dialWithRetry_sleeps_replicate d fn dials s r h
  refine ⟨r.attempts - 1, by omega, h2, ?_, ?_, ?_⟩
  · rw [h2, List.sum_replicate, nsmul_eq_mul]
  · intro w hw
    rw [h2] at hw
    exact List.eq_of_mem_replicate hw
  · intro h3
    rw [h2, h3]
    rfl

/-- C22 on a dialer with three redials whose third attempt succeeds: two
sleeps of one second. -/
theorem dialWithRetry_sleeps_witness :
    (⟨"tcp", Second, 3⟩ : Dialer).dialWithRetry (none : DialCallback Unit)
        [.error "refused", .error "refused", .ok ⟨"127.0.0.1:50001", 2⟩] () =
        some ⟨some ⟨"127.0.0.1:50001", 2⟩, none, (), 3, [Second, Second]⟩ ∧
      ∃ k : Nat, 3 = k + 1 ∧
        [Second, Second] = List.replicate k Second ∧
        ([Second, Second] : List Int).sum = (k : Int) * Second ∧
        (∀ w ∈ [Second, Second], w = Second) ∧
        (3 = 1 → [Second, Second] = ([] : List Int)) :=
  ⟨rfl,
    dialWithRetry_sleeps ⟨"tcp", Second, 3⟩ (none : DialCallback Unit)
      [.error "refused", .error "refused", .ok ⟨"127.0.0.1:50001", 2⟩] ()
      ⟨some ⟨"127.0.0.1:50001", 2⟩, none, (), 3, [Second, Second]⟩ rfl⟩

/-- C23, as amended: when a session redials, the dialer's retries are evenly
spaced: the wait before every retry is `redialInterval`, so the wait before
retry `k + 1` equals the wait before retry `k`. -/
theorem redial_waits_constant (p : Peer) (addr : String)
    (dials : List (Except GoError Conn)) (st : SessState) (ws : List Int)
    (h : p.redialSleeps addr dials st = some ws) :
    (∀ w ∈ ws, w = p.dialer.redialInterval) ∧
      ∀ k : Nat, k + 1 < ws.length → ws[k + 1]? = ws[k]? := by
  have hall : ∀ w ∈ ws, w = p.dialer.redialInterval := by
    unfold Peer.redialSleeps at h
    cases hpre : Status.OK (p.preDial addr) with
    | false =>
      simp only [hpre, Bool.false_eq_true, if_false, Option.some.injEq] at h
      subst h
      simp
    | true =>
      simp only [hpre, if_true] at h
      cases hd : p.dialer.dialWithRetry (some (p.redialFn st.sess.id st.sess.LocalAddr))
          dials st with
      | none => simp [hd] at h
      | some r =>
        simp only [hd, Option.some.injEq] at h
        subst h
        intro w hw
        rw [(dialWithRetry_sleeps_replicate _ _ _ _ r hd).2] at hw
        exact List.eq_of_mem_replicate hw
  refine ⟨hall, fun k hk => ?_⟩
  have h1 : k < ws.length := by omega
  rw [List.getElem?_eq_getElem hk, List.getElem?_eq_getElem h1,
    hall _ (List.getElem_mem hk), hall _ (List.getElem_mem h1)]

/-- C23 as amended, on a redial whose third attempt succeeds. -/
theorem redial_waits_constant_witness :
    redialingPeer.redialSleeps ":9090"
        [.error "refused", .error "refused", .ok ⟨"127.0.0.1:50001", 2⟩] lostSession =
        some [Second, Second] ∧
      ((∀ w ∈ [Second, Second], w = redialingPeer.dialer.redialInterval) ∧
        ∀ k : Nat, k + 1 < [Second, Second].length →
          [Second, Second][k + 1]? = [Second, Second][k]?) :=
  ⟨by decide,
    redial_waits_constant redialingPeer ":9090"
      [.error "refused", .error "refused", .ok ⟨"127.0.0.1:50001", 2⟩] lostSession
      [Second, Second] (by decide)⟩

/-- C23 as stated fails: on a redial that needs two retries, the wait before
the second retry is one second, as long as the wait before the first and not
longer. -/
theorem redial_waits_not_growing :
    ¬ ∀ ws : List Int,
      redialingPeer.redialSleeps ":9090"
        [.error "refused", .error "refused", .ok ⟨"127.0.0.1:50001", 2⟩] lostSession = some ws →
      ∀ k : Nat, k + 1 < ws.length → ws.getD k 0 < ws.getD (k + 1) 0 := by
  intro h
  have h0 := h [1000000000, 1000000000] (by decide) 0 (by decide)
  revert h0
  decide

/-- What a finished run of the retry loop returns: an error without
connection, or the connection of its last attempt, which succeeded. -/
theorem redialLoop_pair {σ : Type} (d : Dialer) (fn : DialCallback σ) :
    ∀ (dials : List (Except GoError Conn)) (counter : redialCounter) (err : GoError)
      (s : σ) (att : Nat) (sl : List Int) (r : DialResult σ),
      redialLoop d fn dials counter err s att sl = some r →
      (r.conn = none ∧ ∃ e, r.err = some e) ∨
      (∃ c, r.conn = some c ∧ r.err = none ∧ att < r.attempts ∧
        dials[r.attempts - att - 1]? = some (.ok c) ∧
        tryOnce fn (.ok c) (runAttempts fn (dials.take (r.attempts - att - 1)) s).1 =
          (r.state, .ok c))
  | [], counter, err, s, att, sl, r, h => by
    rcases hN : redialCounter.Next counter with ⟨b, c'⟩
    cases b <;> simp [redialLoop, hN] at h
    subst h
    exact Or.inl ⟨rfl, err, rfl⟩
  | o :: rest, counter, err, s, att, sl, r, h => by
    rcases hN : redialCounter.Next counter with ⟨b, c'⟩
    cases b
    · simp [redialLoop, hN] at h
      subst h
      exact Or.inl ⟨rfl, err, rfl⟩
    · rcases hT : tryOnce fn o s with ⟨s1, oc⟩
      cases oc with
      | ok c =>
        simp only [redialLoop, hN, hT, Option.some.injEq] at h
        subst h
        have ho : o = .ok c := by
          cases o with
          | error e => simp [tryOnce] at hT
          | ok c0 =>
            cases fn with
            | none =>
              simp only [tryOnce, Prod.mk.injEq, Except.ok.injEq] at hT
              rw [hT.2]
            | some f =>
              rcases hf : f c0 s with ⟨s2, oe⟩
              cases oe with
              | none =>
                simp only [tryOnce, hf, Prod.mk.injEq, Except.ok.injEq] at hT
                rw [hT.2]
              | some e => simp [tryOnce, hf] at hT
        subst ho
        refine Or.inr ⟨c, rfl, rfl, by simp, by simp, ?_⟩
        simpa [runAttempts] using hT
      | error e =>
        simp only [redialLoop, hN, hT] at h
        rcases redialLoop_pair d fn rest c' e s1 _ _ r h with h1 | ⟨c, h1, h2, h3, h4, h5⟩
        · exact Or.inl h1
        · refine Or.inr ⟨c, h1, h2, by omega, ?_, ?_⟩
          · have h6 : r.attempts - att - 1 = (r.attempts - (att + 1) - 1) + 1 := by omega
            rw [h6, List.getElem?_cons_succ]
            exact h4
          · have h6 : r.attempts - att - 1 = (r.attempts - (att + 1) - 1) + 1 := by omega
            rw [h6, List.take_succ_cons, runAttempts_cons, hT]
            exact h5

/-- The retry loop returns when `dialOne` has results for as many attempts as
the counter allows. -/
theorem redialLoop_returns {σ : Type} (d : Dialer) (fn : DialCallback σ) :
    ∀ (dials : List (Except GoError Conn)) (counter : Int) (err : GoError)
      (s : σ) (att : Nat) (sl : List Int),
      0 ≤ counter → counter.toNat ≤ dials.length →
      ∃ r, redialLoop d fn dials counter err s att sl = some r
  | [], counter, err, s, att, sl, h0, h1 => by
    have hc : counter = 0 := by
      simp only [List.length_nil] at h1
      omega
    subst hc
    simp only [redialLoop, next_zero]
    exact ⟨_, rfl⟩
  | o :: rest, counter, err, s, att, sl, h0, h1 => by
    by_cases hc : counter = 0
    · subst hc
      simp only [redialLoop, next_zero]
      exact ⟨_, rfl⟩
    · have hpos : counter > 0 := by omega
      have hN : redialCounter.Next counter = (true, counter - 1) := by
        simp [redialCounter.Next, hc, hpos]
      rcases hT : tryOnce fn o s with ⟨s1, oc⟩
      cases oc with
      | ok c =>
        simp only [redialLoop, hN, hT]
        exact ⟨_, rfl⟩
      | error e =>
        simp only [redialLoop, hN, hT]
        apply redialLoop_returns d fn rest (counter - 1) e s1
        · omega
        · simp only [List.length_cons] at h1
          omega

/-- What a finished run of `dialWithRetry` returns: the connection of its last
attempt, which succeeded, or an error without connection. -/
theorem dialWithRetry_pair {σ : Type} (d : Dialer) (fn : DialCallback σ)
    (dials : List (Except GoError Conn)) (s : σ) (r : DialResult σ)
    (h : d.dialWithRetry fn dials s = some r) :
    (∃ c, r.conn = some c ∧ r.err = none ∧ 0 < r.attempts ∧
        dials[r.attempts - 1]? = some (.ok c) ∧
        tryOnce fn (.ok c) (runAttempts fn (dials.take (r.attempts - 1)) s).1 =
          (r.state, .ok c)) ∨
      (r.conn = none ∧ ∃ e, r.err = some e) := by
  cases dials with
  | nil => simp [Dialer.dialWithRetry] at h
  | cons o rest =>
    rcases hT : tryOnce fn o s with ⟨s1, oc⟩
    cases oc with
    | ok c =>
      simp only [Dialer.dialWithRetry, hT, Option.some.injEq] at h
      subst h
      have ho : o = .ok c := by
        cases o with
        | error e => simp [tryOnce] at hT
        | ok c0 =>
          cases fn with
          | none =>
            simp only [tryOnce, Prod.mk.injEq, Except.ok.injEq] at hT
            rw [hT.2]
          | some f =>
            rcases hf : f c0 s with ⟨s2, oe⟩
            cases oe with
            | none =>
              simp only [tryOnce, hf, Prod.mk.injEq, Except.ok.injEq] at hT
              rw [hT.2]
            | some e => simp [tryOnce, hf] at hT
      subst ho
      refine Or.inl ⟨c, rfl, rfl, by simp, by simp, ?_⟩
      simpa [runAttempts] using hT
    | error e =>
      simp only [Dialer.dialWithRetry, hT] at h
      rcases redialLoop_pair d fn rest _ e s1 _ _ r h with h1 | ⟨c, h1, h2, h3, h4, h5⟩
      · exact Or.inr h1
      · refine Or.inl ⟨c, h1, h2, by omega, ?_, ?_⟩
        · have h6 : r.attempts - 1 = (r.attempts - 1 - 1) + 1 := by omega
          rw [h6, List.getElem?_cons_succ]
          exact h4
        · have h6 : r.attempts - 1 = (r.attempts - 1 - 1) + 1 := by omega
          rw [h6, List.take_succ_cons, runAttempts_cons, hT]
          exact h5

/-- A call of `dialWithRetry` returns when `dialOne` has results for
`redialTimes + 1` attempts. -/
theorem dialWithRetry_returns {σ : Type} (d : Dialer) (fn : DialCallback σ)
    (dials : List (Except GoError Conn)) (s : σ)
    (h0 : 0 ≤ d.redialTimes) (h1 : d.redialTimes.toNat < dials.length) :
    ∃ r, d.dialWithRetry fn dials s = some r := by
  cases dials with
  | nil => simp at h1
  | cons o rest =>
    rcases hT : tryOnce fn o s with ⟨s1, oc⟩
    cases oc with
    | ok c =>
      simp only [Dialer.dialWithRetry, hT]
      exact ⟨_, rfl⟩
    | error e =>
      simp only [Dialer.dialWithRetry, hT]
      apply redialLoop_returns d fn rest _ e s1 _ _ h0
      simp only [List.length_cons] at h1
      show Int.toNat d.redialTimes ≤ rest.length
      omega

/-- C26: `dialWithRetry` never returns an inconsistent pair. It returns when
`dialOne` has results for `redialTimes + 1` attempts; and whenever it returns,
it returns either a connection with a nil error, the connection being the one
that the last call of `dialOne` returned and that attempt having succeeded (the
callback, if given, returned nil on it), or no connection with an error;
never `(nil, nil)`. -/
theorem dialWithRetry_consistent_pair {σ : Type} (d : Dialer) (fn : DialCallback σ)
    (dials : List (Except GoError Conn)) (s : σ) :
    (0 ≤ d.redialTimes → d.redialTimes.toNat < dials.length →
      ∃ r, d.dialWithRetry fn dials s = some r) ∧
    ∀ r, d.dialWithRetry fn dials s = some r →
      ((∃ c, r.conn = some c ∧ r.err = none ∧ 0 < r.attempts ∧
          dials[r.attempts - 1]? = some (.ok c) ∧
          tryOnce fn (.ok c) (runAttempts fn (dials.take (r.attempts - 1)) s).1 =
            (r.state, .ok c) ∧
          ∀ f, fn = some f →
            f c (runAttempts fn (dials.take (r.attempts - 1)) s).1 = (r.state, none)) ∨
        (r.conn = none ∧ ∃ e, r.err = some e)) ∧
      ¬ (r.conn = none ∧ r.err = none) := by
  have key := dialWithRetry_pair d fn dials s
  refine ⟨?_, fun r h => ⟨?_, ?_⟩⟩
  · exact dialWithRetry_returns d fn dials s
  · rcases key r h with ⟨c, h1, h2, h3, h4, h5⟩ | h1
    · refine Or.inl ⟨c, h1, h2, h3, h4, h5, ?_⟩
      intro f hf
      subst hf
      generalize (runAttempts (some f) (dials.take (r.attempts - 1)) s).1 = s0 at h5
      rcases hfc : f c s0 with ⟨s2, oe⟩
      cases oe with
      | none =>
        simp only [tryOnce, hfc, Prod.mk.injEq, and_true] at h5
        rw [h5]
      | some e => simp [tryOnce, hfc] at h5
    · exact Or.inr h1
  · rcases key r h with ⟨c, h1, _⟩ | ⟨_, e, h1⟩
    · simp [h1]
    · simp [h1]

/-- C26 on a dialer with three redials: the callback rejects the first
connection, the second dial fails, the third connection is returned. -/
theorem dialWithRetry_consistent_pair_witness :
    (⟨"tcp", Second, 3⟩ : Dialer).dialWithRetry countingCallback
        [.ok ⟨"127.0.0.1:50000", 1⟩, .error "refused", .ok ⟨"127.0.0.1:50001", 2⟩] 0 =
        some ⟨some ⟨"127.0.0.1:50001", 2⟩, none, 2, 3, [Second, Second]⟩ ∧
      ((∃ c, some (⟨"127.0.0.1:50001", 2⟩ : Conn) = some c ∧
          (none : Option GoError) = none ∧ 0 < 3 ∧
          [Except.ok ⟨"127.0.0.1:50000", 1⟩, .error "refused",
            .ok ⟨"127.0.0.1:50001", 2⟩][3 - 1]? = some (.ok c) ∧
          tryOnce countingCallback (.ok c)
            (runAttempts countingCallback
              ([Except.ok ⟨"127.0.0.1:50000", 1⟩, .error "refused",
                .ok ⟨"127.0.0.1:50001", 2⟩].take (3 - 1)) 0).1 = (2, .ok c) ∧
          ∀ f, countingCallback = some f →
            f c (runAttempts countingCallback
              ([Except.ok ⟨"127.0.0.1:50000", 1⟩, .error "refused",
                .ok ⟨"127.0.0.1:50001", 2⟩].take (3 - 1)) 0).1 = (2, none)) ∨
        ((some (⟨"127.0.0.1:50001", 2⟩ : Conn)) = none ∧
          ∃ e, (none : Option GoError) = some e)) ∧
      ¬ ((some (⟨"127.0.0.1:50001", 2⟩ : Conn)) = none ∧ (none : Option GoError) = none) :=
  ⟨rfl,
    (dialWithRetry_consistent_pair ⟨"tcp", Second, 3⟩ countingCallback
      [.ok ⟨"127.0.0.1:50000", 1⟩, .error "refused", .ok ⟨"127.0.0.1:50001", 2⟩] 0).2
      ⟨some ⟨"127.0.0.1:50001", 2⟩, none, 2, 3, [Second, Second]⟩ rfl⟩

/-! ## peer.go: how a run of the redial closure ends -/

/-- A run of the retry loop that ends with an error: every attempt it made
failed, and a property of the state that failed attempts keep holds at the
end. -/
theorem redialLoop_err_inv {σ : Type} (d : Dialer) (fn : DialCallback σ) (P : σ → Prop)
    (hP : ∀ o s s1 e, P s → tryOnce fn o s = (s1, .error e) → P s1) :
    ∀ (dials : List (Except GoError Conn)) (counter : redialCounter) (err : GoError)
      (s : σ) (att : Nat) (sl : List Int) (r : DialResult σ),
      P s → redialLoop d fn dials counter err s att sl = some r → r.err ≠ none →
      P r.state ∧
        ∀ o ∈ (runAttempts fn (dials.take (r.attempts - att)) s).2, isFailure o = true
  | [], counter, err, s, att, sl, r, hs, h, _ => by
    rcases hN : redialCounter.Next counter with ⟨b, c'⟩
    cases b <;> simp [redialLoop, hN] at h
    subst h
    exact ⟨hs, by simp [runAttempts]⟩
  | o :: rest, counter, err, s, att, sl, r, hs, h, hr => by
    rcases hN : redialCounter.Next counter with ⟨b, c'⟩
    cases b
    · simp [redialLoop, hN] at h
      subst h
      exact ⟨hs, by simp [runAttempts]⟩
    · rcases hT : tryOnce fn o s with ⟨s1, oc⟩
      cases oc with
      | ok c =>
        simp only [redialLoop, hN, hT, Option.some.injEq] at h
        subst h
        simp at hr
      | error e =>
        simp only [redialLoop, hN, hT] at h
        have hle := (redialLoop_sleeps d fn rest c' e s1 _ _ r h).1
        obtain ⟨h1, h2⟩ :=
          redialLoop_err_inv d fn P hP rest c' e s1 _ _ r (hP o s s1 e hs hT) h hr
        refine ⟨h1, ?_⟩
        have h6 : r.attempts - att = (r.attempts - (att + 1)) + 1 := by omega
        rw [h6, List.take_succ_cons, runAttempts_cons, hT]
        intro x hx
        rcases List.mem_cons.1 hx with hx | hx
        · rw [hx]
          rfl
        · exact h2 x hx

/-- A run of `dialWithRetry` that ends with an error: every attempt it made
failed, and a property of the state that failed attempts keep holds at the
end. -/
theorem dialWithRetry_err_inv {σ : Type} (d : Dialer) (fn : DialCallback σ) (P : σ → Prop)
    (hP : ∀ o s s1 e, P s → tryOnce fn o s = (s1, .error e) → P s1)
    (dials : List (Except GoError Conn)) (s : σ) (r : DialResult σ) (hs : P s)
    (h : d.dialWithRetry fn dials s = some r) (hr : r.err ≠ none) :
    P r.state ∧ ∀ o ∈ (runAttempts fn (dials.take r.attempts) s).2, isFailure o = true := by
  cases dials with
  | nil => simp [Dialer.dialWithRetry] at h
  | cons o rest =>
    rcases hT : tryOnce fn o s with ⟨s1, oc⟩
    cases oc with
    | ok c =>
      simp only [Dialer.dialWithRetry, hT, Option.some.injEq] at h
      subst h
      simp at hr
    | error e =>
      simp only [Dialer.dialWithRetry, hT] at h
      have hle := (redialLoop_sleeps d fn rest _ e s1 _ _ r h).1
      obtain ⟨h1, h2⟩ :=
        redialLoop_err_inv d fn P hP rest _ e s1 _ _ r (hP o s s1 e hs hT) h hr
      refine ⟨h1, ?_⟩
      have h6 : r.attempts = (r.attempts - 1) + 1 := by omega
      rw [h6, List.take_succ_cons, runAttempts_cons, hT]
      intro x hx
      rcases List.mem_cons.1 hx with hx | hx
      · rw [hx]
        rfl
      · exact h2 x hx

/-- A failed attempt of a redial leaves a session that was redialing in status
redialing. -/
theorem redialFn_fail_status (p : Peer) (oldID oldIP : String) (o : Except GoError Conn)
    (s s1 : SessState) (e : GoError) (hs : s.sess.status = .statusRedialing)
    (h : tryOnce (some (p.redialFn oldID oldIP)) o s = (s1, .error e)) :
    s1.sess.status = .statusRedialing := by
  cases o with
  | error e0 =>
    simp only [tryOnce, Prod.mk.injEq] at h
    rw [← h.1]
    exact hs
  | ok c =>
    rcases hf : p.redialFn oldID oldIP c s with ⟨s2, oe⟩
    cases oe with
    | none => simp [tryOnce, hf] at h
    | some e1 =>
      simp only [tryOnce, hf, Prod.mk.injEq] at h
      rw [← h.1]
      unfold Peer.redialFn at hf
      dsimp only at hf
      generalize p.postDial _ true = stat at hf
      cases hOK : Status.OK stat with
      | false =>
        simp only [hOK, Bool.not_false, if_true, Prod.mk.injEq] at hf
        rw [← hf.1]
      | true => simp [hOK] at hf

/-- The PostDial chain of a redial attempt runs on a session in status
preparing: the callback of the redial is the same for every chain that agrees
with the peer's on the sessions in status preparing. -/
theorem redialFn_postDial_preparing (p : Peer) (q : Session → Bool → Option Status)
    (hq : ∀ s, s.status = .statusPreparing → q s true = p.postDial s true)
    (oldID oldIP : String) (conn : Conn) (st : SessState) :
    Peer.redialFn { p with postDial := q } oldID oldIP conn st =
      p.redialFn oldID oldIP conn st := by
  unfold Peer.redialFn
  dsimp only
  rw [hq _ rfl]

/-- C21: a run of the redial closure started in status redialing, on a peer
whose `closeLocked` leaves a redialing session redialing, returns when the
PreDial chain fails or `dialOne` has results for `redialTimes + 1` attempts,
and ends in one of two ways: it returns true with the session in status ok,
registered in the session hub under its ID and reading on the connection of
the last attempt; or the PreDial chain failed or every attempt failed, and it
returns false with the session in status redialFailed. The PostDial chain of
an attempt runs on the session in status preparing, and a failed attempt
leaves the status redialing. -/
theorem redial_closure_outcome (p : Peer) (addr : String)
    (dials : List (Except GoError Conn)) (st : SessState)
    (hclose : ∀ s, s.status = .statusRedialing → (p.closeLocked s).status = .statusRedialing)
    (hst : st.sess.status = .statusRedialing) :
    ((Status.OK (p.preDial addr) = false ∨
        (0 ≤ p.dialer.redialTimes ∧ p.dialer.redialTimes.toNat < dials.length)) →
      ∃ r, p.redialForClientLocked addr dials st = some r) ∧
    (∀ r, p.redialForClientLocked addr dials st = some r →
      (r.ok = true ∧ Status.OK (p.preDial addr) = true ∧
        r.state.sess.status = .statusOk ∧
        (∃ tr, r.state.trace =
          tr ++ [.changeStatus .statusOk, .startReadAndHandle, .hubSet r.state.sess.id]) ∧
        ∃ c, 0 < r.attempts ∧ dials[r.attempts - 1]? = some (.ok c) ∧
          r.state.sess.conn = some c) ∨
      (r.ok = false ∧ r.state.sess.status = .statusRedialFailed ∧
        (Status.OK (p.preDial addr) = false ∨
          ∀ o ∈ (runAttempts (some (p.redialFn st.sess.id st.sess.LocalAddr))
              (dials.take r.attempts) st).2, isFailure o = true))) ∧
    (∀ q : Session → Bool → Option Status,
      (∀ s, s.status = .statusPreparing → q s true = p.postDial s true) →
      ∀ conn st0, Peer.redialFn { p with postDial := q } st.sess.id st.sess.LocalAddr conn st0 =
        p.redialFn st.sess.id st.sess.LocalAddr conn st0) ∧
    (∀ o s s1 e, s.sess.status = .statusRedialing →
      tryOnce (some (p.redialFn st.sess.id st.sess.LocalAddr)) o s = (s1, .error e) →
      s1.sess.status = .statusRedialing) := by
  refine ⟨?_, ?_, fun q hq conn st0 => redialFn_postDial_preparing p q hq _ _ conn st0,
    fun o s s1 e hs h => redialFn_fail_status p _ _ o s s1 e hs h⟩
  · intro hret
    unfold Peer.redialForClientLocked
    dsimp only
    cases hpre : Status.OK (p.preDial addr) with
    | false =>
      obtain ⟨e, he⟩ := cause_of_not_ok _ hpre
      simp only [Bool.false_eq_true, if_false, he]
      exact ⟨_, rfl⟩
    | true =>
      rcases hret with hf | ⟨h0, h1⟩
      · rw [hpre] at hf
        cases hf
      · obtain ⟨r0, hr0⟩ := dialWithRetry_returns p.dialer
          (some (p.redialFn st.sess.id st.sess.LocalAddr)) dials st h0 h1
        simp only [if_true, hr0]
        cases r0.err with
        | none => exact ⟨_, rfl⟩
        | some e => exact ⟨_, rfl⟩
  · intro r h
    unfold Peer.redialForClientLocked at h
    dsimp only at h
    cases hpre : Status.OK (p.preDial addr) with
    | false =>
      obtain ⟨e, he⟩ := cause_of_not_ok _ hpre
      simp only [hpre, Bool.false_eq_true, if_false, he, Option.some.injEq] at h
      subst h
      refine Or.inr ⟨rfl, ?_, Or.inl rfl⟩
      simp [Session.tryChangeStatus, hclose _ hst]
    | true =>
      simp only [hpre, if_true] at h
      cases hd : p.dialer.dialWithRetry (some (p.redialFn st.sess.id st.sess.LocalAddr))
          dials st with
      | none => simp [hd] at h
      | some r0 =>
        simp only [hd] at h
        cases herr : r0.err with
        | some e =>
          simp only [herr, Option.some.injEq] at h
          subst h
          obtain ⟨h1, h2⟩ := dialWithRetry_err_inv p.dialer _
            (fun s => s.sess.status = .statusRedialing)
            (fun o s s1 e hs h => redialFn_fail_status p _ _ o s s1 e hs h)
            dials st r0 hst hd (by simp [herr])
          refine Or.inr ⟨rfl, ?_, Or.inr h2⟩
          simp [Session.tryChangeStatus, hclose _ h1]
        | none =>
          simp only [herr, Option.some.injEq] at h
          subst h
          rcases dialWithRetry_pair p.dialer _ dials st r0 hd with
            ⟨c, h1, h2, h3, h4, h5⟩ | ⟨_, e, h1⟩
          · refine Or.inl ⟨rfl, rfl, rfl, ?_, c, h3, h4, ?_⟩
            · cases st.sess.conn with
              | none => exact ⟨_, rfl⟩
              | some c0 => exact ⟨_, rfl⟩
            · generalize (runAttempts (some (p.redialFn st.sess.id st.sess.LocalAddr))
                (dials.take (r0.attempts - 1)) st).1 = s0 at h5
              rcases hfc : p.redialFn st.sess.id st.sess.LocalAddr c s0 with ⟨s2, oe⟩
              cases oe with
              | none =>
                simp only [tryOnce, hfc, Prod.mk.injEq, and_true] at h5
                subst h5
                exact (redialFn_ok p _ _ c s0 _ hfc).1
              | some e => simp [tryOnce, hfc] at h5
          · rw [herr] at h1
            cases h1

/-- C21 on a redial whose first dial is refused and whose second succeeds. -/
theorem redial_closure_outcome_witness :
    (∀ s : Session, s.status = .statusRedialing →
        (redialingPeer.closeLocked s).status = .statusRedialing) ∧
      lostSession.sess.status = .statusRedialing ∧
      redialingPeer.redialForClientLocked ":9090"
        [.error "refused", .ok ⟨"127.0.0.1:50001", 2⟩] lostSession = some redialedReturn ∧
      ((redialedReturn.ok = true ∧ Status.OK (redialingPeer.preDial ":9090") = true ∧
        redialedReturn.state.sess.status = .statusOk ∧
        (∃ tr, redialedReturn.state.trace =
          tr ++ [.changeStatus .statusOk, .startReadAndHandle,
            .hubSet redialedReturn.state.sess.id]) ∧
        ∃ c, 0 < redialedReturn.attempts ∧
          [Except.error "refused", .ok ⟨"127.0.0.1:50001", 2⟩][redialedReturn.attempts - 1]? =
            some (.ok c) ∧
          redialedReturn.state.sess.conn = some c) ∨
      (redialedReturn.ok = false ∧ redialedReturn.state.sess.status = .statusRedialFailed ∧
        (Status.OK (redialingPeer.preDial ":9090") = false ∨
          ∀ o ∈ (runAttempts
              (some (redialingPeer.redialFn lostSession.sess.id lostSession.sess.LocalAddr))
              ([Except.error "refused", .ok ⟨"127.0.0.1:50001", 2⟩].take
                redialedReturn.attempts) lostSession).2, isFailure o = true))) :=
  ⟨fun _ h => h, rfl, by decide,
    (redial_closure_outcome redialingPeer ":9090"
      [.error "refused", .ok ⟨"127.0.0.1:50001", 2⟩] lostSession (fun _ h => h) rfl).2.1
      redialedReturn (by decide)⟩

/-! ## peer.go: the read deadline of the TLS handshake -/

/-- C24, as amended: for an accepted TLS connection, the read deadline in force
when the handshake starts is the time read for it plus `DefaultContextAge`
when `DefaultContextAge > 0`, and the time read plus `DefaultSessionAge` when
`DefaultSessionAge > 0` and `DefaultContextAge ≤ 0`. -/
theorem tls_handshake_deadline (p : AcceptPeer) (herr : Option GoError) (now1 now2 : Int)
    (conn : Conn) :
    (0 < p.defaultContextAge →
      deadlineAtHandshake (p.serveAccepted (some herr) now1 now2 conn).1 none =
        some (now2 + p.defaultContextAge)) ∧
    (0 < p.defaultSessionAge → p.defaultContextAge ≤ 0 →
      deadlineAtHandshake (p.serveAccepted (some herr) now1 now2 conn).1 none =
        some (now1 + p.defaultSessionAge)) := by
  have hev : ∀ rest, deadlineAtHandshake (p.tlsEvents now1 now2 ++ rest) none =
      deadlineAtHandshake (p.tlsEvents now1 now2) none := by
    intro rest
    unfold AcceptPeer.tlsEvents
    by_cases h1 : p.defaultSessionAge > 0 <;> by_cases h2 : p.defaultContextAge > 0 <;>
      simp [h1, h2, deadlineAtHandshake]
  have hpre : deadlineAtHandshake (p.serveAccepted (some herr) now1 now2 conn).1 none =
      deadlineAtHandshake (p.tlsEvents now1 now2) none := by
    unfold AcceptPeer.serveAccepted
    dsimp only
    cases herr with
    | some e => rfl
    | none =>
      dsimp only
      cases Status.OK (p.postAccept (newSessionOn conn)) with
      | false => exact hev _
      | true => exact hev _
  rw [hpre]
  unfold AcceptPeer.tlsEvents
  constructor
  · intro h2
    by_cases h1 : p.defaultSessionAge > 0 <;> simp [h1, h2, deadlineAtHandshake]
  · intro h1 h2
    have h3 : ¬ p.defaultContextAge > 0 := by omega
    simp [h1, h3, deadlineAtHandshake]

/-- C24 as amended, on a server with a context age of three seconds and on one
with a session age only. -/
theorem tls_handshake_deadline_witness :
    (0 < agedServer.defaultContextAge ∧
      deadlineAtHandshake
          (agedServer.serveAccepted (some none) 100 100 ⟨"10.0.0.1:443", 1⟩).1 none =
        some (100 + agedServer.defaultContextAge)) ∧
    (0 < (⟨fun _ => none, 10, 0, 107⟩ : AcceptPeer).defaultSessionAge ∧
      (⟨fun _ => none, 10, 0, 107⟩ : AcceptPeer).defaultContextAge ≤ 0 ∧
      deadlineAtHandshake
          ((⟨fun _ => none, 10, 0, 107⟩ : AcceptPeer).serveAccepted (some none) 100 100
            ⟨"10.0.0.1:443", 1⟩).1 none =
        some (100 + (⟨fun _ => none, 10, 0, 107⟩ : AcceptPeer).defaultSessionAge)) :=
  ⟨⟨by decide,
      (tls_handshake_deadline agedServer none 100 100 ⟨"10.0.0.1:443", 1⟩).1 (by decide)⟩,
    ⟨by decide, by decide,
      (tls_handshake_deadline ⟨fun _ => none, 10, 0, 107⟩ none 100 100 ⟨"10.0.0.1:443", 1⟩).2
        (by decide) (by decide)⟩⟩

/-- C24 as stated fails: on a server with a session age of ten seconds and a
context age of three seconds, a TLS connection accepted at time 100 starts its
handshake with the read deadline 100 + 3 s, not 100 + 10 s. -/
theorem tls_deadline_not_session_age :
    0 < agedServer.defaultSessionAge ∧
      deadlineAtHandshake
          (agedServer.serveAccepted (some none) 100 100 ⟨"10.0.0.1:443", 1⟩).1 none =
        some (100 + 3 * Second) ∧
      deadlineAtHandshake
          (agedServer.serveAccepted (some none) 100 100 ⟨"10.0.0.1:443", 1⟩).1 none ≠
        some (100 + agedServer.defaultSessionAge) := by
  decide

/-! ## peer.go: Close -/

/-- Merging the errors of a list of closes, one after the other, appends the
non-nil ones. -/
theorem foldl_errorsMerge {α : Type} (f : α → Option GoError) :
    ∀ (l : List α) (init : MergedError),
      l.foldl (fun e s => errorsMerge e (f s)) init = init ++ l.filterMap f
  | [], init => by simp
  | a :: l, init => by
    rw [List.foldl_cons, foldl_errorsMerge f l]
    cases h : f a with
    | none => simp [errorsMerge, h, List.filterMap_cons]
    | some x => simp [errorsMerge, h, List.filterMap_cons]

/-- A list that starts with `A` and is cut at an element outside `A`: the part
before the cut starts with `A`. -/
theorem cut_after_prefix {α : Type} (x : α) :
    ∀ (A R pre post : List α), A ++ R = pre ++ x :: post → x ∉ A →
      ∃ t, pre = A ++ t ∧ R = t ++ x :: post
  | [], R, pre, post, h, _ => ⟨pre, rfl, by simpa using h⟩
  | a :: A, R, [], post, h, hx => by
    simp only [List.cons_append, List.nil_append, List.cons.injEq] at h
    exact absurd h.1.symm (fun hxa => hx (by simp [hxa]))
  | a :: A, R, b :: pre, post, h, hx => by
    simp only [List.cons_append, List.cons.injEq] at h
    obtain ⟨t, h1, h2⟩ := cut_after_prefix x A R pre post h.2
      (fun hxa => hx (List.mem_cons_of_mem _ hxa))
    exact ⟨t, by rw [h.1, h1]; rfl, h2⟩

/-- A list that ends with `C` and is cut at an element outside `C`: the part
after the cut ends with `C`. -/
theorem cut_before_suffix {α : Type} (x : α) (L C pre post : List α)
    (h : L ++ C = pre ++ x :: post) (hx : x ∉ C) :
    ∃ t, post = t ++ C ∧ L = pre ++ x :: t := by
  have h1 : C.reverse ++ L.reverse = post.reverse ++ x :: pre.reverse := by
    have := congrArg List.reverse h
    simpa using this
  obtain ⟨t, h2, h3⟩ := cut_after_prefix x C.reverse L.reverse post.reverse pre.reverse h1
    (by simpa using hx)
  refine ⟨t.reverse, ?_, ?_⟩
  · have := congrArg List.reverse h2
    simpa using this
  · have := congrArg List.reverse h3
    simpa using this

/-- The sessions closed among effects that are put one after the other. -/
theorem closedSessions_append :
    ∀ (a b : List CloseEvent), closedSessions (a ++ b) = closedSessions a ++ closedSessions b
  | [], b => rfl
  | e :: a, b => by
    cases e <;> simp [closedSessions, closedSessions_append a b]

theorem closedSessions_listeners (ls : List Listener) :
    closedSessions (ls.map CloseEvent.listenerClose) = [] := by
  induction ls with
  | nil => rfl
  | cons l ls ih => simpa [closedSessions] using ih

theorem closedSessions_sessions (ss : List HubSession) :
    closedSessions (ss.map CloseEvent.sessClose) = ss := by
  induction ss with
  | nil => rfl
  | cons s ss ih => simp [closedSessions, ih]

/-- The effects of `Close` on a peer whose `closeCh` is open. -/
theorem close_events (p : ClosingPeer) (arrival : List HubSession) (panicTrace : String)
    (hopen : p.closeChClosed = false) :
    (p.Close arrival panicTrace).events =
      (CloseEvent.closeCh ::
          ((p.listeners.filter (fun l => !l.isQuic)).map CloseEvent.listenerClose
            ++ [CloseEvent.deletePeer]))
        ++ (p.sessions.map CloseEvent.sessClose
          ++ (p.listeners.filter (fun l => l.isQuic)).map CloseEvent.listenerClose) := by
  simp [ClosingPeer.Close, hopen]

/-- The error `Close` returns on a peer whose `closeCh` is open. -/
theorem close_err (p : ClosingPeer) (arrival : List HubSession) (panicTrace : String)
    (hopen : p.closeChClosed = false) :
    (p.Close arrival panicTrace).err =
      (arrival.take p.sessions.length).filterMap (fun s => s.closeErr)
        ++ (p.listeners.filter (fun l => l.isQuic)).filterMap (fun l => l.closeErr) := by
  simp [ClosingPeer.Close, hopen, foldl_errorsMerge]

/-- C25, as amended: on a peer that was not closed before, `Close` closes every
listener that is no QUIC listener before it closes any session, closes every
session of the session hub exactly once, closes every QUIC listener after the
sessions, and returns the merge of the errors of all session closes and of the
closes of the QUIC listeners, nil when none of them failed. -/
theorem peer_close_order (p : ClosingPeer) (arrival : List HubSession) (panicTrace : String)
    (hopen : p.closeChClosed = false) (harr : arrival.Perm p.sessions) :
    (∀ pre s post,
      (p.Close arrival panicTrace).events = pre ++ CloseEvent.sessClose s :: post →
      (∀ l ∈ p.listeners, l.isQuic = false →
        CloseEvent.listenerClose l ∈ pre ∧ CloseEvent.listenerClose l ∉ post) ∧
      (∀ l ∈ p.listeners, l.isQuic = true →
        CloseEvent.listenerClose l ∈ post ∧ CloseEvent.listenerClose l ∉ pre)) ∧
    (∀ l ∈ p.listeners, CloseEvent.listenerClose l ∈ (p.Close arrival panicTrace).events) ∧
    closedSessions (p.Close arrival panicTrace).events = p.sessions ∧
    (p.Close arrival panicTrace).err.Perm
      (p.sessions.filterMap (fun s => s.closeErr)
        ++ (p.listeners.filter (fun l => l.isQuic)).filterMap (fun l => l.closeErr)) ∧
    ((p.Close arrival panicTrace).err = [] ↔
      (∀ s ∈ p.sessions, s.closeErr = none) ∧
        ∀ l ∈ p.listeners, l.isQuic = true → l.closeErr = none) := by
  have hperm : (p.Close arrival panicTrace).err.Perm
      (p.sessions.filterMap (fun s => s.closeErr)
        ++ (p.listeners.filter (fun l => l.isQuic)).filterMap (fun l => l.closeErr)) := by
    rw [close_err p arrival panicTrace hopen, ← harr.length_eq, List.take_length]
    exact (harr.filterMap _).append_right _
  refine ⟨?_, ?_, ?_, hperm, ?_⟩
  · intro pre s post h
    rw [close_events p arrival panicTrace hopen] at h
    obtain ⟨t1, h1, h2⟩ := cut_after_prefix _ _ _ pre post h (by simp)
    obtain ⟨t2, h3, h4⟩ := cut_before_suffix _ _ _ t1 post h2 (by simp)
    have hB : ∀ l, CloseEvent.listenerClose l ∉ t1 ∧ CloseEvent.listenerClose l ∉ t2 := by
      intro l
      have hn : CloseEvent.listenerClose l ∉ p.sessions.map CloseEvent.sessClose := by simp
      rw [h4] at hn
      constructor
      · exact fun hm => hn (List.mem_append_left _ hm)
      · exact fun hm => hn (List.mem_append_right _ (List.mem_cons_of_mem _ hm))
    constructor
    · intro l hl hq
      constructor
      · rw [h1]
        simp [hl, hq]
      · rw [h3]
        simp [(hB l).2, hq]
    · intro l hl hq
      constructor
      · rw [h3]
        simp [hl, hq]
      · rw [h1]
        simp [(hB l).1, hq]
  · intro l hl
    rw [close_events p arrival panicTrace hopen]
    cases hq : l.isQuic with
    | false => simp [hl, hq]
    | true => simp [hl, hq]
  · rw [close_events p arrival panicTrace hopen]
    simp [closedSessions_append, closedSessions, closedSessions_listeners,
      closedSessions_sessions]
  · rw [← List.length_eq_zero, hperm.length_eq, List.length_eq_zero]
    simp only [List.append_eq_nil, List.filterMap_eq_nil_iff, List.mem_filter,
      and_imp]

/-- C25 as amended, on a peer with a TCP and a QUIC listener and one
session. -/
theorem peer_close_order_witness :
    quicPeer.closeChClosed = false ∧ quicPeer.sessions.Perm quicPeer.sessions ∧
      closedSessions (quicPeer.Close quicPeer.sessions "").events = quicPeer.sessions ∧
      (quicPeer.Close quicPeer.sessions "").err.Perm
        (quicPeer.sessions.filterMap (fun s => s.closeErr)
          ++ (quicPeer.listeners.filter (fun l => l.isQuic)).filterMap (fun l => l.closeErr)) :=
  ⟨rfl, List.Perm.refl _,
    (peer_close_order quicPeer quicPeer.sessions "" rfl (List.Perm.refl _)).2.2.1,
    (peer_close_order quicPeer quicPeer.sessions "" rfl (List.Perm.refl _)).2.2.2.1⟩

/-- C25 as stated fails: `Close` closes the QUIC listener of `quicPeer` after
its session, and returns the error of that listener although no session close
failed; and a second `Close` closes nothing and returns an error, the
recovered panic of closing `closeCh` again. -/
theorem peer_close_quic_after_sessions :
    (quicPeer.Close quicPeer.sessions "").events =
        [.closeCh, .listenerClose ⟨":9090", false, none⟩, .deletePeer,
          .sessClose ⟨"127.0.0.1:50000", none⟩,
          .listenerClose ⟨":9091", true, some "quic: server closed"⟩] ∧
      (∀ s ∈ quicPeer.sessions, s.closeErr = none) ∧
      (quicPeer.Close quicPeer.sessions "").err = ["quic: server closed"] ∧
      ((quicPeer.Close quicPeer.sessions "").peer.Close quicPeer.sessions "").events = [] ∧
      ((quicPeer.Close quicPeer.sessions "").peer.Close quicPeer.sessions "").err =
        ["panic:close of closed channel\n"] := by
  decide

/-! ## strconv and the heartbeat plugin -/

/-- The character of a digit is a decimal digit with that value. -/
theorem digit_char (d : Nat) (h : d < 10) :
    isDecimalDigit (Char.ofNat (48 + d)) = true ∧ digitValue (Char.ofNat (48 + d)) = d := by
  interval_cases d <;> decide

/-- Parsing two runs of digits, one after the other. -/
theorem parseDigits_append :
    ∀ (xs ys : List Char) (v : Nat),
      parseDigits (xs ++ ys) v = (parseDigits xs v).bind (parseDigits ys)
  | [], ys, v => rfl
  | c :: xs, ys, v => by
    cases h : isDecimalDigit c with
    | false => simp [parseDigits, h]
    | true => simp [parseDigits, h, parseDigits_append xs ys]

/-- The digits that `formatDecimal` writes do not depend on what follows. -/
theorem formatDecimal_acc :
    ∀ (fuel n : Nat) (acc : List Char),
      formatDecimal fuel n acc = formatDecimal fuel n [] ++ acc
  | 0, n, acc => rfl
  | fuel + 1, n, acc => by
    by_cases h : n / 10 = 0
    · simp [formatDecimal, h]
    · simp only [formatDecimal, h, if_false]
      rw [formatDecimal_acc fuel (n / 10) (_ :: acc),
        formatDecimal_acc fuel (n / 10) [_]]
      simp

/-- Reading back the digits written for `n` gives `n`. -/
theorem parseDigits_formatDecimal :
    ∀ (fuel n : Nat), n < fuel → parseDigits (formatDecimal fuel n []) 0 = some n
  | 0, n, h => by omega
  | fuel + 1, n, h => by
    have hd := digit_char (n % 10) (Nat.mod_lt _ (by decide))
    by_cases h0 : n / 10 = 0
    · simp only [formatDecimal, h0, if_true, parseDigits, hd.1, hd.2]
      congr 1
      omega
    · simp only [formatDecimal, h0, if_false]
      rw [formatDecimal_acc, parseDigits_append,
        parseDigits_formatDecimal fuel (n / 10) (by omega)]
      simp only [Option.some_bind, parseDigits, hd.1, hd.2, if_true]
      congr 1
      omega

/-- The characters written for a number are decimal digits. -/
theorem formatDecimal_digits :
    ∀ (fuel n : Nat), ∀ c ∈ formatDecimal fuel n [], isDecimalDigit c = true
  | 0, n, c, hc => by simp [formatDecimal] at hc
  | fuel + 1, n, c, hc => by
    have hd := digit_char (n % 10) (Nat.mod_lt _ (by decide))
    by_cases h0 : n / 10 = 0
    · simp only [formatDecimal, h0, if_true, List.mem_singleton] at hc
      rw [hc]
      exact hd.1
    · simp only [formatDecimal, h0, if_false] at hc
      rw [formatDecimal_acc, List.mem_append, List.mem_singleton] at hc
      rcases hc with hc | hc
      · exact formatDecimal_digits fuel (n / 10) c hc
      · rw [hc]
        exact hd.1

/-- At least one digit is written. -/
theorem formatDecimal_ne_nil (fuel n : Nat) : formatDecimal (fuel + 1) n [] ≠ [] := by
  by_cases h0 : n / 10 = 0
  · simp [formatDecimal, h0]
  · simp only [formatDecimal, h0, if_false]
    rw [formatDecimal_acc]
    simp

/-- The digit loop on a string of digits gives its value. -/
theorem parseDigits_value :
    ∀ (ds : List Char) (v : Nat), (∀ c ∈ ds, isDecimalDigit c = true) →
      parseDigits ds v = some (v * 10 ^ ds.length + numeralValue ds)
  | [], v, _ => by simp [parseDigits, numeralValue]
  | c :: ds, v, h => by
    have hc : isDecimalDigit c = true := h c (List.mem_cons_self _ _)
    have hds : ∀ x ∈ ds, isDecimalDigit x = true := fun x hx => h x (List.mem_cons_of_mem _ hx)
    simp only [parseDigits, hc, if_true]
    rw [parseDigits_value ds _ hds]
    congr 1
    simp only [numeralValue, List.reverse_cons, List.map_append, List.map_cons, List.map_nil,
      Nat.ofDigits_append, List.length_map, List.length_reverse, Nat.ofDigits_singleton,
      List.length_cons]
    ring

/-- The digit loop succeeds on strings of digits only. -/
theorem parseDigits_some :
    ∀ (ds : List Char) (v u : Nat), parseDigits ds v = some u →
      ∀ c ∈ ds, isDecimalDigit c = true
  | [], _, _, _, c, hc => by simp at hc
  | d :: ds, v, u, h, c, hc => by
    cases hd : isDecimalDigit d with
    | false => simp [parseDigits, hd] at h
    | true =>
      simp only [parseDigits, hd, if_true] at h
      rcases List.mem_cons.1 hc with hc | hc
      · rw [hc]
        exact hd
      · exact parseDigits_some ds _ u h c hc

/-- The value `Atoi` computes once the sign is read: `ds` are the characters
after the sign, `neg` tells a minus sign. -/
theorem atoi_signed (intSize : Nat) (neg : Bool) (ds : List Char) (n : Int) :
    (match ds with
      | [] => none
      | d :: ds1 =>
        match parseDigits (d :: ds1) 0 with
        | none => none
        | some un =>
          if !neg && un ≥ 2 ^ (intSize - 1) then none
          else if neg && un > 2 ^ (intSize - 1) then none
          else some (if neg then -(un : Int) else (un : Int))) = some n ↔
      ds ≠ [] ∧ (∀ c ∈ ds, isDecimalDigit c = true) ∧
        n = (if neg then -(numeralValue ds : Int) else (numeralValue ds : Int)) ∧
        -(2 ^ (intSize - 1) : Int) ≤ n ∧ n < 2 ^ (intSize - 1) := by
  cases ds with
  | nil => simp
  | cons d ds1 =>
    have hpos : (0 : Int) < 2 ^ (intSize - 1) := by positivity
    cases hp : parseDigits (d :: ds1) 0 with
    | none =>
      dsimp only
      rw [hp]
      refine ⟨(fun h => nomatch h), ?_⟩
      rintro ⟨_, hdig, _⟩
      rw [parseDigits_value _ _ hdig] at hp
      cases hp
    | some un =>
      have hdig := parseDigits_some _ _ _ hp
      have hval : un = numeralValue (d :: ds1) := by
        rw [parseDigits_value _ _ hdig] at hp
        simp only [Option.some.injEq] at hp
        omega
      subst hval
      have hcast : ((2 ^ (intSize - 1) : Nat) : Int) = 2 ^ (intSize - 1) := by push_cast; rfl
      dsimp only
      rw [hp]
      dsimp only
      cases neg with
      | false =>
        by_cases hlt : numeralValue (d :: ds1) ≥ 2 ^ (intSize - 1)
        · simp only [Bool.not_false, Bool.true_and, decide_eq_true_eq, hlt, if_true]
          refine ⟨(fun h => nomatch h), ?_⟩
          rintro ⟨_, _, hn, _, hn2⟩
          rw [hn] at hn2
          simp only [Bool.false_eq_true, if_false] at hn2
          omega
        · simp only [Bool.not_false, Bool.true_and, decide_eq_true_eq, hlt, if_false,
            Bool.false_and, Bool.false_eq_true, Option.some.injEq]
          constructor
          · intro hn
            subst hn
            refine ⟨by simp, hdig, rfl, by omega, by omega⟩
          · rintro ⟨_, _, hn, _, _⟩
            exact hn.symm
      | true =>
        by_cases hgt : numeralValue (d :: ds1) > 2 ^ (intSize - 1)
        · simp only [Bool.not_true, Bool.false_and, Bool.false_eq_true, if_false,
            Bool.true_and, decide_eq_true_eq, hgt, if_true]
          refine ⟨(fun h => nomatch h), ?_⟩
          rintro ⟨_, _, hn, hn1, _⟩
          rw [hn] at hn1
          omega
        · simp only [Bool.not_true, Bool.false_and, Bool.false_eq_true, if_false,
            Bool.true_and, decide_eq_true_eq, hgt, if_true, Option.some.injEq]
          constructor
          · intro hn
            subst hn
            refine ⟨by simp, hdig, rfl, by omega, by omega⟩
          · rintro ⟨_, _, hn, _, _⟩
            exact hn.symm

/-- What `Atoi` accepts: the decimal numerals of the values of an `int`. -/
theorem atoi_iff (intSize : Nat) (s : String) (n : Int) :
    Atoi intSize s = some n ↔ IsNumeralOf intSize s n := by
  have hplus : isDecimalDigit '+' = false := by decide
  have hminus : isDecimalDigit '-' = false := by decide
  unfold Atoi IsNumeralOf
  cases hdata : s.data with
  | nil =>
    refine ⟨(fun h => nomatch h), ?_⟩
    rintro ⟨sign, ds, h1, _, h2, _⟩
    exact absurd (List.append_eq_nil.1 h1.symm).2 h2
  | cons c rest =>
    refine (atoi_signed intSize (c == '-')
      (if (c == '+' || c == '-') = true then rest else c :: rest) n).trans ?_
    by_cases hp : c = '+'
    · subst hp
      simp only [beq_self_eq_true, Bool.true_or, if_true]
      have hne : ('+' == '-') = false := by decide
      simp only [hne, Bool.false_eq_true, if_false]
      constructor
      · rintro ⟨h1, h2, h3, h4, h5⟩
        exact ⟨['+'], rest, rfl, Or.inr (Or.inl rfl), h1, h2, by simpa using h3, h4, h5⟩
      · rintro ⟨sign, ds, h0, hs, h1, h2, h3, h4, h5⟩
        rcases hs with hs | hs | hs
        · subst hs
          simp only [List.nil_append] at h0
          have := h2 '+' (by rw [← h0]; exact List.mem_cons_self _ _)
          rw [hplus] at this
          cases this
        · subst hs
          simp only [List.singleton_append, List.cons.injEq, true_and] at h0
          subst h0
          exact ⟨h1, h2, by simpa using h3, h4, h5⟩
        · subst hs
          simp only [List.singleton_append, List.cons.injEq] at h0
          exact absurd h0.1 (by decide)
    · by_cases hm : c = '-'
      · subst hm
        have hne : ('-' == '+') = false := by decide
        simp only [beq_self_eq_true, Bool.or_true, if_true]
        constructor
        · rintro ⟨h1, h2, h3, h4, h5⟩
          exact ⟨['-'], rest, rfl, Or.inr (Or.inr rfl), h1, h2, by simpa using h3, h4, h5⟩
        · rintro ⟨sign, ds, h0, hs, h1, h2, h3, h4, h5⟩
          rcases hs with hs | hs | hs
          · subst hs
            simp only [List.nil_append] at h0
            have := h2 '-' (by rw [← h0]; exact List.mem_cons_self _ _)
            rw [hminus] at this
            cases this
          · subst hs
            simp only [List.singleton_append, List.cons.injEq] at h0
            exact absurd h0.1 (by decide)
          · subst hs
            simp only [List.singleton_append, List.cons.injEq, true_and] at h0
            subst h0
            exact ⟨h1, h2, by simpa using h3, h4, h5⟩
      · have h1 : (c == '+') = false := by simpa using hp
        have h2 : (c == '-') = false := by simpa using hm
        simp only [h1, h2, Bool.or_false, Bool.false_eq_true, if_false]
        constructor
        · rintro ⟨h1, h2, h3, h4, h5⟩
          exact ⟨[], c :: rest, rfl, Or.inl rfl, h1, h2, by simpa using h3, h4, h5⟩
        · rintro ⟨sign, ds, h0, hs, h3, h4, h5, h6, h7⟩
          rcases hs with hs | hs | hs
          · subst hs
            simp only [List.nil_append] at h0
            subst h0
            exact ⟨h3, h4, by simpa using h5, h6, h7⟩
          · subst hs
            simp only [List.singleton_append, List.cons.injEq] at h0
            exact absurd h0.1 hp
          · subst hs
            simp only [List.singleton_append, List.cons.injEq] at h0
            exact absurd h0.1 hm

/-- The decimal string of an `int` that is not negative is a numeral of it. -/
theorem itoa_numeral (intSize : Nat) (n : Int) (h0 : 0 ≤ n) (h1 : n < 2 ^ (intSize - 1)) :
    IsNumeralOf intSize (Itoa n) n := by
  have hn : ¬ n < 0 := by omega
  have hv : numeralValue (formatDecimal (n.natAbs + 1) n.natAbs []) = n.natAbs := by
    have h2 := parseDigits_formatDecimal (n.natAbs + 1) n.natAbs (by omega)
    rw [parseDigits_value _ _ (formatDecimal_digits _ _)] at h2
    simp only [Option.some.injEq] at h2
    omega
  refine ⟨[], formatDecimal (n.natAbs + 1) n.natAbs [], ?_, Or.inl rfl,
    formatDecimal_ne_nil _ _, formatDecimal_digits _ _, ?_, by omega, h1⟩
  · simp [Itoa, hn]
  · rw [hv]
    simp only [List.nil_eq, reduceCtorEq, if_false]
    omega

/-- The decimal string of an `int` that is not negative starts with no sign:
all its characters are digits. -/
theorem itoa_digits (n : Int) (h0 : 0 ≤ n) : ∀ c ∈ (Itoa n).data, isDecimalDigit c = true := by
  have hn : ¬ n < 0 := by omega
  simp only [Itoa, hn, if_false]
  exact formatDecimal_digits _ _

/-- A string of length 0 is the empty string. -/
theorem length_eq_zero_iff (s : String) : s.length = 0 ↔ s = "" := by
  rcases s with ⟨data⟩
  cases data with
  | nil => exact ⟨fun _ => rfl, fun _ => rfl⟩
  | cons c cs =>
    constructor
    · intro h
      simp [String.length] at h
    · intro h
      exact absurd (congrArg String.data h) (by simp)

/-- `parseHeartbeatRateSecond` on a string that is not empty. -/
theorem parseHeartbeatRateSecond_nonempty (intSize : Nat) (s : String) (hs : s ≠ "") :
    parseHeartbeatRateSecond intSize s =
      match Atoi intSize s with
      | none => -1
      | some r => if r < 0 then -1 else r := by
  have h : ¬ s.length = 0 := fun h => hs ((length_eq_zero_iff s).1 h)
  simp [parseHeartbeatRateSecond, h]

/-- `parseHeartbeatRateSecond` gives the value of a numeral of an `int` that is
not negative, and -1 on every other string but the empty one. -/
theorem parseHeartbeatRateSecond_numeral (intSize : Nat) (s : String) (hs : s ≠ "") :
    (∀ n, IsNumeralOf intSize s n → 0 ≤ n → parseHeartbeatRateSecond intSize s = n) ∧
    ((¬ ∃ n, 0 ≤ n ∧ IsNumeralOf intSize s n) → parseHeartbeatRateSecond intSize s = -1) := by
  rw [parseHeartbeatRateSecond_nonempty intSize s hs]
  constructor
  · intro n hn h0
    rw [(atoi_iff intSize s n).2 hn]
    have : ¬ n < 0 := by omega
    simp [this]
  · intro hno
    cases ha : Atoi intSize s with
    | none => rfl
    | some r =>
      by_cases hr : r < 0
      · simp [hr]
      · exact absurd ⟨r, by omega, (atoi_iff intSize s r).1 ha⟩ hno

/-- C27, as amended: `parseHeartbeatRateSecond` returns 0 for the empty string,
the value `n` for every decimal numeral of an `int` `n ≥ 0` (decimal digits
after an optional sign, among them the decimal representation `Itoa n`), and
-1 for every other string; and `handelHeartbeat` returns a BadMessage status
exactly when the value of `hb_` parses to -1 and `updateHeartbeatInfo` reports
the first heartbeat info of the session, and nil in every other case. -/
theorem heartbeat_rate_parse (intSize : Nat) :
    parseHeartbeatRateSecond intSize "" = 0 ∧
    (∀ n : Int, 0 ≤ n → n < 2 ^ (intSize - 1) →
      parseHeartbeatRateSecond intSize (Itoa n) = n) ∧
    (∀ s n, s ≠ "" → IsNumeralOf intSize s n → 0 ≤ n →
      parseHeartbeatRateSecond intSize s = n) ∧
    (∀ s, s ≠ "" → (¬ ∃ n, 0 ≤ n ∧ IsNumeralOf intSize s n) →
      parseHeartbeatRateSecond intSize s = -1) ∧
    (∀ (σ : Type) (CodeBadMessage : Int) (update : σ → Int → Bool × σ) (swap : σ)
      (peekMeta : String → String),
      ((handelHeartbeat intSize CodeBadMessage update swap peekMeta).1 =
          some ⟨CodeBadMessage, "invalid heartbeat rate", peekMeta heartbeatMetaKey⟩ ↔
        parseHeartbeatRateSecond intSize (peekMeta heartbeatMetaKey) = -1 ∧
          (update swap (wrapInt64
            (Second * parseHeartbeatRateSecond intSize (peekMeta heartbeatMetaKey)))).1 = true) ∧
      ((handelHeartbeat intSize CodeBadMessage update swap peekMeta).1 = none ↔
        ¬ (parseHeartbeatRateSecond intSize (peekMeta heartbeatMetaKey) = -1 ∧
          (update swap (wrapInt64
            (Second * parseHeartbeatRateSecond intSize (peekMeta heartbeatMetaKey)))).1 = true))) := by
  refine ⟨rfl, ?_, ?_, ?_, ?_⟩
  · intro n h0 h1
    have hne : Itoa n ≠ "" := by
      intro h
      have hd : (Itoa n).data = [] := by rw [h]
      have hn : ¬ n < 0 := by omega
      simp only [Itoa, hn, if_false] at hd
      exact formatDecimal_ne_nil _ _ hd
    exact (parseHeartbeatRateSecond_numeral intSize _ hne).1 n (itoa_numeral intSize n h0 h1) h0
  · intro s n hs hn h0
    exact (parseHeartbeatRateSecond_numeral intSize s hs).1 n hn h0
  · intro s hs hno
    exact (parseHeartbeatRateSecond_numeral intSize s hs).2 hno
  · intro σ code update swap peekMeta
    unfold handelHeartbeat
    dsimp only
    generalize parseHeartbeatRateSecond intSize (peekMeta heartbeatMetaKey) = rate
    cases hu : (update swap (wrapInt64 (Second * rate))).1 with
    | false => simp
    | true =>
      by_cases hr : rate = -1
      · simp [hr]
      · simp [hr]

/-- C27 as amended, on the decimal string of 300 with a 64-bit `int`. -/
theorem heartbeat_rate_parse_witness :
    (0 : Int) ≤ 300 ∧ (300 : Int) < 2 ^ (64 - 1) ∧
      parseHeartbeatRateSecond 64 (Itoa 300) = 300 :=
  ⟨by decide, by decide, (heartbeat_rate_parse 64).2.1 300 (by decide) (by decide)⟩

/-- C27 as stated fails: the string `+5` is not empty and is the decimal
representation of no integer `n ≥ 0`, and `parseHeartbeatRateSecond` returns 5
on it, not -1. -/
theorem heartbeat_rate_signed_string :
    parseHeartbeatRateSecond 64 "+5" = 5 ∧ parseHeartbeatRateSecond 32 "+5" = 5 ∧
      "+5" ≠ "" ∧ ¬ ∃ n : Int, 0 ≤ n ∧ Itoa n = "+5" := by
  refine ⟨by decide, by decide, by decide, ?_⟩
  rintro ⟨n, h0, h⟩
  have h1 := itoa_digits n h0 '+' (by rw [h]; decide)
  revert h1
  decide

/-- The rate that `SetRate` stores. -/
theorem setRate_fields (minRateSecond : Int) (h : heartPing) (r : Int) :
    (h.SetRate minRateSecond r).pingRate = wrapInt64 (Second * max r minRateSecond) ∧
      (h.SetRate minRateSecond r).pingRateSecond = Itoa (max r minRateSecond) := by
  unfold heartPing.SetRate
  by_cases hlt : r < minRateSecond
  · have hm : max r minRateSecond = minRateSecond := max_eq_right (by omega)
    simp [hlt, hm]
  · have hm : max r minRateSecond = r := max_eq_left (by omega)
    simp [hlt, hm]

/-- C28, as amended: for every `int` `r`, with a constant `minRateSecond` that
is not negative, after `SetRate(r)` the `hb_` meta value sent with each
heartbeat is the decimal string of `max(r, minRateSecond)`, and
`parseHeartbeatRateSecond` of that string is `max(r, minRateSecond)`, never -1;
the ping rate is `max(r, minRateSecond)` seconds when that many seconds fit a
`time.Duration` (at most 9223372036), as all do with a 32-bit `int`. -/
theorem ping_rate_roundtrip (intSize : Nat) (minRateSecond : Int) (h : heartPing) (r : Int)
    (hmin : 0 ≤ minRateSecond) (hminR : minRateSecond < 2 ^ (intSize - 1))
    (hr : r < 2 ^ (intSize - 1)) :
    (h.SetRate minRateSecond r).heartbeat =
        ⟨HeartbeatServiceMethod, heartbeatMetaKey, Itoa (max r minRateSecond)⟩ ∧
      parseHeartbeatRateSecond intSize
          ((h.SetRate minRateSecond r).heartbeat.PeekMeta heartbeatMetaKey) =
        max r minRateSecond ∧
      parseHeartbeatRateSecond intSize
          ((h.SetRate minRateSecond r).heartbeat.PeekMeta heartbeatMetaKey) ≠ -1 ∧
      (max r minRateSecond ≤ 9223372036 →
        (h.SetRate minRateSecond r).pingRate = max r minRateSecond * Second) ∧
      (intSize = 32 → (h.SetRate minRateSecond r).pingRate = max r minRateSecond * Second) := by
  obtain ⟨h1, h2⟩ := setRate_fields minRateSecond h r
  have h0 : 0 ≤ max r minRateSecond := le_max_of_le_right hmin
  have hlt : max r minRateSecond < 2 ^ (intSize - 1) := max_lt hr hminR
  have hnum := itoa_numeral intSize _ h0 hlt
  have hne : Itoa (max r minRateSecond) ≠ "" := by
    intro he
    have hd : (Itoa (max r minRateSecond)).data = [] := by rw [he]
    have hn : ¬ max r minRateSecond < 0 := by omega
    simp only [Itoa, hn, if_false] at hd
    exact formatDecimal_ne_nil _ _ hd
  have hparse := (parseHeartbeatRateSecond_numeral intSize _ hne).1 _ hnum h0
  have hpeek : (h.SetRate minRateSecond r).heartbeat.PeekMeta heartbeatMetaKey =
      Itoa (max r minRateSecond) := by
    simp [HeartbeatMsg.PeekMeta, heartPing.heartbeat, h2]
  have hfit : max r minRateSecond ≤ 9223372036 →
      (h.SetRate minRateSecond r).pingRate = max r minRateSecond * Second := by
    intro hb
    rw [h1]
    generalize max r minRateSecond = m at h0 hb
    have hS : Second = 1000000000 := by decide
    rw [hS]
    unfold wrapInt64
    omega
  refine ⟨?_, ?_, ?_, hfit, ?_⟩
  · simp [heartPing.heartbeat, h2]
  · rw [hpeek]
    exact hparse
  · rw [hpeek, hparse]
    omega
  · intro h32
    subst h32
    apply hfit
    have : (2 : Int) ^ (32 - 1) = 2147483648 := by norm_num
    rw [this] at hlt
    omega

/-- C28 as amended, on `SetRate(1)` with the least rate 3 and a 64-bit `int`. -/
theorem ping_rate_roundtrip_witness :
    (0 : Int) ≤ 3 ∧ (3 : Int) < 2 ^ (64 - 1) ∧ (1 : Int) < 2 ^ (64 - 1) ∧
      (heartPing.SetRate 3 ⟨0, ""⟩ 1).heartbeat = ⟨"/heartbeat", "hb_", "3"⟩ ∧
      parseHeartbeatRateSecond 64
          ((heartPing.SetRate 3 ⟨0, ""⟩ 1).heartbeat.PeekMeta heartbeatMetaKey) = max 1 3 :=
  ⟨by decide, by decide, by decide, by decide,
    (ping_rate_roundtrip 64 3 ⟨0, ""⟩ 1 (by decide) (by decide) (by decide)).2.1⟩

/-- C28 as stated fails: with a 64-bit `int`, after `SetRate(9223372037)` the
ping rate is a negative duration, whatever the least rate below that value,
not 9223372037 seconds. -/
theorem ping_rate_overflows :
    (9223372037 : Int) < 2 ^ (64 - 1) ∧
      ∀ minRateSecond : Int, minRateSecond ≤ 9223372037 →
        (heartPing.SetRate minRateSecond ⟨0, ""⟩ 9223372037).pingRate =
            -9223372036709551616 ∧
          (heartPing.SetRate minRateSecond ⟨0, ""⟩ 9223372037).pingRate ≠
            max 9223372037 minRateSecond * Second := by
  refine ⟨by decide, fun m hm => ?_⟩
  have h1 := (setRate_fields m ⟨0, ""⟩ 9223372037).1
  have hmax : max 9223372037 m = 9223372037 := max_eq_left hm
  rw [hmax] at h1
  rw [h1, hmax]
  decide

/-! ## mixer/multiclient/multiclient.go -/

/-- C29: when the pool cannot hire a session, `Push` returns a status of code
WrongConn and pushes nothing, and `AsyncCall` with a buffered channel that has
room returns a `CallCmd` of code WrongConn and has put it in the channel; but
`AsyncCall` with the nil channel, which its check lets pass, does not return:
it blocks in the send on the nil channel. -/
theorem multiclient_asyncCall_nil_blocks {σ : Type} (CodeWrongConn : Int)
    (codeText : Int → String) (err : GoError)
    (sessAsyncCall : σ → String → CmdChan → CallOutcome)
    (sessPush : σ → String → Option Status) (uri : String) (n : Nat) :
    MultiClient.Push CodeWrongConn codeText (.error err) sessPush uri =
        (some ⟨CodeWrongConn, codeText CodeWrongConn, err⟩, []) ∧
      MultiClient.AsyncCall CodeWrongConn codeText (.error err) sessAsyncCall uri
          (.chan (n + 1) []) =
        .returns ⟨uri, some ⟨CodeWrongConn, codeText CodeWrongConn, err⟩⟩
          (.chan (n + 1) [⟨uri, some ⟨CodeWrongConn, codeText CodeWrongConn, err⟩⟩]) ∧
      MultiClient.AsyncCall CodeWrongConn codeText (.error err) sessAsyncCall uri .nil =
        .blocks ∧
      MultiClient.AsyncCall CodeWrongConn codeText (.error err) sessAsyncCall uri
          (.chan 0 []) =
        .panics "*MultiClient.AsyncCall(): callCmdChan channel is unbuffered" := by
  refine ⟨rfl, ?_, rfl, rfl⟩
  simp [MultiClient.AsyncCall, CmdChan.notNil, CmdChan.cap, CmdChan.send,
    NewStatusByCodeText]

/-! ## mixer/websocket/pbSubProto: the header fields round-trip -/

/-- The conversion `byte(int32(b))` gives back a byte `b`. -/
theorem toByte_cast (b : Nat) (h : b < 256) : toByte (b : Int) = b := by
  unfold toByte
  omega

/-- For a message `m` whose transfer-pipe IDs are all registered, a fresh
message into which `pbSubProto.Unpack` reads what `pbSubProto.Pack` wrote for `m`
gets the sequence number, message type, service method, body codec ID and
transfer-pipe ID list of `m`, when `OnUnpack` accepts what `OnPack` produced;
`Pack` writes once when marshalling succeeds and not at all when it fails; the
size it records on `m` is the length of what it wrote when `SetSize` accepts
that length, and when `SetSize` refuses it the size stays as it was and `Pack`
returns what `Write` returned. -/
theorem pbSubProto_roundtrip_fields (env : MsgEnv) (encodedLen : Payload → Nat)
    (marshalErr writeErr : Option GoError) (m m0 : Message)
    (hm : m.mtype < 256) (hc : m.bodyCodec < 256)
    (hreg : ∀ id ∈ m.xferPipe, env.registered id = true)
    (hfresh : m0.xferPipe = [])
    (hun : ∀ b b1, env.onPack m.xferPipe b = .ok b1 →
      ∃ b2, env.onUnpack m.xferPipe b1 = .ok b2) :
    (∀ w ∈ (pbSubProto.Pack env encodedLen marshalErr writeErr m).writes,
      (pbSubProto.Unpack env (.wire w) m0).2.seq = m.seq ∧
      (pbSubProto.Unpack env (.wire w) m0).2.mtype = m.mtype ∧
      (pbSubProto.Unpack env (.wire w) m0).2.serviceMethod = m.serviceMethod ∧
      (pbSubProto.Unpack env (.wire w) m0).2.bodyCodec = m.bodyCodec ∧
      (pbSubProto.Unpack env (.wire w) m0).2.xferPipe = m.xferPipe) ∧
    ((∃ b b1, env.marshalBody m = .ok b ∧ env.onPack m.xferPipe b = .ok b1 ∧
        marshalErr = none) →
      (pbSubProto.Pack env encodedLen marshalErr writeErr m).writes.length = 1) ∧
    ((¬ ∃ b b1, env.marshalBody m = .ok b ∧ env.onPack m.xferPipe b = .ok b1 ∧
        marshalErr = none) →
      (pbSubProto.Pack env encodedLen marshalErr writeErr m).writes = []) ∧
    (∀ w ∈ (pbSubProto.Pack env encodedLen marshalErr writeErr m).writes,
      (env.checkMessageSize (toUint32 w.encodedLen) = none →
        (pbSubProto.Pack env encodedLen marshalErr writeErr m).msg.size =
            toUint32 w.encodedLen ∧
          (w.encodedLen < 2 ^ 32 →
            (pbSubProto.Pack env encodedLen marshalErr writeErr m).msg.size =
              w.encodedLen)) ∧
      (env.checkMessageSize (toUint32 w.encodedLen) ≠ none →
        (pbSubProto.Pack env encodedLen marshalErr writeErr m).msg.size = m.size ∧
          (pbSubProto.Pack env encodedLen marshalErr writeErr m).err = writeErr)) := by
  have hfilter : m.xferPipe.filter env.registered = m.xferPipe :=
    List.filter_eq_self.2 hreg
  cases hb : env.marshalBody m with
  | error e =>
    refine ⟨?_, ?_, ?_, ?_⟩ <;> simp [pbSubProto.Pack, hb]
  | ok b =>
    cases hp : env.onPack m.xferPipe b with
    | error e =>
      refine ⟨?_, ?_, ?_, ?_⟩ <;> simp [pbSubProto.Pack, hb, hp]
    | ok b1 =>
      cases marshalErr with
      | some e =>
        refine ⟨?_, ?_, ?_, ?_⟩ <;> simp [pbSubProto.Pack, hb, hp]
      | none =>
        have hw : (pbSubProto.Pack env encodedLen none writeErr m).writes =
            [⟨⟨m.seq, (m.mtype : Int), m.serviceMethod, env.metaQueryString m.meta,
              (m.bodyCodec : Int), b1, m.xferPipe⟩,
              encodedLen ⟨m.seq, (m.mtype : Int), m.serviceMethod, env.metaQueryString m.meta,
                (m.bodyCodec : Int), b1, m.xferPipe⟩⟩] := by
          simp [pbSubProto.Pack, hb, hp]
        have hmsg : (pbSubProto.Pack env encodedLen none writeErr m).msg =
            (Message.SetSize env m (toUint32 (encodedLen ⟨m.seq, (m.mtype : Int),
              m.serviceMethod, env.metaQueryString m.meta, (m.bodyCodec : Int), b1,
              m.xferPipe⟩))).2 := by
          simp [pbSubProto.Pack, hb, hp]
        have herr : (pbSubProto.Pack env encodedLen none writeErr m).err = writeErr := by
          simp [pbSubProto.Pack, hb, hp]
        obtain ⟨b2, hb2⟩ := hun b b1 hp
        refine ⟨?_, ?_, ?_, ?_⟩
        · intro w hmem
          rw [hw, List.mem_singleton] at hmem
          subst hmem
          obtain ⟨k, hk⟩ := setSize_only_size env m0
            (toUint32 (encodedLen ⟨m.seq, (m.mtype : Int), m.serviceMethod,
              env.metaQueryString m.meta, (m.bodyCodec : Int), b1, m.xferPipe⟩))
          simp only [pbSubProto.Unpack, hk, foldl_xferAppendOne, hfresh, List.nil_append,
            hfilter, hb2]
          cases env.unmarshalBody _ b2 with
          | error e => exact ⟨rfl, toByte_cast _ hm, rfl, toByte_cast _ hc, rfl⟩
          | ok body => exact ⟨rfl, toByte_cast _ hm, rfl, toByte_cast _ hc, rfl⟩
        · intro _
          rw [hw]
          rfl
        · intro hno
          exact absurd ⟨b, b1, rfl, hp, rfl⟩ hno
        · intro w hmem
          rw [hw, List.mem_singleton] at hmem
          subst hmem
          rw [hmsg, herr]
          dsimp only
          constructor
          · intro hcheck
            have hs : (Message.SetSize env m (toUint32 (encodedLen ⟨m.seq, (m.mtype : Int),
                m.serviceMethod, env.metaQueryString m.meta, (m.bodyCodec : Int), b1,
                m.xferPipe⟩))).2.size = toUint32 (encodedLen ⟨m.seq, (m.mtype : Int),
                m.serviceMethod, env.metaQueryString m.meta, (m.bodyCodec : Int), b1,
                m.xferPipe⟩) := by
              simp [Message.SetSize, hcheck]
            refine ⟨hs, fun hlt => ?_⟩
            rw [hs]
            unfold toUint32
            exact Nat.mod_eq_of_lt hlt
          · intro hcheck
            refine ⟨?_, rfl⟩
            unfold Message.SetSize
            cases hcm : env.checkMessageSize (toUint32 (encodedLen ⟨m.seq, (m.mtype : Int),
                m.serviceMethod, env.metaQueryString m.meta, (m.bodyCodec : Int), b1,
                m.xferPipe⟩)) with
            | none => exact absurd hcm hcheck
            | some e => rfl

/-- C30 (the code drops the error of `SetSize`): in an environment where
`SetSize` refuses a size above 10, `pbSubProto.Pack` of a CALL whose encoding is
64 bytes long writes the 64 bytes and returns nil, though `SetSize` refused
and the size recorded on the message is still 0, not 64; `binaryPack` returns
the error of `SetSize` in the same environment. -/
theorem pbSubProto_pack_size_not_recorded :
    (∀ id ∈ gzipCall.xferPipe, limitedEnv.registered id = true) ∧
      (Message.SetSize limitedEnv gzipCall 64).1 = some "message is too large" ∧
      (pbSubProto.Pack limitedEnv (fun _ => 64) none none gzipCall).err = none ∧
      (pbSubProto.Pack limitedEnv (fun _ => 64) none none gzipCall).writes.map
          (fun w => w.encodedLen) = [64] ∧
      (pbSubProto.Pack limitedEnv (fun _ => 64) none none gzipCall).msg.size = 0 ∧
      (binaryPack limitedEnv (fun _ => 64) none ⟨0, 0⟩ gzipCall).err =
        some "message is too large" := by
  decide

end Yrpc
